import Mathlib

/-!
Verification development for the PythonGame repository.

This file gives a shallow embedding, in Lean 4, of the parts of the game
relevant to the frozen claims: the procedural world generator
(src/world/generator.py), the wall query (src/game_core/game.py), the
projectile stepper (src/systems/combat.py), the DDA raycaster
(src/systems/raycast.py), the sprite draw passes, and the dash / damage /
respawn logic of the game loop.

Modelling conventions:
* The tile characters of the Python grid are embedded as booleans:
  a cell is `true` for the wall tile and `false` for the floor tile.
* Python floats are embedded as rationals; transcendental float
  operations that the control flow merely passes through
  (the hypotenuse norm) are abstracted as function parameters
  constrained by the hypotheses the claims need.
* Randomness is abstracted as oracle streams: each call of the seeded
  generator draws the next value of a seeded stream, and each call of the
  global random module draws from a separate global stream.  A fixed seed
  fixes the seeded streams; the global streams are process state.
* Bounded while-loops of the source become fuel recursion with the same
  bounds the source uses; unbounded while-loops (the BFS queues) get a
  fuel that is proved sufficient.
-/

set_option maxHeartbeats 1000000

/-- A map cell: `true` embeds the wall tile and `false` the floor tile. -/
abbrev Cell := Bool

/-- The grid of src/world/generator.py: a list of rows, each a list of cells. -/
abbrev Grid := List (List Cell)

/-- A boolean mask with the same row/column layout as a grid
(the reachability masks of the generator). -/
abbrev Mask := List (List Bool)

/-- Read one cell; out-of-range reads default to wall.  In the embedded code
every read site is guarded so the default is never hit on well-formed grids. -/
def getCell (g : Grid) (x y : Nat) : Cell :=
  (g.getD y []).getD x true

/-- Write one cell (out-of-range writes are no-ops, mirroring that every write
site in the source is guarded to be in range). -/
def setCell (g : Grid) (x y : Nat) (c : Cell) : Grid :=
  g.set y ((g.getD y []).set x c)

/-- Read a mask entry; defaults to false out of range. -/
def getMask (m : Mask) (x y : Nat) : Bool :=
  (m.getD y []).getD x false

/-- Write a mask entry. -/
def setMask (m : Mask) (x y : Nat) (b : Bool) : Mask :=
  m.set y ((m.getD y []).set x b)

/-- Integer-coordinate cell read, used by loops whose counters are signed. -/
def getCellI (g : Grid) (x y : Int) : Cell :=
  getCell g x.toNat y.toNat

/-- Integer-coordinate cell write. -/
def setCellI (g : Grid) (x y : Int) (c : Cell) : Grid :=
  setCell g x.toNat y.toNat c

/-- Integer-coordinate mask read. -/
def getMaskI (m : Mask) (x y : Int) : Bool :=
  getMask m x.toNat y.toNat

/-- Integer-coordinate mask write. -/
def setMaskI (m : Mask) (x y : Int) (b : Bool) : Mask :=
  setMask m x.toNat y.toNat b

/-- The all-wall starting grid of generate_world_map (generator.py line 12). -/
def initGrid (w h : Nat) : Grid :=
  List.replicate h (List.replicate w true)

/-- The all-false mask used by the flood fills. -/
def emptyMask (w h : Nat) : Mask :=
  List.replicate h (List.replicate w false)

/-- Random oracle streams.  rInts/rFloats embed the draws of the seeded
random.Random(seed) object (integer-valued draws for randint/choice,
rational draws for random()); gInts/gFloats embed the draws of the global
random module that generator.py lines 162-163 use inside dig_corridor. -/
structure Oracle where
  rInts : Nat → Nat
  rFloats : Nat → ℚ
  gInts : Nat → Nat
  gFloats : Nat → ℚ

/-- Generator state: the grid under construction, the four stream cursors,
and the carved room centers list. -/
structure GenSt where
  grid : Grid
  ii : Nat
  fi : Nat
  gii : Nat
  gfi : Nat
  centers : List (Int × Int)

/-- Draw rng.randint(a, b): the next seeded integer folded into [a, b]. -/
def drawRandint (o : Oracle) (s : GenSt) (a b : Int) : Int × GenSt :=
  (a + Int.ofNat (o.rInts s.ii % (b - a + 1).toNat), { s with ii := s.ii + 1 })

/-- Draw rng.random(): the next seeded rational. -/
def drawRandFloat (o : Oracle) (s : GenSt) : ℚ × GenSt :=
  (o.rFloats s.fi, { s with fi := s.fi + 1 })

/-- Draw an rng.choice index into a list of length n. -/
def drawChoiceIdx (o : Oracle) (s : GenSt) (n : Nat) : Nat × GenSt :=
  (o.rInts s.ii % n, { s with ii := s.ii + 1 })

/-- Draw random.random() from the global stream (generator.py line 162). -/
def drawGlobalFloat (o : Oracle) (s : GenSt) : ℚ × GenSt :=
  (o.gFloats s.gfi, { s with gfi := s.gfi + 1 })

/-- Draw a random.choice index from the global stream (generator.py line 163). -/
def drawGlobalChoiceIdx (o : Oracle) (s : GenSt) (n : Nat) : Nat × GenSt :=
  (o.gInts s.gii % n, { s with gii := s.gii + 1 })

/-- The cardinal direction list of generator.py line 54. -/
def directions : List (Int × Int) := [(1, 0), (-1, 0), (0, 1), (0, -1)]

/-- An inclusive integer range as a list, for the signed for-loops. -/
def intRange (a b : Int) : List Int :=
  (List.range (b + 1 - a).toNat).map (fun i => a + Int.ofNat i)

/-- The guarded single-cell carve of generator.py lines 15-17. -/
def carve (w h : Nat) (g : Grid) (x y : Int) : Grid :=
  if 0 < x ∧ x < (w : Int) - 1 ∧ 0 < y ∧ y < (h : Int) - 1 then
    setCellI g x y false
  else g

/-- The filled-ellipse carve of generator.py lines 19-31. -/
def carve_ellipse (w h : Nat) (g : Grid) (cx cy rx ry : Int) : Grid :=
  let rxSq : Int := max 1 (rx * rx)
  let rySq : Int := max 1 (ry * ry)
  (intRange (-ry) ry).foldl (fun g1 dy =>
    let py := cy + dy
    if py ≤ 0 ∨ py ≥ (h : Int) - 1 then g1
    else
      (intRange (-rx) rx).foldl (fun g2 dx =>
        let px := cx + dx
        if px ≤ 0 ∨ px ≥ (w : Int) - 1 then g2
        else if dx * dx * rySq + dy * dy * rxSq ≤ rxSq * rySq then
          setCellI g2 px py false
        else g2) g1) g

/-- The filled-rectangle carve of generator.py lines 33-41. -/
def carve_rectangle (w h : Nat) (g : Grid) (cx cy halfW halfH : Int) : Grid :=
  let x0 := max 1 (cx - halfW)
  let x1 := min ((w : Int) - 2) (cx + halfW)
  let y0 := max 1 (cy - halfH)
  let y1 := min ((h : Int) - 2) (cy + halfH)
  (intRange y0 y1).foldl (fun g1 py =>
    (intRange x0 x1).foldl (fun g2 px => setCellI g2 px py false) g1) g

/-- The square-stamp carve of generator.py lines 108-119 (carve_wide). -/
def carve_wide (w h : Nat) (g : Grid) (x y : Int) (radius : Int) : Grid :=
  let r := max 0 radius
  (intRange (-r) r).foldl (fun g1 dy =>
    let py := y + dy
    if py ≤ 0 ∨ py ≥ (h : Int) - 1 then g1
    else
      (intRange (-r) r).foldl (fun g2 dx =>
        let px := x + dx
        if px ≤ 0 ∨ px ≥ (w : Int) - 1 then g2
        else if max dx.natAbs dy.natAbs ≤ r.toNat then setCellI g2 px py false
        else g2) g1) g

/-- Round-half-to-even on rationals, embedding the Python round() builtin
used by carve_line (generator.py lines 128-129). -/
def roundHalfEven (q : ℚ) : Int :=
  let f : Int := q.floor
  let fracNum : Int := q.num - f * (q.den : Int)
  if 2 * fracNum < (q.den : Int) then f
  else if (q.den : Int) < 2 * fracNum then f + 1
  else if f % 2 = 0 then f else f + 1

/-- The rasterized line of disk stamps of generator.py lines 121-131
(carve_line). -/
def carve_line (w h : Nat) (g : Grid) (x0 y0 x1 y1 radius : Int) : Grid :=
  let steps : Nat := max (x1 - x0).natAbs (y1 - y0).natAbs
  if steps = 0 then carve_wide w h g x0 y0 radius
  else
    (List.range (steps + 1)).foldl (fun g1 step =>
      let x := roundHalfEven (mkRat (x0 * steps + (x1 - x0) * step) steps)
      let y := roundHalfEven (mkRat (y0 * steps + (y1 - y0) * step) steps)
      if 1 ≤ x ∧ x < (w : Int) - 1 ∧ 1 ≤ y ∧ y < (h : Int) - 1 then
        carve_wide w h g1 x y radius
      else g1) g

/-- One iteration of the room-carving loop of generator.py lines 45-52:
draw a center, carve an ellipse or a rectangle, record the center. -/
def doRoom (w h : Nat) (o : Oracle) (s : GenSt) : GenSt :=
  let (cx, s) := drawRandint o s 8 ((w : Int) - 9)
  let (cy, s) := drawRandint o s 8 ((h : Int) - 9)
  let (p, s) := drawRandFloat o s
  let s :=
    if p < mkRat 6 10 then
      let (rx, s) := drawRandint o s 5 13
      let (ry, s) := drawRandint o s 4 11
      { s with grid := carve_ellipse w h s.grid cx cy rx ry }
    else
      let (hw, s) := drawRandint o s 4 12
      let (hh, s) := drawRandint o s 4 12
      { s with grid := carve_rectangle w h s.grid cx cy hw hh }
  { s with centers := s.centers ++ [(cx, cy)] }

/-- The room-attempt count of generator.py line 44. -/
def roomAttempts (w h : Nat) : Nat := max 80 (w * h / 1700)

/-- The full room pass. -/
def roomsPhase (w h : Nat) (o : Oracle) (s : GenSt) : GenSt :=
  (List.range (roomAttempts w h)).foldl (fun s1 _ => doRoom w h o s1) s

/-- The carve of the cross-section strip at one corridor step
(generator.py lines 66-73). -/
def corridorStamp (w h : Nat) (chw : Nat) (x y dx : Int) (g : Grid) : Grid :=
  let g := carve w h g x y
  (List.range chw).foldl (fun g1 i =>
    let off : Int := Int.ofNat i + 1
    if dx ≠ 0 then carve w h (carve w h g1 x (y + off)) x (y - off)
    else carve w h (carve w h g1 (x + off) y) (x - off) y) g

/-- The corridor walk of generator.py lines 63-77: step forward, carving a
strip, with probability 1/10 of redrawing the direction, breaking when the
head leaves the interior margin. -/
def corridorWalk (w h : Nat) (o : Oracle) (chw : Nat) :
    Nat → Int → Int → Int → Int → GenSt → GenSt
  | 0, _, _, _, _, s => s
  | n + 1, x, y, dx, dy, s =>
    if x ≤ 1 ∨ x ≥ (w : Int) - 2 ∨ y ≤ 1 ∨ y ≥ (h : Int) - 2 then s
    else
      let s := { s with grid := corridorStamp w h chw x y dx s.grid }
      let (p, s) := drawRandFloat o s
      if p < mkRat 1 10 then
        let (i, s) := drawChoiceIdx o s 4
        let d := directions.getD i (0, 0)
        corridorWalk w h o chw n (x + d.1) (y + d.2) d.1 d.2 s
      else corridorWalk w h o chw n (x + dx) (y + dy) dx dy s

/-- One iteration of the corridor loop of generator.py lines 56-77. -/
def doCorridor (w h : Nat) (o : Oracle) (s : GenSt) : GenSt :=
  let (ci, s) := drawChoiceIdx o s s.centers.length
  let c := s.centers.getD ci (0, 0)
  let (di, s) := drawChoiceIdx o s 4
  let d := directions.getD di (0, 0)
  let (len, s) := drawRandint o s 18 64
  let (p, s) := drawRandFloat o s
  let chw : Nat := if p < mkRat 75 100 then 1 else 2
  corridorWalk w h o chw len.toNat c.1 c.2 d.1 d.2 s

/-- The corridor pass (corridor_count iterations; the break on an empty
center list stops the whole loop, mirrored by the early return). -/
def corridorsPhase (w h : Nat) (o : Oracle) : Nat → GenSt → GenSt
  | 0, s => s
  | n + 1, s =>
    if s.centers.isEmpty then s
    else corridorsPhase w h o n (doCorridor w h o s)

/-- The 8-neighborhood offsets of generator.py lines 79-88. -/
def neighborOffsets : List (Int × Int) :=
  [(-1, -1), (0, -1), (1, -1), (-1, 0), (1, 0), (-1, 1), (0, 1), (1, 1)]

/-- Count the floor cells among the 8 neighbors of (x, y)
(generator.py lines 94-99). -/
def floorNeighbors (old : Grid) (x y : Int) : Nat :=
  neighborOffsets.foldl (fun c d =>
    if getCellI old (x + d.1) (y + d.2) = false then c + 1 else c) 0

/-- One smoothing iteration of generator.py lines 90-106: rules are read from
the old grid and written into a copy. -/
def automatonStep (w h : Nat) (old : Grid) : Grid :=
  (intRange 1 ((h : Int) - 2)).foldl (fun gAcc y =>
    (intRange 1 ((w : Int) - 2)).foldl (fun gAcc2 x =>
      let fl := floorNeighbors old x y
      if getCellI old x y = false then
        if fl < 2 then setCellI gAcc2 x y true else gAcc2
      else
        if fl ≥ 5 then setCellI gAcc2 x y false else gAcc2) gAcc) old

/-- The three fixed smoothing iterations. -/
def automatonPhase (w h : Nat) (g : Grid) : Grid :=
  automatonStep w h (automatonStep w h (automatonStep w h g))

/-- The spawn-disk carve of generator.py lines 136-146. -/
def spawnDisk (w h : Nat) (g : Grid) (cx cy : Int) : Grid :=
  (intRange (-7) 7).foldl (fun g1 dy =>
    let py := cy + dy
    if py ≤ 1 ∨ py ≥ (h : Int) - 2 then g1
    else
      (intRange (-7) 7).foldl (fun g2 dx =>
        let px := cx + dx
        if px ≤ 1 ∨ px ≥ (w : Int) - 2 then g2
        else if dx * dx + dy * dy ≤ 49 then setCellI g2 px py false
        else g2) g1) g

/-- The outward corridor of generator.py lines 150-167 (dig_corridor): walks
from the center, carving radius-2 stamps, breaking when it leaves the
interior or re-enters pre-existing floor far enough out; each step draws
from the GLOBAL random streams (the source uses the random module here,
not the seeded rng). -/
def digCorridorLoop (w h : Nat) (o : Oracle) (cx cy dirX dirY : Int) :
    Nat → Nat → Int → Int → GenSt → GenSt
  | 0, _, _, _, s => s
  | n + 1, step, x, y, s =>
    let x := x + dirX
    let y := y + dirY
    if ¬(1 ≤ x ∧ x < (w : Int) - 1 ∧ 1 ≤ y ∧ y < (h : Int) - 1) then s
    else
      let wasFloor := getCellI s.grid x y = false
      let s := { s with grid := carve_wide w h s.grid x y 2 }
      if wasFloor ∧ step > 11 then s
      else
        let (p, s) := drawGlobalFloat o s
        let s :=
          if p < mkRat 8 100 then
            let (i, s) := drawGlobalChoiceIdx o s 4
            let d := directions.getD i (0, 0)
            let tx := x + d.1
            let ty := y + d.2
            if 1 ≤ tx ∧ tx < (w : Int) - 1 ∧ 1 ≤ ty ∧ ty < (h : Int) - 1 then
              { s with grid := carve_wide w h s.grid tx ty 2 }
            else s
          else s
        digCorridorLoop w h o cx cy dirX dirY n (step + 1) x y s

/-- Run dig_corridor for one direction (max_steps = max(width, height),
stepping for step = 1 .. max_steps - 1). -/
def dig_corridor (w h : Nat) (o : Oracle) (cx cy dirX dirY : Int)
    (s : GenSt) : GenSt :=
  digCorridorLoop w h o cx cy dirX dirY (max w h - 1) 1 cx cy s

/-- The spawn-area phase of generator.py lines 133-171 (ensure_spawn_area):
disk carve plus four outward corridors; returns the center. -/
def ensure_spawn_area (w h : Nat) (o : Oracle) (s : GenSt) :
    (Int × Int) × GenSt :=
  let cx : Int := Int.ofNat (w / 2)
  let cy : Int := Int.ofNat (h / 2)
  let s := { s with grid := spawnDisk w h s.grid cx cy }
  let s := directions.foldl (fun s1 d => dig_corridor w h o cx cy d.1 d.2 s1) s
  ((cx, cy), s)

/-- The lattice edge targets of generator.py lines 181-190. -/
def edgeTargets (w h : Nat) : List (Int × Int) :=
  [(1, 1), ((w : Int) - 2, 1), (1, (h : Int) - 2), ((w : Int) - 2, (h : Int) - 2),
   (Int.ofNat (w / 2), 1), (Int.ofNat (w / 2), (h : Int) - 2),
   (1, Int.ofNat (h / 2)), ((w : Int) - 2, Int.ofNat (h / 2))]

/-- The navigation-lattice phase of generator.py lines 173-192. -/
def build_navigation_lattice (w h : Nat) (g : Grid) (cx cy : Int) : Grid :=
  let g := [2, 4, 6].foldl (fun g1 (i : Nat) =>
    let x : Int := Int.ofNat (i * w / 8)
    let g1 := carve_line w h g1 x 1 x ((h : Int) - 2) 1
    let y : Int := Int.ofNat (i * h / 8)
    carve_line w h g1 1 y ((w : Int) - 2) y 1) g
  (edgeTargets w h).foldl (fun g1 t => carve_line w h g1 cx cy t.1 t.2 2) g

/-- State of a BFS flood fill: visited mask, visit-ordered cell list
and the FIFO queue. -/
structure BfsSt where
  mask : Mask
  cells : List (Int × Int)
  queue : List (Int × Int)

/-- The neighbor visit of the reachability BFS of generator.py
lines 207-216 / 235-244: skip out-of-bounds, non-floor and already
visited cells, otherwise mark and enqueue. -/
def bfsPush (w : Nat) (h : Nat) (g : Grid) (st1 : BfsSt) (q : Int × Int) :
    BfsSt :=
  if ¬(0 ≤ q.1 ∧ q.1 < (w : Int) ∧ 0 ≤ q.2 ∧ q.2 < (h : Int)) then st1
  else if getCellI g q.1 q.2 ≠ false ∨ getMaskI st1.mask q.1 q.2 then st1
  else
    { mask := setMaskI st1.mask q.1 q.2 true,
      cells := st1.cells ++ [q],
      queue := st1.queue ++ [q] }

/-- Process one popped cell of the reachability BFS of generator.py
lines 205-216 / 233-244: push each unvisited in-bounds floor 4-neighbor. -/
def bfsStep (w : Nat) (h : Nat) (g : Grid) (st : BfsSt) : BfsSt :=
  match st.queue with
  | [] => st
  | p :: rest =>
    directions.foldl (fun st1 d => bfsPush w h g st1 (p.1 + d.1, p.2 + d.2))
      { st with queue := rest }

/-- Run the BFS while-loop with the given fuel. -/
def bfsRun (w h : Nat) (g : Grid) : Nat → BfsSt → BfsSt
  | 0, st => st
  | n + 1, st =>
    match st.queue with
    | [] => st
    | _ :: _ => bfsRun w h g n (bfsStep w h g st)

/-- The reachability computation of generator.py lines 194-217
(compute_reachable_from): mask, count and visit-ordered cells of the
4-connected floor component of the start cell. -/
def compute_reachable_from (w h : Nat) (g : Grid) (sx sy : Int) :
    Mask × Nat × List (Int × Int) :=
  if ¬(0 ≤ sx ∧ sx < (w : Int) ∧ 0 ≤ sy ∧ sy < (h : Int)) then
    (emptyMask w h, 0, [])
  else if getCellI g sx sy ≠ false then (emptyMask w h, 0, [])
  else
    let st0 : BfsSt :=
      { mask := setMaskI (emptyMask w h) sx sy true,
        cells := [(sx, sy)], queue := [(sx, sy)] }
    let st := bfsRun w h g (w * h + 1) st0
    (st.mask, st.cells.length, st.cells)

/-- The incremental flood fill of generator.py lines 219-244
(mark_reachable_from), reusing the same BFS loop. -/
def mark_reachable_from (w h : Nat) (g : Grid) (sx sy : Int)
    (mask : Mask) (cells : List (Int × Int)) : Mask × List (Int × Int) :=
  if ¬(0 ≤ sx ∧ sx < (w : Int) ∧ 0 ≤ sy ∧ sy < (h : Int)) then (mask, cells)
  else if getCellI g sx sy ≠ false ∨ getMaskI mask sx sy then (mask, cells)
  else
    let st0 : BfsSt :=
      { mask := setMaskI mask sx sy true,
        cells := cells ++ [(sx, sy)], queue := [(sx, sy)] }
    let st := bfsRun w h g (w * h + 1) st0
    (st.mask, st.cells)

/-- Integer sign step toward a target, as in generator.py lines 255-267. -/
def stepToward (cur target : Int) : Int :=
  if target > cur then 1 else -1

/-- The bounded while-loop of generator.py lines 252-267 inside carve_tunnel:
greedy stepping toward the target with two jitter draws per iteration. -/
def tunnelLoop (w h : Nat) (o : Oracle) (tx ty : Int) :
    Nat → Int → Int → GenSt → GenSt
  | 0, _, _, s => s
  | n + 1, x, y, s =>
    if x = tx ∧ y = ty then s
    else
      let moveH := (tx - x).natAbs > (ty - y).natAbs
      let xy :=
        if moveH ∧ x ≠ tx then (x + stepToward x tx, y)
        else if y ≠ ty then (x, y + stepToward y ty)
        else if x ≠ tx then (x + stepToward x tx, y)
        else (x, y)
      let x := xy.1
      let y := xy.2
      let s := { s with grid := carve_wide w h s.grid x y 1 }
      let (p1, s) := drawRandFloat o s
      let s :=
        if p1 < mkRat 3 10 ∧ x ≠ tx then
          { s with grid := carve_wide w h s.grid (x + stepToward x tx) y 0 }
        else s
      let (p2, s) := drawRandFloat o s
      let s :=
        if p2 < mkRat 3 10 ∧ y ≠ ty then
          { s with grid := carve_wide w h s.grid x (y + stepToward y ty) 0 }
        else s
      tunnelLoop w h o tx ty n x y s

/-- The straight-biased tunnel of generator.py lines 246-268 (carve_tunnel). -/
def carve_tunnel (w h : Nat) (o : Oracle) (start finish : Int × Int)
    (s : GenSt) : GenSt :=
  let s := { s with grid := carve_wide w h s.grid start.1 start.2 1 }
  let s := tunnelLoop w h o finish.1 finish.2 (w + h) start.1 start.2 s
  { s with grid := carve_wide w h s.grid finish.1 finish.2 1 }

/-- State of one unreachable-component flood fill: the shared seen mask, the
component cells in pop order, and the queue. -/
structure CompSt where
  seen : Mask
  comp : List (Int × Int)
  queue : List (Int × Int)

/-- Process one popped cell of the component BFS of generator.py
lines 282-296: record it and push unseen interior floor unreached
4-neighbors. -/
def compStep (w h : Nat) (g : Grid) (mask : Mask) (st : CompSt) : CompSt :=
  match st.queue with
  | [] => st
  | p :: rest =>
    directions.foldl (fun st1 d =>
      let nx := p.1 + d.1
      let ny := p.2 + d.2
      if ¬(1 ≤ nx ∧ nx < (w : Int) - 1 ∧ 1 ≤ ny ∧ ny < (h : Int) - 1) then st1
      else if getCellI g nx ny ≠ false ∨ getMaskI mask nx ny ∨
          getMaskI st1.seen nx ny then st1
      else
        { st1 with seen := setMaskI st1.seen nx ny true,
                   queue := st1.queue ++ [(nx, ny)] })
      { st with queue := rest, comp := st.comp ++ [p] }

/-- Run the component BFS with the given fuel. -/
def compRun (w h : Nat) (g : Grid) (mask : Mask) : Nat → CompSt → CompSt
  | 0, st => st
  | n + 1, st =>
    match st.queue with
    | [] => st
    | _ :: _ => compRun w h g mask n (compStep w h g mask st)

/-- First minimum of a list under an integer key, embedding the Python min
builtin with a key function (stable: ties keep the earlier element). -/
def minByKey (key : Int × Int → Int) (l : List (Int × Int)) :
    Option (Int × Int) :=
  l.foldl (fun best a =>
    match best with
    | none => some a
    | some b => if key a < key b then some a else some b) none

/-- Squared Euclidean distance between integer cells, the min keys of
generator.py lines 299-303. -/
def sqDist (a b : Int × Int) : Int :=
  (a.1 - b.1) * (a.1 - b.1) + (a.2 - b.2) * (a.2 - b.2)

/-- State threaded through connect_unreachable_components. -/
structure ConnSt where
  s : GenSt
  mask : Mask
  cells : List (Int × Int)
  seen : Mask

/-- The body of the double scan of generator.py lines 277-305 at one interior
cell: if it is an unreached, unseen floor cell, flood its component, pick the
representative closest to the center, tunnel to it from the nearest reached
cell and mark the newly joined region. -/
def connectCell (w h : Nat) (o : Oracle) (cx cy : Int) (c : ConnSt)
    (x y : Int) : ConnSt :=
  if getCellI c.s.grid x y ≠ false ∨ getMaskI c.mask x y ∨
      getMaskI c.seen x y then c
  else
    let st0 : CompSt :=
      { seen := setMaskI c.seen x y true, comp := [], queue := [(x, y)] }
    let st := compRun w h c.s.grid c.mask (w * h + 1) st0
    let c := { c with seen := st.seen }
    if st.comp.isEmpty ∨ c.cells.isEmpty then c
    else
      match minByKey (fun cell => sqDist cell (cx, cy)) st.comp with
      | none => c
      | some target =>
        match minByKey (fun cell => sqDist cell target) c.cells with
        | none => c
        | some connectTo =>
          let s := carve_tunnel w h o connectTo target c.s
          let mc := mark_reachable_from w h s.grid target.1 target.2 c.mask c.cells
          { c with s := s, mask := mc.1, cells := mc.2 }

/-- The full scan of connect_unreachable_components
(generator.py lines 270-305). -/
def connect_unreachable_components (w h : Nat) (o : Oracle) (cx cy : Int)
    (c : ConnSt) : ConnSt :=
  (intRange 1 ((h : Int) - 2)).foldl (fun c1 y =>
    (intRange 1 ((w : Int) - 2)).foldl (fun c2 x =>
      connectCell w h o cx cy c2 x y) c1) c

/-- The final pruning of generator.py lines 316-319: interior floor cells not
in the reachable mask become wall. -/
def pruneUnreachable (w h : Nat) (g : Grid) (mask : Mask) : Grid :=
  (List.range' 1 (h - 2)).foldl (fun g1 y =>
    (List.range' 1 (w - 2)).foldl (fun g2 x =>
      if getCell g2 x y = false ∧ getMask mask x y = false then
        setCell g2 x y true
      else g2) g1) g

/-- The border sealing of generator.py lines 321-326. -/
def sealBorder (w h : Nat) (g : Grid) : Grid :=
  let g := (List.range w).foldl (fun g1 x =>
    setCell (setCell g1 x 0 true) x (h - 1) true) g
  (List.range h).foldl (fun g1 y =>
    setCell (setCell g1 0 y true) (w - 1) y true) g

/-- The generator pipeline of generate_world_map up to and including the
connectivity repair (generator.py lines 10-313): the grid handed to the
final reachability recomputation. -/
def genAfterConnect (w h : Nat) (o : Oracle) : Grid :=
  let s0 : GenSt :=
    { grid := initGrid w h, ii := 0, fi := 0, gii := 0, gfi := 0, centers := [] }
  let s := roomsPhase w h o s0
  let s := corridorsPhase w h o (roomAttempts w h * 2) s
  let s := { s with grid := automatonPhase w h s.grid }
  let cs := ensure_spawn_area w h o s
  let center := cs.1
  let s := cs.2
  let s := { s with grid := build_navigation_lattice w h s.grid center.1 center.2 }
  let mcc := compute_reachable_from w h s.grid center.1 center.2
  let mcs :=
    if mcc.2.1 = 0 then
      let s := { s with grid := carve w h s.grid center.1 center.2 }
      let mcc2 := compute_reachable_from w h s.grid center.1 center.2
      (mcc2.1, mcc2.2.2, s)
    else (mcc.1, mcc.2.2, s)
  let c : ConnSt :=
    { s := mcs.2.2, mask := mcs.1, cells := mcs.2.1, seen := emptyMask w h }
  let c := connect_unreachable_components w h o center.1 center.2 c
  c.s.grid

/-- The full world generator of generator.py lines 10-328
(generate_world_map), over abstract oracle streams: the repaired grid is
re-flood-filled from the center, pruned to the reachable set, and sealed. -/
def generate_world_map (w h : Nat) (o : Oracle) : Grid :=
  let g2 := genAfterConnect w h o
  let finalMask :=
    (compute_reachable_from w h g2 (Int.ofNat (w / 2)) (Int.ofNat (h / 2))).1
  sealBorder w h (pruneUnreachable w h g2 finalMask)

/-- The map width of config/settings.py line 31. -/
def MAP_WIDTH : Nat := 516

/-- The map height of config/settings.py line 32. -/
def MAP_HEIGHT : Nat := 516

/-- The Python int() builtin on a float: truncation toward zero. -/
def pyInt (q : ℚ) : Int :=
  if 0 ≤ q then q.floor else -((-q).floor)

/-- Modelled from the spec: the numeric tuning constants of config/tuning.py.
That module is not under src/ (only its importers are), and the spec names
the constants (step distance threshold, max travel distance, hit radii,
damage, cooldowns, max health, dash geometry) without fixing their values,
so they are parameters of the embedding. -/
structure Tuning where
  PROJECTILE_STEP_DISTANCE : ℚ
  PROJECTILE_MAX_DISTANCE : ℚ
  PROJECTILE_SPEED : ℚ
  PROJECTILE_COOLDOWN : ℚ
  ENEMY_PROJECTILE_SPEED : ℚ
  ENEMY_PROJECTILE_DAMAGE : Int
  ENEMY_HIT_RADIUS : ℚ
  EXPLOSION_DURATION : ℚ
  PLAYER_MAX_HEALTH : Int
  PLAYER_HIT_RADIUS : ℚ
  DASH_COOLDOWN : ℚ
  DASH_DISTANCE : ℚ
  DASH_STEP_DISTANCE : ℚ

/-- A projectile owner tag: the strings "player" and "enemy" of combat.py. -/
inductive Owner where
  | player
  | enemy
deriving DecidableEq, Repr

/-- The projectile record of combat.py lines 26-35. -/
structure Projectile where
  posX : ℚ
  posY : ℚ
  dirX : ℚ
  dirY : ℚ
  speed : ℚ
  distance : ℚ
  spawnTime : ℚ
  owner : Owner
deriving DecidableEq, Repr

/-- The enemy record of spawner.py lines 38-42. -/
structure Enemy where
  posX : ℚ
  posY : ℚ
  spawnTime : ℚ
  lastShot : ℚ
deriving DecidableEq, Repr

/-- The explosion record appended at combat.py line 87. -/
structure Explosion where
  posX : ℚ
  posY : ℚ
  start : ℚ
deriving DecidableEq, Repr

/-- The state threaded through the substep loop of combat.py lines 61-85:
position, cumulative travelled distance, the collided flag, the shared
enemies_hit list, and whether on_player_hit was invoked for this
projectile. -/
structure SubstepSt where
  posX : ℚ
  posY : ℚ
  travelled : ℚ
  collided : Bool
  hitList : List Enemy
  playerHit : Bool
deriving Repr

/-- The enemy scan of combat.py lines 72-78: the first enemy not already in
enemies_hit whose distance (by the abstracted hypot) is within the hit
radius. -/
def findEnemyHit (hyp : ℚ → ℚ → ℚ) (radius : ℚ) (hitList : List Enemy)
    (posX posY : ℚ) : List Enemy → Option Enemy
  | [] => none
  | e :: rest =>
    if e ∈ hitList then findEnemyHit hyp radius hitList posX posY rest
    else if hyp (posX - e.posX) (posY - e.posY) ≤ radius then some e
    else findEnemyHit hyp radius hitList posX posY rest

/-- One substep of combat.py lines 64-85: advance, accumulate distance, then
test wall, then owner-specific target collision. -/
def projSubstep (tun : Tuning) (hyp : ℚ → ℚ → ℚ) (is_wall : ℚ → ℚ → Bool)
    (playerPos : ℚ × ℚ) (playerHitRadius : ℚ) (enemies : List Enemy)
    (owner : Owner) (stepDx stepDy : ℚ) (st : SubstepSt) : SubstepSt :=
  let st := { st with posX := st.posX + stepDx, posY := st.posY + stepDy,
                      travelled := st.travelled + hyp stepDx stepDy }
  if is_wall st.posX st.posY then { st with collided := true }
  else
    match owner with
    | Owner.player =>
      match findEnemyHit hyp tun.ENEMY_HIT_RADIUS st.hitList st.posX st.posY enemies with
      | some e => { st with hitList := st.hitList ++ [e], collided := true }
      | none => st
    | Owner.enemy =>
      if hyp (st.posX - playerPos.1) (st.posY - playerPos.2) ≤ playerHitRadius then
        { st with playerHit := true, collided := true }
      else st

/-- The substep for-loop of combat.py lines 64-85, with the break on a
collision. -/
def projSubstepLoop (tun : Tuning) (hyp : ℚ → ℚ → ℚ) (is_wall : ℚ → ℚ → Bool)
    (playerPos : ℚ × ℚ) (playerHitRadius : ℚ) (enemies : List Enemy)
    (owner : Owner) (stepDx stepDy : ℚ) : Nat → SubstepSt → SubstepSt
  | 0, st => st
  | n + 1, st =>
    let st1 := projSubstep tun hyp is_wall playerPos playerHitRadius enemies
      owner stepDx stepDy st
    if st1.collided then st1
    else projSubstepLoop tun hyp is_wall playerPos playerHitRadius enemies
      owner stepDx stepDy n st1

/-- Result of processing one projectile in update_projectiles: either it
stays alive (updated) or it emits exactly the given explosion; the shared
hitList and player-hit flag are threaded out. -/
structure ProjOut where
  alive : Option Projectile
  explosion : Option Explosion
  hitList : List Enemy
  playerHit : Bool
deriving Repr

/-- Processing of one projectile by combat.py lines 51-91: substep count from
speed, dt and the step-distance threshold; then the substep loop; then the
terminate-or-keep decision against the collided flag and the max travel
distance. -/
def stepProjectile (tun : Tuning) (hyp : ℚ → ℚ → ℚ) (is_wall : ℚ → ℚ → Bool)
    (playerPos : ℚ × ℚ) (playerHitRadius : ℚ) (enemies : List Enemy)
    (hitListIn : List Enemy) (deltaTime timeNow : ℚ) (p : Projectile) : ProjOut :=
  let distanceStep := p.speed * deltaTime
  if distanceStep ≤ 0 then
    { alive := some p, explosion := none, hitList := hitListIn, playerHit := false }
  else
    let steps : Nat := max 1 (pyInt (distanceStep / tun.PROJECTILE_STEP_DISTANCE)).toNat
    let stepDistance := distanceStep / (steps : ℚ)
    let stepDx := p.dirX * stepDistance
    let stepDy := p.dirY * stepDistance
    let st0 : SubstepSt :=
      { posX := p.posX, posY := p.posY, travelled := p.distance,
        collided := false, hitList := hitListIn, playerHit := false }
    let st := projSubstepLoop tun hyp is_wall playerPos playerHitRadius enemies
      p.owner stepDx stepDy steps st0
    if st.collided ∨ st.travelled ≥ tun.PROJECTILE_MAX_DISTANCE then
      { alive := none, explosion := some ⟨st.posX, st.posY, timeNow⟩,
        hitList := st.hitList, playerHit := st.playerHit }
    else
      { alive := some { p with posX := st.posX, posY := st.posY, distance := st.travelled },
        explosion := none, hitList := st.hitList, playerHit := st.playerHit }

/-- The full update_projectiles of combat.py lines 38-92 in the case where the
player-hit callback does not mutate the collections (the combat module sees
the callback as opaque): returns the surviving projectiles, the explosions
list after appends, the enemies_hit list, and the number of on_player_hit
invocations. -/
def update_projectiles (tun : Tuning) (hyp : ℚ → ℚ → ℚ)
    (is_wall : ℚ → ℚ → Bool) (activeProjectiles : List Projectile)
    (activeExplosions : List Explosion) (activeEnemies : List Enemy)
    (deltaTime timeNow : ℚ) (playerPos : ℚ × ℚ) (playerHitRadius : ℚ) :
    List Projectile × List Explosion × List Enemy × Nat :=
  activeProjectiles.foldl (fun acc p =>
    let (updated, explosions, hitList, hits) := acc
    let r := stepProjectile tun hyp is_wall playerPos playerHitRadius
      activeEnemies hitList deltaTime timeNow p
    (updated ++ (match r.alive with | some q => [q] | none => []),
     explosions ++ (match r.explosion with | some e => [e] | none => []),
     r.hitList,
     hits + (if r.playerHit then 1 else 0)))
    ([], activeExplosions, [], 0)

/-- The game-state fields of Game.__init__ (game.py lines 36-64) that the
simulation logic touches. -/
structure GameSt where
  player_x : ℚ
  player_y : ℚ
  player_angle : ℚ
  player_health : Int
  last_move_vector : ℚ × ℚ
  last_shot_time : ℚ
  last_dash_time : ℚ
  last_enemy_spawn_time : ℚ
  menu_open : Bool
  projectiles : List Projectile
  explosions : List Explosion
  enemies : List Enemy
deriving Repr

/-- The wall query of game.py lines 83-88 (Game.is_wall): truncate to an
integer cell, classify out-of-bounds as wall, otherwise test wall-set
membership. -/
def Game.is_wall (wallCache : Int × Int → Bool) (x y : ℚ) : Bool :=
  let ix := pyInt x
  let iy := pyInt y
  if ix < 0 ∨ ix ≥ (MAP_WIDTH : Int) ∨ iy < 0 ∨ iy ≥ (MAP_HEIGHT : Int) then
    true
  else wallCache (ix, iy)

/-- The respawn of game.py lines 138-147 (Game.respawn_player): center spawn
coordinates, facing angle 0 (whose exact cosine/sine pair is (1, 0)), all
transient collections cleared, health restored to max. -/
def respawn_player (tun : Tuning) (st : GameSt) : GameSt :=
  { st with
    player_x := (MAP_WIDTH : ℚ) / 2 + 1 / 2,
    player_y := (MAP_HEIGHT : ℚ) / 2 + 1 / 2,
    player_angle := 0,
    last_move_vector := (1, 0),
    projectiles := [],
    explosions := [],
    enemies := [],
    player_health := tun.PLAYER_MAX_HEALTH }

/-- The damage application of game.py lines 149-155 (Game.apply_player_damage):
clamp at zero, flag whether health dropped, respawn on exactly zero. -/
def apply_player_damage (tun : Tuning) (st : GameSt) (amount : Int) :
    Bool × GameSt :=
  let previous := st.player_health
  let st := { st with player_health := max 0 (st.player_health - amount) }
  let wasHit := st.player_health < previous
  if st.player_health = 0 then (wasHit, respawn_player tun st)
  else (wasHit, st)

/-- The per-step wall-tested displacement of game.py lines 105-113 inside
handle_dash: each axis advances independently when the trial position is not
a wall. -/
def dashStep (wallCache : Int × Int → Bool) (stepDx stepDy : ℚ)
    (acc : ℚ × ℚ × Bool) : ℚ × ℚ × Bool :=
  let (x, y, moved) := acc
  let nextX := x + stepDx
  let (x, moved) := if ¬Game.is_wall wallCache nextX y then (nextX, true) else (x, moved)
  let nextY := y + stepDy
  let (y, moved) := if ¬Game.is_wall wallCache x nextY then (nextY, true) else (y, moved)
  (x, y, moved)

/-- The dash handler of game.py lines 90-117 (Game.handle_dash).  The cosine,
sine and hypotenuse float functions are abstracted as parameters; the dash
direction falls back from the move direction to the last move vector to the
facing vector, the displacement is wall-tested per substep per axis, and the
cooldown stamp is written on every non-rejected call. -/
def handle_dash (tun : Tuning) (hyp : ℚ → ℚ → ℚ) (cosF sinF : ℚ → ℚ)
    (wallCache : Int × Int → Bool) (st : GameSt) (dashRequested : Bool)
    (moveDirection : ℚ × ℚ) (currentTime : ℚ) : Bool × GameSt :=
  if ¬dashRequested ∨ st.menu_open ∨
      currentTime - st.last_dash_time < tun.DASH_COOLDOWN then
    (false, st)
  else
    let dashDir := moveDirection
    let dashDir :=
      if |dashDir.1| < mkRat 1 1000000 ∧ |dashDir.2| < mkRat 1 1000000 then
        st.last_move_vector
      else dashDir
    let dashDir :=
      if |dashDir.1| < mkRat 1 1000000 ∧ |dashDir.2| < mkRat 1 1000000 then
        (cosF st.player_angle, sinF st.player_angle)
      else dashDir
    let dashLength := hyp dashDir.1 dashDir.2
    let sm :=
      if dashLength > 0 then
        let normDir := (dashDir.1 / dashLength, dashDir.2 / dashLength)
        let steps : Nat := (max 1 (pyInt (tun.DASH_DISTANCE / tun.DASH_STEP_DISTANCE))).toNat
        let stepDx := normDir.1 * (tun.DASH_DISTANCE / (steps : ℚ))
        let stepDy := normDir.2 * (tun.DASH_DISTANCE / (steps : ℚ))
        let xym := (List.range steps).foldl
          (fun acc _ => dashStep wallCache stepDx stepDy acc)
          (st.player_x, st.player_y, false)
        let moved := xym.2.2
        let st := { st with player_x := xym.1, player_y := xym.2.1 }
        let st := if moved then { st with last_move_vector := normDir } else st
        (st, moved)
      else (st, false)
    (sm.2, { sm.1 with last_dash_time := currentTime })

/-- The substep state of the update_projectiles call made by Game.run
(game.py lines 303-314), where the on_player_hit callback is the lambda that
applies damage (possibly respawning) to the live game state. -/
structure RunSubSt where
  posX : ℚ
  posY : ℚ
  travelled : ℚ
  collided : Bool
  hitList : List Enemy
  game : GameSt

/-- One substep of the run-level projectile update: as combat.py lines 64-85,
but the player-hit branch invokes apply_player_damage on the game state and
the enemy scan reads the live (possibly already cleared) enemies list. -/
def runSubstep (tun : Tuning) (hyp : ℚ → ℚ → ℚ) (wallCache : Int × Int → Bool)
    (playerPos : ℚ × ℚ) (owner : Owner) (stepDx stepDy : ℚ)
    (s : RunSubSt) : RunSubSt :=
  let s := { s with posX := s.posX + stepDx, posY := s.posY + stepDy,
                    travelled := s.travelled + hyp stepDx stepDy }
  if Game.is_wall wallCache s.posX s.posY then { s with collided := true }
  else
    match owner with
    | Owner.player =>
      match findEnemyHit hyp tun.ENEMY_HIT_RADIUS s.hitList s.posX s.posY
          s.game.enemies with
      | some e => { s with hitList := s.hitList ++ [e], collided := true }
      | none => s
    | Owner.enemy =>
      if hyp (s.posX - playerPos.1) (s.posY - playerPos.2) ≤ tun.PLAYER_HIT_RADIUS then
        let (_, g) := apply_player_damage tun s.game tun.ENEMY_PROJECTILE_DAMAGE
        { s with game := g, collided := true }
      else s

/-- The run-level substep loop with the break on collision. -/
def runSubstepLoop (tun : Tuning) (hyp : ℚ → ℚ → ℚ)
    (wallCache : Int × Int → Bool) (playerPos : ℚ × ℚ) (owner : Owner)
    (stepDx stepDy : ℚ) : Nat → RunSubSt → RunSubSt
  | 0, s => s
  | n + 1, s =>
    let s1 := runSubstep tun hyp wallCache playerPos owner stepDx stepDy s
    if s1.collided then s1
    else runSubstepLoop tun hyp wallCache playerPos owner stepDx stepDy n s1

/-- Run-level processing of one projectile (combat.py lines 51-91 with the
live callback): the explosion append goes to the live explosions list, which
a mid-step respawn may just have cleared. -/
def runProcessOne (tun : Tuning) (hyp : ℚ → ℚ → ℚ)
    (wallCache : Int × Int → Bool) (playerPos : ℚ × ℚ)
    (deltaTime timeNow : ℚ) (p : Projectile) (updated : List Projectile)
    (hitList : List Enemy) (g : GameSt) :
    List Projectile × List Enemy × GameSt :=
  let distanceStep := p.speed * deltaTime
  if distanceStep ≤ 0 then (updated ++ [p], hitList, g)
  else
    let steps : Nat := max 1 (pyInt (distanceStep / tun.PROJECTILE_STEP_DISTANCE)).toNat
    let stepDistance := distanceStep / (steps : ℚ)
    let stepDx := p.dirX * stepDistance
    let stepDy := p.dirY * stepDistance
    let s0 : RunSubSt :=
      { posX := p.posX, posY := p.posY, travelled := p.distance,
        collided := false, hitList := hitList, game := g }
    let s := runSubstepLoop tun hyp wallCache playerPos p.owner stepDx stepDy steps s0
    if s.collided ∨ s.travelled ≥ tun.PROJECTILE_MAX_DISTANCE then
      (updated, s.hitList,
       { s.game with explosions := s.game.explosions ++ [⟨s.posX, s.posY, timeNow⟩] })
    else
      (updated ++ [{ p with posX := s.posX, posY := s.posY, distance := s.travelled }],
       s.hitList, s.game)

/-- The iteration of update_projectiles over the live self.projectiles list:
a CPython list iterator reads index i of the current list and stops when the
index reaches the current length, so a mid-iteration clear (from a respawn)
ends the loop early. -/
def runProjLoop (tun : Tuning) (hyp : ℚ → ℚ → ℚ)
    (wallCache : Int × Int → Bool) (playerPos : ℚ × ℚ)
    (deltaTime timeNow : ℚ) :
    Nat → Nat → List Projectile → List Enemy → GameSt →
    List Projectile × List Enemy × GameSt
  | 0, _, updated, hitList, g => (updated, hitList, g)
  | n + 1, i, updated, hitList, g =>
    match g.projectiles[i]? with
    | none => (updated, hitList, g)
    | some p =>
      let (updated, hitList, g) := runProcessOne tun hyp wallCache playerPos
        deltaTime timeNow p updated hitList g
      runProjLoop tun hyp wallCache playerPos deltaTime timeNow n (i + 1)
        updated hitList g

/-- The projectile phase of one Game.run tick (game.py lines 303-324):
update_projectiles with the damage lambda, the assignment of the survivors
to self.projectiles, the removal of hit enemies, and the explosion age
filter. -/
def runProjectilePhase (tun : Tuning) (hyp : ℚ → ℚ → ℚ)
    (wallCache : Int × Int → Bool) (deltaTime currentTime : ℚ)
    (st : GameSt) : GameSt :=
  let playerPos := (st.player_x, st.player_y)
  let uhg := runProjLoop tun hyp wallCache playerPos
    deltaTime currentTime st.projectiles.length 0 [] [] st
  let g := { uhg.2.2 with projectiles := uhg.1 }
  let g := uhg.2.1.foldl (fun g1 e =>
    if e ∈ g1.enemies then { g1 with enemies := g1.enemies.erase e } else g1) g
  { g with explosions :=
      g.explosions.filter (fun e => currentTime - e.start < tun.EXPLOSION_DURATION) }

/-- The DDA step bound of raycast.py line 17: MAX_RAY_STEPS =
int(MAX_DEPTH) = int(hypot(516, 516)), and 729^2 = 531441 ≤ 2 * 516^2 =
532512 < 532900 = 730^2, so the truncation is 729. -/
def MAX_RAY_STEPS : Nat := 729

/-- The ray-hit record of raycast.py lines 23-27. -/
structure RayHit where
  distance : ℚ
  side : Nat
  map_x : Int
  map_y : Int
deriving Repr, DecidableEq

/-- The mutable state of the DDA loop of raycast.py lines 163-178. -/
structure DdaSt where
  map_x : Int
  map_y : Int
  side_dist_x : ℚ
  side_dist_y : ℚ

/-- The DDA loop of raycast.py lines 163-179: step whichever axis has the
nearer grid-line crossing, stop with the sentinel once out of bounds, and
return a hit at the first wall cell. -/
def ddaLoop (wallCache : Int × Int → Bool) (maxDepth : ℚ)
    (stepX stepY : Int) (deltaDistX deltaDistY : ℚ) :
    Nat → DdaSt → RayHit
  | 0, st => ⟨maxDepth, 0, st.map_x, st.map_y⟩
  | n + 1, st =>
    let (st, distance, side) :=
      if st.side_dist_x < st.side_dist_y then
        ({ st with map_x := st.map_x + stepX,
                   side_dist_x := st.side_dist_x + deltaDistX },
         st.side_dist_x, 0)
      else
        ({ st with map_y := st.map_y + stepY,
                   side_dist_y := st.side_dist_y + deltaDistY },
         st.side_dist_y, 1)
    if st.map_x < 0 ∨ st.map_x ≥ (MAP_WIDTH : Int) ∨
        st.map_y < 0 ∨ st.map_y ≥ (MAP_HEIGHT : Int) then
      ⟨maxDepth, 0, st.map_x, st.map_y⟩
    else if wallCache (st.map_x, st.map_y) then
      ⟨distance, side, st.map_x, st.map_y⟩
    else ddaLoop wallCache maxDepth stepX stepY deltaDistX deltaDistY n st

/-- The single-ray DDA cast of raycast.py lines 135-179 (cast_single_ray).
The sine and cosine of the angle are inputs (sinA, cosA); the float constant
MAX_DEPTH, used only as the sentinel distance, is the parameter maxDepth. -/
def cast_single_ray (wallCache : Int × Int → Bool) (maxDepth : ℚ)
    (px py sinA cosA : ℚ) : RayHit :=
  let sin_a := if |sinA| > mkRat 1 1000000 then sinA else mkRat 1 1000000
  let cos_a := if |cosA| > mkRat 1 1000000 then cosA else mkRat 1 1000000
  let map_x := pyInt px
  let map_y := pyInt py
  let deltaDistX := |1 / cos_a|
  let deltaDistY := |1 / sin_a|
  let (stepX, sideDistX) :=
    if cos_a > 0 then ((1 : Int), ((map_x : ℚ) + 1 - px) * deltaDistX)
    else ((-1 : Int), (px - (map_x : ℚ)) * deltaDistX)
  let (stepY, sideDistY) :=
    if sin_a > 0 then ((1 : Int), ((map_y : ℚ) + 1 - py) * deltaDistY)
    else ((-1 : Int), (py - (map_y : ℚ)) * deltaDistY)
  ddaLoop wallCache maxDepth stepX stepY deltaDistX deltaDistY MAX_RAY_STEPS
    { map_x := map_x, map_y := map_y,
      side_dist_x := sideDistX, side_dist_y := sideDistY }

/-- The kinds of billboard sprites of the entity draw passes of raycast.py
(draw_enemies and draw_projectiles). -/
inductive SpriteKind where
  | enemySprite
  | projectileBody
  | projectileTrail
  | explosionSprite
deriving DecidableEq, Repr

/-- One element of a sprites_to_draw list: its kind, its distance from
the player, and the sort key the source stores for it (the trail key is
distance + 0.2, raycast.py line 360). -/
structure DrawItem where
  kind : SpriteKind
  dist : ℚ
  key : ℚ
deriving DecidableEq, Repr

/-- Stable insertion into a descending-by-key list: the new item goes after
all earlier items with an equal or larger key, matching the stability of the
Python list sort with reverse=True. -/
def insertDesc (x : DrawItem) : List DrawItem → List DrawItem
  | [] => [x]
  | y :: ys => if x.key > y.key then x :: y :: ys else y :: insertDesc x ys

/-- The sprites_to_draw.sort(key=..., reverse=True) of raycast.py
lines 313 and 382: stable descending sort by key. -/
def sortDesc (l : List DrawItem) : List DrawItem :=
  l.foldl (fun acc x => insertDesc x acc) []

/-- The enemy draw pass of raycast.py lines 288-315 (draw_enemies), with the
float projection abstracted as a function from a world position to an
optional (distance, screenX) pair: project each enemy, skip unprojectable
ones, sort descending, and blit in that order. -/
def draw_enemies_order (proj : ℚ × ℚ → Option (ℚ × Int))
    (activeEnemies : List Enemy) : List DrawItem :=
  sortDesc (activeEnemies.foldl (fun acc e =>
    match proj (e.posX, e.posY) with
    | none => acc
    | some pr => acc ++ [⟨SpriteKind.enemySprite, pr.1, pr.1⟩]) [])

/-- The projectile/explosion draw pass of raycast.py lines 318-384
(draw_projectiles): each projectile contributes a trail (keyed distance+0.2)
and a body (keyed distance), each non-expired explosion contributes one
sprite; all are sorted descending together and blitted in that order. -/
def draw_projectiles_order (proj : ℚ × ℚ → Option (ℚ × Int))
    (activeProjectiles : List Projectile) (activeExplosions : List Explosion)
    (timeNow explosionDuration : ℚ) : List DrawItem :=
  let items := activeProjectiles.foldl (fun acc p =>
    match proj (p.posX, p.posY) with
    | none => acc
    | some pr =>
      acc ++ [⟨SpriteKind.projectileTrail, pr.1, pr.1 + mkRat 2 10⟩,
              ⟨SpriteKind.projectileBody, pr.1, pr.1⟩]) []
  let items := activeExplosions.foldl (fun acc e =>
    match proj (e.posX, e.posY) with
    | none => acc
    | some pr =>
      if (timeNow - e.start) / explosionDuration ≥ 1 then acc
      else acc ++ [⟨SpriteKind.explosionSprite, pr.1, pr.1⟩]) items
  sortDesc items

/-- The per-frame entity blit sequence of Game.run lines 332-350: the enemy
pass is drawn entirely before the projectile/explosion pass. -/
def frameDrawOrder (proj : ℚ × ℚ → Option (ℚ × Int))
    (activeEnemies : List Enemy) (activeProjectiles : List Projectile)
    (activeExplosions : List Explosion) (timeNow explosionDuration : ℚ) :
    List DrawItem :=
  draw_enemies_order proj activeEnemies ++
    draw_projectiles_order proj activeProjectiles activeExplosions timeNow
      explosionDuration

/-- A cell position is inside the w-by-h rectangle. -/
def InBounds (w h : Nat) (p : Int × Int) : Prop :=
  0 ≤ p.1 ∧ p.1 < (w : Int) ∧ 0 ≤ p.2 ∧ p.2 < (h : Int)

/-- One 4-connected move between in-bounds floor cells of a grid. -/
def AdjStep (w h : Nat) (g : Grid) (p q : Int × Int) : Prop :=
  InBounds w h p ∧ InBounds w h q ∧
  getCellI g p.1 p.2 = false ∧ getCellI g q.1 q.2 = false ∧
  (∃ d ∈ directions, q = (p.1 + d.1, p.2 + d.2))

/-- Reachability through 4-connected floor cells: the reflexive-transitive
closure of single moves. -/
def Reaches (w h : Nat) (g : Grid) (p q : Int × Int) : Prop :=
  Relation.ReflTransGen (AdjStep w h g) p q

/-- A grid has h rows of w cells each. -/
def dimsOK (w h : Nat) (g : Grid) : Prop :=
  g.length = h ∧ ∀ i : Nat, i < h → (g.getD i []).length = w

/-- Every cell of the outermost ring is wall. -/
def borderWall (w h : Nat) (g : Grid) : Prop :=
  (∀ x : Nat, x < w → getCell g x 0 = true ∧ getCell g x (h - 1) = true) ∧
  (∀ y : Nat, y < h → getCell g 0 y = true ∧ getCell g (w - 1) y = true)

/-- The well-formedness invariant carried through the generator pipeline. -/
def GoodGrid (w h : Nat) (g : Grid) : Prop :=
  dimsOK w h g ∧ borderWall w h g

/-- Number of set entries of a mask. -/
def maskCount (m : Mask) : Nat :=
  (m.map (fun row => row.count true)).sum

/-- The termination measure of the BFS while-loop: unmarked cells plus queue
length. -/
def bfsMeasure (w h : Nat) (st : BfsSt) : Nat :=
  (w * h - maskCount st.mask) + st.queue.length

/-- One of the four cardinal moves. -/
def AdjMove (p q : Int × Int) : Prop :=
  ∃ d ∈ directions, q = (p.1 + d.1, p.2 + d.2)

/-- The loop invariant of the reachability BFS, relative to a start cell:
the mask is well-formed, queued cells are in-bounds and marked, marked cells
are reachable floor cells, a marked cell off the queue has all its floor
neighbors marked, and the start is marked. -/
def BfsInv (w h : Nat) (g : Grid) (start : Int × Int) (st : BfsSt) : Prop :=
  dimsOK w h st.mask ∧
  (∀ p ∈ st.queue, InBounds w h p ∧ getMaskI st.mask p.1 p.2 = true) ∧
  (∀ p : Int × Int, InBounds w h p → getMaskI st.mask p.1 p.2 = true →
    getCellI g p.1 p.2 = false ∧ Reaches w h g start p) ∧
  (∀ p : Int × Int, InBounds w h p → getMaskI st.mask p.1 p.2 = true →
    p ∉ st.queue → ∀ q : Int × Int, InBounds w h q →
    getCellI g q.1 q.2 = false → AdjMove p q →
    getMaskI st.mask q.1 q.2 = true) ∧
  getMaskI st.mask start.1 start.2 = true

/-- The part of the BFS invariant other than the frontier clause, used while
the popped cell neighbors are being processed. -/
def BfsMid (w h : Nat) (g : Grid) (start : Int × Int) (st : BfsSt) : Prop :=
  dimsOK w h st.mask ∧
  (∀ p ∈ st.queue, InBounds w h p ∧ getMaskI st.mask p.1 p.2 = true) ∧
  (∀ p : Int × Int, InBounds w h p → getMaskI st.mask p.1 p.2 = true →
    getCellI g p.1 p.2 = false ∧ Reaches w h g start p) ∧
  getMaskI st.mask start.1 start.2 = true

/-- How a BFS state extends a reference state during neighbor processing:
marks and queue only grow, new marks are queued, and the measure is kept. -/
def BfsExt (w h : Nat) (st0 st1 : BfsSt) : Prop :=
  (∀ a b : Int, getMaskI st0.mask a b = true → getMaskI st1.mask a b = true) ∧
  (∀ r ∈ st0.queue, r ∈ st1.queue) ∧
  (∀ r : Int × Int, InBounds w h r → getMaskI st1.mask r.1 r.2 = true →
    getMaskI st0.mask r.1 r.2 = true ∨ r ∈ st1.queue) ∧
  bfsMeasure w h st1 = bfsMeasure w h st0

/-- A draw list is ordered far-to-near by the stored distance: every earlier
item is at least as far as every later one. -/
def FarToNear (l : List DrawItem) : Prop :=
  List.Pairwise (fun a b => b.dist ≤ a.dist) l

/-- A draw list is ordered descending by its sort key. -/
def KeyDesc (l : List DrawItem) : Prop :=
  List.Pairwise (fun a b => b.key ≤ a.key) l

/-- The all-zero oracle: every seeded and global draw is 0. -/
def zeroOracle : Oracle :=
  { rInts := fun _ => 0, rFloats := fun _ => 0,
    gInts := fun _ => 0, gFloats := fun _ => 0 }

/-- Two oracles with identical seeded streams that differ only in the
global random-module float stream (the state generator.py lines 162-163
read): every global float draw of A is 0. -/
def globalOracleA : Oracle :=
  { rInts := fun _ => 0, rFloats := fun _ => 0,
    gInts := fun _ => 2, gFloats := fun _ => 0 }

/-- The partner oracle of globalOracleA: same seeded streams and global
integer stream, but every global float draw is 99/100. -/
def globalOracleB : Oracle :=
  { rInts := fun _ => 0, rFloats := fun _ => 0,
    gInts := fun _ => 2, gFloats := fun _ => mkRat 99 100 }

/-- The initial generator state over an all-wall w-by-h grid. -/
def genSt0 (w h : Nat) : GenSt :=
  { grid := initGrid w h, ii := 0, fi := 0, gii := 0, gfi := 0, centers := [] }

/-- A concrete tuning valuation, used to instantiate closed witness
statements. -/
def witnessTuning : Tuning :=
  { PROJECTILE_STEP_DISTANCE := mkRat 1 10, PROJECTILE_MAX_DISTANCE := 8,
    PROJECTILE_SPEED := 12, PROJECTILE_COOLDOWN := mkRat 1 4,
    ENEMY_PROJECTILE_SPEED := 7, ENEMY_PROJECTILE_DAMAGE := 15,
    ENEMY_HIT_RADIUS := mkRat 1 2, EXPLOSION_DURATION := mkRat 1 4,
    PLAYER_MAX_HEALTH := 100, PLAYER_HIT_RADIUS := mkRat 2 5,
    DASH_COOLDOWN := 2, DASH_DISTANCE := 3, DASH_STEP_DISTANCE := mkRat 3 10 }

/-- A concrete game state, used to instantiate closed witness statements. -/
def witnessGameSt : GameSt :=
  { player_x := mkRat 5 2, player_y := mkRat 5 2, player_angle := 0,
    player_health := 100, last_move_vector := (1, 0), last_shot_time := 0,
    last_dash_time := 0, last_enemy_spawn_time := 0, menu_open := false,
    projectiles := [], explosions := [], enemies := [] }

/-- A lethal tick fixture: the player at (10, 10) with 10 health and one
enemy-owned projectile on top of the player, about to deal 15 damage. -/
def lethalGameSt : GameSt :=
  { player_x := 10, player_y := 10, player_angle := 0,
    player_health := 10, last_move_vector := (1, 0), last_shot_time := 0,
    last_dash_time := 0, last_enemy_spawn_time := 0, menu_open := false,
    projectiles := [{ posX := 10, posY := 10, dirX := 1, dirY := 0,
                      speed := 1, distance := 0, spawnTime := 0,
                      owner := Owner.enemy }],
    explosions := [], enemies := [] }

/-- A wall half-plane at x = 11 for concrete projectile runs. -/
def cexWall : ℚ → ℚ → Bool := fun x _ => decide ((11 : ℚ) ≤ x)

/-- A player projectile at (10.5, 10) heading into the x = 11 wall. -/
def wallboundProjectile : Projectile :=
  { posX := mkRat 21 2, posY := 10, dirX := 1, dirY := 0, speed := 1,
    distance := 0, spawnTime := 0, owner := Owner.player }

theorem foldl_preserve {α : Type} {β : Type} (P : α → Prop) (f : α → β → α) :
    ∀ (l : List β) (init : α), (∀ a b, b ∈ l → P a → P (f a b)) → P init →
      P (l.foldl f init)
  | [], _, _, h => h
  | b :: bs, init, step, h =>
    foldl_preserve P f bs (f init b)
      (fun a b1 hb1 => step a b1 (List.mem_cons_of_mem _ hb1))
      (step init b (List.mem_cons_self _ _) h)

theorem getD_set {α : Type} (l : List α) (i j : Nat) (a d : α) :
    (l.set i a).getD j d = if i = j ∧ i < l.length then a else l.getD j d := by
  rw [List.getD_eq_getElem?_getD, List.getElem?_set]
  by_cases hij : i = j
  · subst hij
    by_cases hlen : i < l.length
    · simp [hlen]
    · have hno : l[i]? = none := List.getElem?_eq_none (by omega)
      simp [hlen, List.getD_eq_getElem?_getD, hno]
  · simp [hij, List.getD_eq_getElem?_getD]

theorem length_setCell (g : Grid) (x y : Nat) (c : Cell) :
    (setCell g x y c).length = g.length := by
  simp [setCell]

theorem getCell_setCell (g : Grid) (x y : Nat) (c : Cell) (a b : Nat) :
    getCell (setCell g x y c) a b =
      if y = b ∧ y < g.length ∧ x = a ∧ x < (g.getD y []).length then c
      else getCell g a b := by
  unfold getCell setCell
  rw [getD_set]
  by_cases hyb : y = b
  · subst hyb
    by_cases hyl : y < g.length
    · rw [if_pos ⟨rfl, hyl⟩, getD_set]
      by_cases hxa : x = a
      · subst hxa
        by_cases hxl : x < (g.getD y []).length
        · simp [hxl, hyl]
        · simp [hxl, hyl]
      · simp [hxa]
    · simp [hyl]
  · simp [hyb]

theorem getCell_setCell_ne (g : Grid) (x y : Nat) (c : Cell) (a b : Nat)
    (hne : a ≠ x ∨ b ≠ y) :
    getCell (setCell g x y c) a b = getCell g a b := by
  rw [getCell_setCell]
  have : ¬(y = b ∧ y < g.length ∧ x = a ∧ x < (g.getD y []).length) := by
    rintro ⟨rfl, -, rfl, -⟩
    rcases hne with hne | hne <;> exact hne rfl
  rw [if_neg this]

theorem getCell_setCell_self (w h : Nat) (g : Grid) (x y : Nat) (c : Cell)
    (hdm : dimsOK w h g) (hx : x < w) (hy : y < h) :
    getCell (setCell g x y c) x y = c := by
  obtain ⟨hlen, hrow⟩ := hdm
  rw [getCell_setCell]
  have hxl : x < (g.getD y []).length := by rw [hrow y hy]; exact hx
  rw [if_pos ⟨rfl, by omega, rfl, hxl⟩]

theorem getCell_setCell_cases (g : Grid) (x y : Nat) (c : Cell) (a b : Nat) :
    getCell (setCell g x y c) a b = getCell g a b ∨
    getCell (setCell g x y c) a b = c := by
  rw [getCell_setCell]
  by_cases hc : y = b ∧ y < g.length ∧ x = a ∧ x < (g.getD y []).length
  · rw [if_pos hc]; right; rfl
  · rw [if_neg hc]; left; rfl

theorem dimsOK_setCell (w h : Nat) (g : Grid) (x y : Nat) (c : Cell)
    (hdm : dimsOK w h g) : dimsOK w h (setCell g x y c) := by
  obtain ⟨hlen, hrow⟩ := hdm
  constructor
  · rw [length_setCell]; exact hlen
  · intro i hi
    unfold setCell
    rw [getD_set]
    by_cases hc : y = i ∧ y < g.length
    · obtain ⟨rfl, h2⟩ := hc
      rw [if_pos ⟨rfl, h2⟩, List.length_set]
      exact hrow y hi
    · rw [if_neg (by tauto)]
      exact hrow i hi

theorem borderWall_setCell_interior (w h : Nat) (g : Grid) (x y : Nat)
    (c : Cell) (hb : borderWall w h g) (hx1 : 1 ≤ x) (hx2 : x + 1 < w)
    (hy1 : 1 ≤ y) (hy2 : y + 1 < h) : borderWall w h (setCell g x y c) := by
  obtain ⟨hrow0, hcol0⟩ := hb
  constructor
  · intro a ha
    rw [getCell_setCell_ne g x y c a 0 (Or.inr (by omega)),
      getCell_setCell_ne g x y c a (h - 1) (Or.inr (by omega))]
    exact hrow0 a ha
  · intro b hbb
    rw [getCell_setCell_ne g x y c 0 b (Or.inl (by omega)),
      getCell_setCell_ne g x y c (w - 1) b (Or.inl (by omega))]
    exact hcol0 b hbb

theorem borderWall_setCell_true (w h : Nat) (g : Grid) (x y : Nat)
    (hb : borderWall w h g) : borderWall w h (setCell g x y true) := by
  obtain ⟨hrow0, hcol0⟩ := hb
  constructor
  · intro a ha
    rcases getCell_setCell_cases g x y true a 0 with he | he <;>
      rcases getCell_setCell_cases g x y true a (h - 1) with he2 | he2 <;>
      rw [he, he2] <;>
      simp [hrow0 a ha]
  · intro b hbb
    rcases getCell_setCell_cases g x y true 0 b with he | he <;>
      rcases getCell_setCell_cases g x y true (w - 1) b with he2 | he2 <;>
      rw [he, he2] <;>
      simp [hcol0 b hbb]

theorem GoodGrid_setCellI_interior (w h : Nat) (g : Grid) (x y : Int)
    (c : Cell) (hg : GoodGrid w h g) (hx1 : 0 < x) (hx2 : x < (w : Int) - 1)
    (hy1 : 0 < y) (hy2 : y < (h : Int) - 1) :
    GoodGrid w h (setCellI g x y c) := by
  obtain ⟨hdm, hb⟩ := hg
  refine ⟨dimsOK_setCell w h g _ _ c hdm, ?_⟩
  exact borderWall_setCell_interior w h g x.toNat y.toNat c hb
    (by omega) (by omega) (by omega) (by omega)

theorem GoodGrid_setCell_true (w h : Nat) (g : Grid) (x y : Nat)
    (hg : GoodGrid w h g) : GoodGrid w h (setCell g x y true) :=
  ⟨dimsOK_setCell w h g x y true hg.1, borderWall_setCell_true w h g x y hg.2⟩

theorem intRange_mem (a b p : Int) (hp : p ∈ intRange a b) : a ≤ p ∧ p ≤ b := by
  unfold intRange at hp
  obtain ⟨i, hi, rfl⟩ := List.mem_map.mp hp
  rw [List.mem_range] at hi
  simp only [Int.ofNat_eq_natCast]
  omega

theorem GoodGrid_carve (w h : Nat) (g : Grid) (x y : Int)
    (hg : GoodGrid w h g) : GoodGrid w h (carve w h g x y) := by
  unfold carve
  split
  · rename_i hc
    exact GoodGrid_setCellI_interior w h g x y false hg hc.1 hc.2.1 hc.2.2.1 hc.2.2.2
  · exact hg

theorem GoodGrid_carve_ellipse (w h : Nat) (g : Grid) (cx cy rx ry : Int)
    (hg : GoodGrid w h g) : GoodGrid w h (carve_ellipse w h g cx cy rx ry) := by
  unfold carve_ellipse
  refine foldl_preserve _ _ _ _ (fun g1 dy _ hP => ?_) hg
  dsimp only
  split
  · exact hP
  · rename_i hpy
    push_neg at hpy
    refine foldl_preserve _ _ _ _ (fun g2 dx _ hP2 => ?_) hP
    dsimp only
    split
    · exact hP2
    · rename_i hpx
      push_neg at hpx
      split
      · exact GoodGrid_setCellI_interior w h g2 _ _ false hP2
          (by omega) (by omega) (by omega) (by omega)
      · exact hP2

theorem GoodGrid_carve_rectangle (w h : Nat) (g : Grid) (cx cy hw hh : Int)
    (hg : GoodGrid w h g) : GoodGrid w h (carve_rectangle w h g cx cy hw hh) := by
  unfold carve_rectangle
  refine foldl_preserve _ _ _ _ (fun g1 py hpy hP => ?_) hg
  have hpy2 := intRange_mem _ _ _ hpy
  refine foldl_preserve _ _ _ _ (fun g2 px hpx hP2 => ?_) hP
  have hpx2 := intRange_mem _ _ _ hpx
  exact GoodGrid_setCellI_interior w h g2 _ _ false hP2
    (by omega) (by omega) (by omega) (by omega)

theorem GoodGrid_carve_wide (w h : Nat) (g : Grid) (x y radius : Int)
    (hg : GoodGrid w h g) : GoodGrid w h (carve_wide w h g x y radius) := by
  unfold carve_wide
  refine foldl_preserve _ _ _ _ (fun g1 dy _ hP => ?_) hg
  dsimp only
  split
  · exact hP
  · rename_i hpy
    push_neg at hpy
    refine foldl_preserve _ _ _ _ (fun g2 dx _ hP2 => ?_) hP
    dsimp only
    split
    · exact hP2
    · rename_i hpx
      push_neg at hpx
      split
      · exact GoodGrid_setCellI_interior w h g2 _ _ false hP2
          (by omega) (by omega) (by omega) (by omega)
      · exact hP2

theorem GoodGrid_carve_line (w h : Nat) (g : Grid) (x0 y0 x1 y1 radius : Int)
    (hg : GoodGrid w h g) :
    GoodGrid w h (carve_line w h g x0 y0 x1 y1 radius) := by
  unfold carve_line
  dsimp only
  split
  · exact GoodGrid_carve_wide w h g x0 y0 radius hg
  · refine foldl_preserve _ _ _ _ (fun g1 step _ hP => ?_) hg
    dsimp only
    split
    · exact GoodGrid_carve_wide w h g1 _ _ radius hP
    · exact hP

theorem GoodGrid_spawnDisk (w h : Nat) (g : Grid) (cx cy : Int)
    (hg : GoodGrid w h g) : GoodGrid w h (spawnDisk w h g cx cy) := by
  unfold spawnDisk
  refine foldl_preserve _ _ _ _ (fun g1 dy _ hP => ?_) hg
  dsimp only
  split
  · exact hP
  · rename_i hpy
    push_neg at hpy
    refine foldl_preserve _ _ _ _ (fun g2 dx _ hP2 => ?_) hP
    dsimp only
    split
    · exact hP2
    · rename_i hpx
      push_neg at hpx
      split
      · exact GoodGrid_setCellI_interior w h g2 _ _ false hP2
          (by omega) (by omega) (by omega) (by omega)
      · exact hP2

theorem GoodGrid_corridorStamp (w h : Nat) (chw : Nat) (x y dx : Int)
    (g : Grid) (hg : GoodGrid w h g) :
    GoodGrid w h (corridorStamp w h chw x y dx g) := by
  unfold corridorStamp
  refine foldl_preserve _ _ _ _ (fun g1 i _ hP => ?_) (GoodGrid_carve w h g x y hg)
  split
  · exact GoodGrid_carve w h _ _ _ (GoodGrid_carve w h _ _ _ hP)
  · exact GoodGrid_carve w h _ _ _ (GoodGrid_carve w h _ _ _ hP)

theorem GoodGrid_corridorWalk (w h : Nat) (o : Oracle) (chw : Nat)
    (n : Nat) (x y dx dy : Int) (s : GenSt) (hg : GoodGrid w h s.grid) :
    GoodGrid w h (corridorWalk w h o chw n x y dx dy s).grid := by
  induction n generalizing x y dx dy s with
  | zero => exact hg
  | succ n ih =>
    unfold corridorWalk
    split
    · exact hg
    · dsimp only [drawRandFloat, drawChoiceIdx]
      split
      · exact ih _ _ _ _ _ (GoodGrid_corridorStamp w h chw x y dx s.grid hg)
      · exact ih _ _ _ _ _ (GoodGrid_corridorStamp w h chw x y dx s.grid hg)

theorem GoodGrid_doCorridor (w h : Nat) (o : Oracle) (s : GenSt)
    (hg : GoodGrid w h s.grid) : GoodGrid w h (doCorridor w h o s).grid := by
  unfold doCorridor
  exact GoodGrid_corridorWalk w h o _ _ _ _ _ _ _ hg

theorem GoodGrid_corridorsPhase (w h : Nat) (o : Oracle) (n : Nat) (s : GenSt)
    (hg : GoodGrid w h s.grid) :
    GoodGrid w h (corridorsPhase w h o n s).grid := by
  induction n generalizing s with
  | zero => exact hg
  | succ n ih =>
    unfold corridorsPhase
    split
    · exact hg
    · exact ih _ (GoodGrid_doCorridor w h o s hg)

theorem GoodGrid_doRoom (w h : Nat) (o : Oracle) (s : GenSt)
    (hg : GoodGrid w h s.grid) : GoodGrid w h (doRoom w h o s).grid := by
  unfold doRoom
  dsimp only
  split
  · exact GoodGrid_carve_ellipse w h _ _ _ _ _ hg
  · exact GoodGrid_carve_rectangle w h _ _ _ _ _ hg

theorem GoodGrid_roomsPhase (w h : Nat) (o : Oracle) (s : GenSt)
    (hg : GoodGrid w h s.grid) : GoodGrid w h (roomsPhase w h o s).grid := by
  unfold roomsPhase
  have : ∀ s1 : GenSt, GoodGrid w h s1.grid →
      ∀ n : Nat, GoodGrid w h ((List.range n).foldl
        (fun s2 (_ : Nat) => doRoom w h o s2) s1).grid := by
    intro s1 hg1 n
    refine foldl_preserve (fun s2 => GoodGrid w h s2.grid) _ _ _
      (fun s2 _ _ hP => GoodGrid_doRoom w h o s2 hP) hg1
  exact this s hg _

theorem GoodGrid_automatonStep (w h : Nat) (old : Grid) (hg : GoodGrid w h old) :
    GoodGrid w h (automatonStep w h old) := by
  unfold automatonStep
  refine foldl_preserve _ _ _ _ (fun g1 y hy hP => ?_) hg
  have hy2 := intRange_mem _ _ _ hy
  refine foldl_preserve _ _ _ _ (fun g2 x hx hP2 => ?_) hP
  have hx2 := intRange_mem _ _ _ hx
  dsimp only
  split
  · split
    · exact GoodGrid_setCellI_interior w h g2 _ _ true hP2
        (by omega) (by omega) (by omega) (by omega)
    · exact hP2
  · split
    · exact GoodGrid_setCellI_interior w h g2 _ _ false hP2
        (by omega) (by omega) (by omega) (by omega)
    · exact hP2

theorem GoodGrid_automatonPhase (w h : Nat) (g : Grid) (hg : GoodGrid w h g) :
    GoodGrid w h (automatonPhase w h g) :=
  GoodGrid_automatonStep w h _ (GoodGrid_automatonStep w h _
    (GoodGrid_automatonStep w h g hg))

theorem GoodGrid_digCorridorLoop (w h : Nat) (o : Oracle)
    (cx cy dirX dirY : Int) (n step : Nat) (x y : Int) (s : GenSt)
    (hg : GoodGrid w h s.grid) :
    GoodGrid w h (digCorridorLoop w h o cx cy dirX dirY n step x y s).grid := by
  induction n generalizing step x y s with
  | zero => exact hg
  | succ n ih =>
    unfold digCorridorLoop
    dsimp only
    split
    · exact hg
    · have hstamp : GoodGrid w h (carve_wide w h s.grid (x + dirX) (y + dirY) 2) :=
        GoodGrid_carve_wide w h s.grid _ _ 2 hg
      split
      · exact hstamp
      · dsimp only [drawGlobalFloat, drawGlobalChoiceIdx]
        split
        · split
          · exact ih _ _ _ _ (GoodGrid_carve_wide w h _ _ _ 2 hstamp)
          · exact ih _ _ _ _ hstamp
        · exact ih _ _ _ _ hstamp

theorem GoodGrid_dig_corridor (w h : Nat) (o : Oracle) (cx cy dirX dirY : Int)
    (s : GenSt) (hg : GoodGrid w h s.grid) :
    GoodGrid w h (dig_corridor w h o cx cy dirX dirY s).grid :=
  GoodGrid_digCorridorLoop w h o cx cy dirX dirY _ _ _ _ s hg

theorem GoodGrid_ensure_spawn_area (w h : Nat) (o : Oracle) (s : GenSt)
    (hg : GoodGrid w h s.grid) :
    GoodGrid w h (ensure_spawn_area w h o s).2.grid := by
  unfold ensure_spawn_area
  dsimp only
  refine foldl_preserve (fun s1 : GenSt => GoodGrid w h s1.grid) _ _ _
    (fun s1 d _ hP => GoodGrid_dig_corridor w h o _ _ _ _ s1 hP) ?_
  exact GoodGrid_spawnDisk w h s.grid _ _ hg

theorem GoodGrid_build_navigation_lattice (w h : Nat) (g : Grid) (cx cy : Int)
    (hg : GoodGrid w h g) :
    GoodGrid w h (build_navigation_lattice w h g cx cy) := by
  unfold build_navigation_lattice
  refine foldl_preserve _ _ _ _
    (fun g1 t _ hP => GoodGrid_carve_line w h g1 _ _ _ _ 2 hP) ?_
  refine foldl_preserve _ _ _ _ (fun g1 i _ hP => ?_) hg
  exact GoodGrid_carve_line w h _ _ _ _ _ 1
    (GoodGrid_carve_line w h g1 _ _ _ _ 1 hP)

theorem GoodGrid_tunnelLoop (w h : Nat) (o : Oracle) (tx ty : Int) (n : Nat)
    (x y : Int) (s : GenSt) (hg : GoodGrid w h s.grid) :
    GoodGrid w h (tunnelLoop w h o tx ty n x y s).grid := by
  induction n generalizing x y s with
  | zero => exact hg
  | succ n ih =>
    unfold tunnelLoop
    split
    · exact hg
    · dsimp only [drawRandFloat]
      apply ih
      repeat' split
      all_goals repeat apply GoodGrid_carve_wide
      all_goals exact hg

theorem GoodGrid_carve_tunnel (w h : Nat) (o : Oracle) (a b : Int × Int)
    (s : GenSt) (hg : GoodGrid w h s.grid) :
    GoodGrid w h (carve_tunnel w h o a b s).grid := by
  unfold carve_tunnel
  dsimp only
  exact GoodGrid_carve_wide w h _ _ _ 1
    (GoodGrid_tunnelLoop w h o _ _ _ _ _ _ (GoodGrid_carve_wide w h _ _ _ 1 hg))

theorem GoodGrid_connectCell (w h : Nat) (o : Oracle) (cx cy : Int)
    (c : ConnSt) (x y : Int) (hg : GoodGrid w h c.s.grid) :
    GoodGrid w h (connectCell w h o cx cy c x y).s.grid := by
  unfold connectCell
  split
  · exact hg
  · dsimp only
    split
    · exact hg
    · split
      · exact hg
      · split
        · exact hg
        · exact GoodGrid_carve_tunnel w h o _ _ _ hg

theorem GoodGrid_connect_unreachable_components (w h : Nat) (o : Oracle)
    (cx cy : Int) (c : ConnSt) (hg : GoodGrid w h c.s.grid) :
    GoodGrid w h (connect_unreachable_components w h o cx cy c).s.grid := by
  unfold connect_unreachable_components
  refine foldl_preserve (fun c1 : ConnSt => GoodGrid w h c1.s.grid) _ _ _
    (fun c1 y _ hP => ?_) hg
  refine foldl_preserve (fun c2 : ConnSt => GoodGrid w h c2.s.grid) _ _ _
    (fun c2 x _ hP2 => GoodGrid_connectCell w h o cx cy c2 x _ hP2) hP

theorem GoodGrid_pruneUnreachable (w h : Nat) (g : Grid) (mask : Mask)
    (hg : GoodGrid w h g) : GoodGrid w h (pruneUnreachable w h g mask) := by
  unfold pruneUnreachable
  refine foldl_preserve _ _ _ _ (fun g1 y _ hP => ?_) hg
  refine foldl_preserve _ _ _ _ (fun g2 x _ hP2 => ?_) hP
  split
  · exact GoodGrid_setCell_true w h g2 x y hP2
  · exact hP2

theorem GoodGrid_sealBorder (w h : Nat) (g : Grid) (hg : GoodGrid w h g) :
    GoodGrid w h (sealBorder w h g) := by
  unfold sealBorder
  refine foldl_preserve _ _ _ _ (fun g1 y _ hP =>
    GoodGrid_setCell_true w h _ _ _ (GoodGrid_setCell_true w h g1 _ _ hP)) ?_
  refine foldl_preserve _ _ _ _ (fun g1 x _ hP =>
    GoodGrid_setCell_true w h _ _ _ (GoodGrid_setCell_true w h g1 _ _ hP)) hg

theorem getCell_initGrid (w h x y : Nat) : getCell (initGrid w h) x y = true := by
  unfold getCell initGrid
  have hrow : (List.replicate h (List.replicate w true)).getD y [] =
      if y < h then List.replicate w true else [] := by
    rw [List.getD_eq_getElem?_getD, List.getElem?_replicate]
    split <;> rfl
  rw [hrow]
  split
  · rw [List.getD_eq_getElem?_getD, List.getElem?_replicate]
    split <;> rfl
  · rfl

theorem GoodGrid_initGrid (w h : Nat) : GoodGrid w h (initGrid w h) := by
  refine ⟨⟨?_, ?_⟩, ?_, ?_⟩
  · simp [initGrid]
  · intro i hi
    unfold initGrid
    rw [List.getD_eq_getElem?_getD, List.getElem?_replicate, if_pos hi]
    simp
  · intro x hx
    exact ⟨getCell_initGrid w h x 0, getCell_initGrid w h x (h - 1)⟩
  · intro y hy
    exact ⟨getCell_initGrid w h 0 y, getCell_initGrid w h (w - 1) y⟩

theorem GoodGrid_carve_general (w h : Nat) (g : Grid) (x y : Int)
    (hg : GoodGrid w h g) : GoodGrid w h ((carve w h · x y) g) :=
  GoodGrid_carve w h g x y hg

theorem GoodGrid_genAfterConnect (w h : Nat) (o : Oracle) :
    GoodGrid w h (genAfterConnect w h o) := by
  unfold genAfterConnect
  dsimp only
  refine GoodGrid_connect_unreachable_components w h o _ _ _ ?_
  dsimp only
  split
  · apply GoodGrid_carve
    apply GoodGrid_build_navigation_lattice
    apply GoodGrid_ensure_spawn_area
    dsimp only
    apply GoodGrid_automatonPhase
    apply GoodGrid_corridorsPhase
    apply GoodGrid_roomsPhase
    exact GoodGrid_initGrid w h
  · apply GoodGrid_build_navigation_lattice
    apply GoodGrid_ensure_spawn_area
    dsimp only
    apply GoodGrid_automatonPhase
    apply GoodGrid_corridorsPhase
    apply GoodGrid_roomsPhase
    exact GoodGrid_initGrid w h

theorem GoodGrid_generate (w h : Nat) (o : Oracle) :
    GoodGrid w h (generate_world_map w h o) := by
  unfold generate_world_map
  exact GoodGrid_sealBorder w h _
    (GoodGrid_pruneUnreachable w h _ _ (GoodGrid_genAfterConnect w h o))

theorem setMask_eq_setCell (m : Mask) (x y : Nat) (b : Bool) :
    setMask m x y b = setCell m x y b := rfl

theorem getMask_setMask (m : Mask) (x y : Nat) (b : Bool) (a c : Nat) :
    getMask (setMask m x y b) a c =
      if y = c ∧ y < m.length ∧ x = a ∧ x < (m.getD y []).length then b
      else getMask m a c := by
  unfold getMask setMask
  rw [getD_set]
  by_cases hyc : y = c
  · subst hyc
    by_cases hyl : y < m.length
    · rw [if_pos ⟨rfl, hyl⟩, getD_set]
      by_cases hxa : x = a
      · subst hxa
        by_cases hxl : x < (m.getD y []).length
        · simp [hxl, hyl]
        · simp [hxl, hyl]
      · simp [hxa]
    · simp [hyl]
  · simp [hyc]

theorem getMask_emptyMask (w h x y : Nat) : getMask (emptyMask w h) x y = false := by
  unfold getMask emptyMask
  have hrow : (List.replicate h (List.replicate w false)).getD y [] =
      if y < h then List.replicate w false else [] := by
    rw [List.getD_eq_getElem?_getD, List.getElem?_replicate]
    split <;> rfl
  rw [hrow]
  split
  · rw [List.getD_eq_getElem?_getD, List.getElem?_replicate]
    split <;> rfl
  · rfl

theorem dimsOK_emptyMask (w h : Nat) : dimsOK w h (emptyMask w h) := by
  constructor
  · simp [emptyMask]
  · intro i hi
    unfold emptyMask
    rw [List.getD_eq_getElem?_getD, List.getElem?_replicate, if_pos hi]
    simp

theorem maskCount_cons (r : List Bool) (rs : Mask) :
    maskCount (r :: rs) = r.count true + maskCount rs := by
  simp [maskCount]

theorem count_set_true (l : List Bool) :
    ∀ x : Nat, x < l.length → l.getD x false = false →
      (l.set x true).count true = l.count true + 1 := by
  induction l with
  | nil => intro x hx; simp at hx
  | cons b bs ih =>
    intro x hx hfalse
    cases x with
    | zero =>
      have hb : b = false := hfalse
      subst hb
      simp [List.count_cons]
    | succ x =>
      have hx2 : x < bs.length := by simpa using hx
      have hf2 : bs.getD x false = false := hfalse
      simp only [List.set_cons_succ, List.count_cons]
      rw [ih x hx2 hf2]
      omega

theorem maskCount_setMask_true (m : Mask) :
    ∀ y x : Nat, y < m.length → x < (m.getD y []).length →
      getMask m x y = false →
      maskCount (setMask m x y true) = maskCount m + 1 := by
  induction m with
  | nil => intro y x hy; simp at hy
  | cons r rs ih =>
    intro y x hy hx hfalse
    cases y with
    | zero =>
      have hsm : setMask (r :: rs) x 0 true = (r.set x true) :: rs := rfl
      rw [hsm, maskCount_cons, maskCount_cons]
      have hxr : x < r.length := hx
      have hrf : r.getD x false = false := hfalse
      rw [count_set_true r x hxr hrf]
      omega
    | succ y =>
      have hsm : setMask (r :: rs) x (y + 1) true = r :: setMask rs x y true := rfl
      rw [hsm, maskCount_cons, maskCount_cons]
      have hy2 : y < rs.length := by simpa using hy
      rw [ih y x hy2 hx hfalse]
      omega

theorem count_true_lt (l : List Bool) :
    ∀ x : Nat, x < l.length → l.getD x false = false →
      l.count true < l.length := by
  induction l with
  | nil => intro x hx; simp at hx
  | cons b bs ih =>
    intro x hx hfalse
    cases x with
    | zero =>
      have hb : b = false := hfalse
      subst hb
      have := List.count_le_length (l := bs) (a := true)
      simp [List.count_cons]
      omega
    | succ x =>
      have hx2 : x < bs.length := by simpa using hx
      have := ih x hx2 hfalse
      simp [List.count_cons]
      split <;> omega

theorem maskCount_le_total (m : Mask) :
    maskCount m ≤ (m.map List.length).sum := by
  induction m with
  | nil => simp [maskCount]
  | cons r rs ih =>
    rw [maskCount_cons]
    simp only [List.map_cons, List.sum_cons]
    have := List.count_le_length (l := r) (a := true)
    omega

theorem maskCount_lt_total (m : Mask) :
    ∀ y x : Nat, y < m.length → x < (m.getD y []).length →
      getMask m x y = false →
      maskCount m < (m.map List.length).sum := by
  induction m with
  | nil => intro y x hy; simp at hy
  | cons r rs ih =>
    intro y x hy hx hfalse
    cases y with
    | zero =>
      rw [maskCount_cons]
      simp only [List.map_cons, List.sum_cons]
      have h1 : r.count true < r.length := count_true_lt r x hx hfalse
      have h2 := maskCount_le_total rs
      omega
    | succ y =>
      rw [maskCount_cons]
      simp only [List.map_cons, List.sum_cons]
      have hy2 : y < rs.length := by simpa using hy
      have h1 := ih y x hy2 hx hfalse
      have h2 := List.count_le_length (l := r) (a := true)
      omega

theorem lengths_sum_dims (w : Nat) (m : Mask) :
    ∀ h : Nat, dimsOK w h m → (m.map List.length).sum = h * w := by
  induction m with
  | nil =>
    intro h hd
    have : h = 0 := by simpa using hd.1.symm
    subst this
    simp
  | cons r rs ih =>
    intro h hd
    obtain ⟨hlen, hrow⟩ := hd
    have hh : h = rs.length + 1 := by simpa using hlen.symm
    subst hh
    have hr : r.length = w := hrow 0 (by omega)
    have hd2 : dimsOK w rs.length rs := by
      refine ⟨rfl, fun i hi => ?_⟩
      have := hrow (i + 1) (by omega)
      simpa using this
    simp only [List.map_cons, List.sum_cons]
    rw [hr, ih rs.length hd2]
    ring

theorem bfsPush_dims (w h : Nat) (g : Grid) (st : BfsSt) (q : Int × Int)
    (hdm : dimsOK w h st.mask) : dimsOK w h (bfsPush w h g st q).mask := by
  unfold bfsPush
  split
  · exact hdm
  · split
    · exact hdm
    · exact dimsOK_setCell w h st.mask _ _ true hdm

theorem bfsPush_mask_mono (w h : Nat) (g : Grid) (st : BfsSt) (q : Int × Int)
    (a b : Int) (hm : getMaskI st.mask a b = true) :
    getMaskI (bfsPush w h g st q).mask a b = true := by
  unfold bfsPush
  split
  · exact hm
  · split
    · exact hm
    · unfold getMaskI setMaskI at *
      rw [getMask_setMask]
      split
      · rfl
      · exact hm

theorem bfsPush_queue_mono (w h : Nat) (g : Grid) (st : BfsSt) (q : Int × Int)
    (r : Int × Int) (hr : r ∈ st.queue) : r ∈ (bfsPush w h g st q).queue := by
  unfold bfsPush
  split
  · exact hr
  · split
    · exact hr
    · exact List.mem_append_left _ hr

theorem bfsPush_marks (w h : Nat) (g : Grid) (st : BfsSt) (q : Int × Int)
    (hdm : dimsOK w h st.mask) (hq : InBounds w h q)
    (hfloor : getCellI g q.1 q.2 = false) :
    getMaskI (bfsPush w h g st q).mask q.1 q.2 = true := by
  obtain ⟨hq1, hq2, hq3, hq4⟩ := hq
  unfold bfsPush
  split
  · rename_i hcon
    exact absurd ⟨hq1, hq2, hq3, hq4⟩ hcon
  · split
    · rename_i hcond
      rcases hcond with hc | hc
      · exact absurd hfloor hc
      · exact hc
    · unfold getMaskI setMaskI
      rw [getMask_setMask]
      have hylen : q.2.toNat < st.mask.length := by rw [hdm.1]; omega
      have hxlen : q.1.toNat < (st.mask.getD q.2.toNat []).length := by
        rw [hdm.2 q.2.toNat (by omega)]
        omega
      rw [if_pos ⟨rfl, hylen, rfl, hxlen⟩]

theorem bfsPush_new_marked (w h : Nat) (g : Grid) (st : BfsSt) (q : Int × Int)
    (r : Int × Int) (hr : InBounds w h r)
    (hm : getMaskI (bfsPush w h g st q).mask r.1 r.2 = true) :
    getMaskI st.mask r.1 r.2 = true ∨
      (r = q ∧ getCellI g q.1 q.2 = false ∧ InBounds w h q ∧
        r ∈ (bfsPush w h g st q).queue) := by
  revert hm
  unfold bfsPush
  split
  · exact fun hm => Or.inl hm
  · rename_i hb
    have hqin : InBounds w h q := not_not.mp hb
    split
    · exact fun hm => Or.inl hm
    · rename_i hcond
      push_neg at hcond
      intro hm
      unfold getMaskI setMaskI at hm
      rw [getMask_setMask] at hm
      by_cases htarget : q.2.toNat = r.2.toNat ∧ q.2.toNat < st.mask.length ∧
          q.1.toNat = r.1.toNat ∧ q.1.toNat < (st.mask.getD q.2.toNat []).length
      · right
        have hrq : r = q := by
          obtain ⟨e1, _, e2, _⟩ := htarget
          obtain ⟨a1, a2, a3, a4⟩ := hr
          obtain ⟨b1, b2, b3, b4⟩ := hqin
          exact Prod.ext (by omega) (by omega)
        refine ⟨hrq, ?_, hqin, ?_⟩
        · have := hcond.1
          simpa using this
        · subst hrq
          exact List.mem_append_right _ (List.mem_singleton_self r)
      · rw [if_neg htarget] at hm
        exact Or.inl hm

theorem bfsPush_queue_cases (w h : Nat) (g : Grid) (st : BfsSt)
    (q : Int × Int) (r : Int × Int) (hdm : dimsOK w h st.mask)
    (hr : r ∈ (bfsPush w h g st q).queue) :
    r ∈ st.queue ∨
      (r = q ∧ InBounds w h q ∧
        getMaskI (bfsPush w h g st q).mask q.1 q.2 = true ∧
        getCellI g q.1 q.2 = false) := by
  revert hr
  unfold bfsPush
  split
  · exact fun hr => Or.inl hr
  · rename_i hb
    have hqin : InBounds w h q := not_not.mp hb
    split
    · exact fun hr => Or.inl hr
    · rename_i hcond
      push_neg at hcond
      intro hr
      have hfloor : getCellI g q.1 q.2 = false := by
        have := hcond.1
        simpa using this
      rcases List.mem_append.mp hr with hr1 | hr2
      · exact Or.inl hr1
      · right
        have hrq : r = q := List.mem_singleton.mp hr2
        refine ⟨hrq, hqin, ?_, hfloor⟩
        unfold getMaskI setMaskI
        rw [getMask_setMask]
        obtain ⟨b1, b2, b3, b4⟩ := hqin
        have hylen : q.2.toNat < st.mask.length := by rw [hdm.1]; omega
        have hxlen : q.1.toNat < (st.mask.getD q.2.toNat []).length := by
          rw [hdm.2 q.2.toNat (by omega)]
          omega
        rw [if_pos ⟨rfl, hylen, rfl, hxlen⟩]

theorem maskCount_lt_wh (w h : Nat) (m : Mask) (x y : Nat)
    (hdm : dimsOK w h m) (hy : y < m.length) (hx : x < (m.getD y []).length)
    (hfalse : getMask m x y = false) : maskCount m + 1 ≤ w * h := by
  have h1 := maskCount_lt_total m y x hy hx hfalse
  rw [lengths_sum_dims w m h hdm] at h1
  have : h * w = w * h := Nat.mul_comm h w
  omega

theorem bfsPush_measure (w h : Nat) (g : Grid) (st : BfsSt) (q : Int × Int)
    (hdm : dimsOK w h st.mask) :
    bfsMeasure w h (bfsPush w h g st q) = bfsMeasure w h st := by
  unfold bfsPush
  split
  · rfl
  · rename_i hb
    have hqin : InBounds w h q := not_not.mp hb
    split
    · rfl
    · rename_i hcond
      push_neg at hcond
      have hunmarked : getMaskI st.mask q.1 q.2 = false := by
        have := hcond.2
        simpa using this
      unfold bfsMeasure
      dsimp only
      obtain ⟨b1, b2, b3, b4⟩ := hqin
      have hy : q.2.toNat < st.mask.length := by rw [hdm.1]; omega
      have hx : q.1.toNat < (st.mask.getD q.2.toNat []).length := by
        rw [hdm.2 q.2.toNat (by omega)]
        omega
      have hcnt : maskCount (setMaskI st.mask q.1 q.2 true) = maskCount st.mask + 1 :=
        maskCount_setMask_true st.mask q.2.toNat q.1.toNat hy hx hunmarked
      have hle := maskCount_lt_wh w h st.mask q.1.toNat q.2.toNat hdm hy hx hunmarked
      rw [hcnt, List.length_append]
      simp only [List.length_singleton]
      omega

theorem bfsFold_mask_mono (w h : Nat) (g : Grid) (p : Int × Int)
    (ds : List (Int × Int)) (s : BfsSt) (a b : Int)
    (hm : getMaskI s.mask a b = true) :
    getMaskI ((ds.foldl (fun s1 d => bfsPush w h g s1 (p.1 + d.1, p.2 + d.2))
      s).mask) a b = true := by
  refine foldl_preserve (fun s1 : BfsSt => getMaskI s1.mask a b = true) _ _ _
    (fun s1 d _ hP => bfsPush_mask_mono w h g s1 _ a b hP) hm

theorem bfsPush_mid (w h : Nat) (g : Grid) (start p q : Int × Int)
    (st0 st1 : BfsSt) (hAdj : AdjMove p q) (hpin : InBounds w h p)
    (hpfloor : getCellI g p.1 p.2 = false)
    (hpreach : Reaches w h g start p)
    (hm : BfsMid w h g start st1) (he : BfsExt w h st0 st1) :
    BfsMid w h g start (bfsPush w h g st1 q) ∧
      BfsExt w h st0 (bfsPush w h g st1 q) := by
  obtain ⟨hdm, hqm, hmp, hsm⟩ := hm
  obtain ⟨hext1, hext2, hext3, hext4⟩ := he
  constructor
  · refine ⟨bfsPush_dims w h g st1 q hdm, ?_, ?_, ?_⟩
    · intro r hr
      rcases bfsPush_queue_cases w h g st1 q r hdm hr with hold | ⟨rfl, hin, hmk, _⟩
      · obtain ⟨hin, hmk⟩ := hqm r hold
        exact ⟨hin, bfsPush_mask_mono w h g st1 q _ _ hmk⟩
      · exact ⟨hin, hmk⟩
    · intro r hrin hrm
      rcases bfsPush_new_marked w h g st1 q r hrin hrm with hold | ⟨rfl, hfl, hin, _⟩
      · obtain ⟨hfl, hre⟩ := hmp r hrin hold
        exact ⟨hfl, hre⟩
      · refine ⟨hfl, Relation.ReflTransGen.tail hpreach ?_⟩
        exact ⟨hpin, hin, hpfloor, hfl, hAdj⟩
    · exact bfsPush_mask_mono w h g st1 q _ _ hsm
  · refine ⟨?_, ?_, ?_, ?_⟩
    · intro a b hab
      exact bfsPush_mask_mono w h g st1 q a b (hext1 a b hab)
    · intro r hr
      exact bfsPush_queue_mono w h g st1 q r (hext2 r hr)
    · intro r hrin hrm
      rcases bfsPush_new_marked w h g st1 q r hrin hrm with hold | ⟨rfl, _, _, hq2⟩
      · rcases hext3 r hrin hold with h1 | h1
        · exact Or.inl h1
        · exact Or.inr (bfsPush_queue_mono w h g st1 q r h1)
      · exact Or.inr hq2
    · rw [bfsPush_measure w h g st1 q hdm]
      exact hext4

theorem bfsFold_mid (w h : Nat) (g : Grid) (start p : Int × Int)
    (hpin : InBounds w h p) (hpfloor : getCellI g p.1 p.2 = false)
    (hpreach : Reaches w h g start p) (st0 : BfsSt) :
    ∀ (ds : List (Int × Int)) (st1 : BfsSt), (∀ d ∈ ds, d ∈ directions) →
      BfsMid w h g start st1 → BfsExt w h st0 st1 →
      BfsMid w h g start (ds.foldl
        (fun s1 d => bfsPush w h g s1 (p.1 + d.1, p.2 + d.2)) st1) ∧
      BfsExt w h st0 (ds.foldl
        (fun s1 d => bfsPush w h g s1 (p.1 + d.1, p.2 + d.2)) st1) ∧
      (∀ d ∈ ds, InBounds w h (p.1 + d.1, p.2 + d.2) →
        getCellI g (p.1 + d.1) (p.2 + d.2) = false →
        getMaskI ((ds.foldl
          (fun s1 d => bfsPush w h g s1 (p.1 + d.1, p.2 + d.2)) st1).mask)
          (p.1 + d.1) (p.2 + d.2) = true)
  | [], st1, _, hm, he => ⟨hm, he, by intro d hd; simp at hd⟩
  | d :: ds, st1, hds, hm, he => by
    have hAdj : AdjMove p (p.1 + d.1, p.2 + d.2) :=
      ⟨d, hds d (List.mem_cons_self _ _), rfl⟩
    obtain ⟨hm2, he2⟩ := bfsPush_mid w h g start p _ st0 st1 hAdj hpin
      hpfloor hpreach hm he
    obtain ⟨hm3, he3, hproc⟩ := bfsFold_mid w h g start p hpin hpfloor hpreach
      st0 ds (bfsPush w h g st1 (p.1 + d.1, p.2 + d.2))
      (fun d1 hd1 => hds d1 (List.mem_cons_of_mem _ hd1)) hm2 he2
    refine ⟨hm3, he3, ?_⟩
    intro d1 hd1 hin hfl
    rcases List.mem_cons.mp hd1 with rfl | hd2
    · have hmk := bfsPush_marks w h g st1 _ hm.1 hin hfl
      exact bfsFold_mask_mono w h g p ds _ _ _ hmk
    · exact hproc d1 hd2 hin hfl

theorem bfsStep_inv (w h : Nat) (g : Grid) (start : Int × Int) (st : BfsSt)
    (p : Int × Int) (rest : List (Int × Int)) (hq : st.queue = p :: rest)
    (hInv : BfsInv w h g start st) :
    BfsInv w h g start (bfsStep w h g st) ∧
      bfsMeasure w h (bfsStep w h g st) + 1 = bfsMeasure w h st := by
  obtain ⟨hdm, hqm, hmp, hfr, hsm⟩ := hInv
  have hpq : p ∈ st.queue := by rw [hq]; exact List.mem_cons_self _ _
  obtain ⟨hpin, hpmark⟩ := hqm p hpq
  obtain ⟨hpfloor, hpreach⟩ := hmp p hpin hpmark
  have hstep : bfsStep w h g st = directions.foldl
      (fun s1 d => bfsPush w h g s1 (p.1 + d.1, p.2 + d.2))
      { st with queue := rest } := by
    unfold bfsStep
    rw [hq]
  have hmid0 : BfsMid w h g start { st with queue := rest } := by
    refine ⟨hdm, ?_, hmp, hsm⟩
    intro r hr
    exact hqm r (by rw [hq]; exact List.mem_cons_of_mem _ hr)
  have hext0 : BfsExt w h { st with queue := rest } { st with queue := rest } :=
    ⟨fun a b hab => hab, fun r hr => hr, fun r _ hm => Or.inl hm, rfl⟩
  obtain ⟨hmid, hext, hproc⟩ := bfsFold_mid w h g start p hpin hpfloor hpreach
    { st with queue := rest } directions { st with queue := rest }
    (fun d hd => hd) hmid0 hext0
  rw [hstep]
  set st4 := directions.foldl
    (fun s1 d => bfsPush w h g s1 (p.1 + d.1, p.2 + d.2))
    { st with queue := rest } with hst4
  obtain ⟨hdm4, hqm4, hmp4, hsm4⟩ := hmid
  obtain ⟨hext1, hext2, hext3, hext4⟩ := hext
  constructor
  · refine ⟨hdm4, hqm4, hmp4, ?_, hsm4⟩
    intro r hrin hrm hrq q hqin hqfl hAdj
    rcases hext3 r hrin hrm with hrold | hrqueue
    · have hrnotrest : r ∉ rest := fun hmem => hrq (hext2 r hmem)
      by_cases hrp : r = p
      · subst hrp
        obtain ⟨d, hd, rfl⟩ := hAdj
        exact hproc d hd hqin hqfl
      · have hrnotq : r ∉ st.queue := by
          rw [hq]
          intro hmem
          rcases List.mem_cons.mp hmem with h1 | h1
          · exact hrp h1
          · exact hrnotrest h1
        have := hfr r hrin hrold hrnotq q hqin hqfl hAdj
        exact hext1 q.1 q.2 this
    · exact absurd hrqueue hrq
  · rw [hext4]
    unfold bfsMeasure
    dsimp only
    rw [hq]
    simp only [List.length_cons]
    omega

theorem bfsRun_complete (w h : Nat) (g : Grid) (start : Int × Int) :
    ∀ (fuel : Nat) (st : BfsSt), BfsInv w h g start st →
      bfsMeasure w h st < fuel →
      (bfsRun w h g fuel st).queue = [] ∧
        BfsInv w h g start (bfsRun w h g fuel st) := by
  intro fuel
  induction fuel with
  | zero => intro st _ hm; omega
  | succ n ih =>
    intro st hInv hm
    cases hq : st.queue with
    | nil =>
      have hrun : bfsRun w h g (n + 1) st = st := by
        unfold bfsRun
        rw [hq]
      rw [hrun]
      exact ⟨hq, hInv⟩
    | cons p rest =>
      have hrun : bfsRun w h g (n + 1) st = bfsRun w h g n (bfsStep w h g st) := by
        conv_lhs => unfold bfsRun
        rw [hq]
      rw [hrun]
      obtain ⟨hInv2, hmeas⟩ := bfsStep_inv w h g start st p rest hq hInv
      exact ih (bfsStep w h g st) hInv2 (by omega)

theorem count_true_replicate (w : Nat) : (List.replicate w false).count true = 0 := by
  induction w with
  | zero => rfl
  | succ n ih => simpa [List.replicate_succ, List.count_cons] using ih

theorem maskCount_emptyMask (w h : Nat) : maskCount (emptyMask w h) = 0 := by
  induction h with
  | zero => rfl
  | succ n ih =>
    unfold emptyMask at ih ⊢
    rw [List.replicate_succ, maskCount_cons, ih, count_true_replicate]

theorem emptyMask_length (w h : Nat) : (emptyMask w h).length = h := by
  simp [emptyMask]

theorem emptyMask_row_length (w h y : Nat) (hy : y < h) :
    ((emptyMask w h).getD y []).length = w := by
  exact (dimsOK_emptyMask w h).2 y hy

theorem compute_reachable_spec (w h : Nat) (g : Grid) (sx sy : Int)
    (hin : InBounds w h (sx, sy)) (hfloor : getCellI g sx sy = false) :
    ∀ p : Int × Int, InBounds w h p →
      (getMaskI (compute_reachable_from w h g sx sy).1 p.1 p.2 = true ↔
        Reaches w h g (sx, sy) p) := by
  obtain ⟨hb1, hb2, hb3, hb4⟩ := hin
  dsimp only at hb1 hb2 hb3 hb4
  unfold compute_reachable_from
  rw [if_neg (not_not_intro ⟨hb1, hb2, hb3, hb4⟩),
    if_neg (not_not_intro hfloor)]
  dsimp only
  have hdm0 : dimsOK w h (setMaskI (emptyMask w h) sx sy true) := by
    rw [setMaskI, setMask_eq_setCell]
    exact dimsOK_setCell w h _ _ _ true (dimsOK_emptyMask w h)
  have hylen : sy.toNat < (emptyMask w h).length := by
    rw [emptyMask_length]; omega
  have hxlen : sx.toNat < ((emptyMask w h).getD sy.toNat []).length := by
    rw [emptyMask_row_length w h sy.toNat (by rw [emptyMask_length] at hylen; omega)]
    omega
  have hstart : getMaskI (setMaskI (emptyMask w h) sx sy true) sx sy = true := by
    unfold getMaskI setMaskI
    rw [getMask_setMask, if_pos ⟨rfl, hylen, rfl, hxlen⟩]
  have honly : ∀ p : Int × Int, InBounds w h p →
      getMaskI (setMaskI (emptyMask w h) sx sy true) p.1 p.2 = true →
      p = (sx, sy) := by
    intro p hp hm
    obtain ⟨hp1, hp2, hp3, hp4⟩ := hp
    unfold getMaskI setMaskI at hm
    rw [getMask_setMask] at hm
    by_cases hc : sy.toNat = p.2.toNat ∧ sy.toNat < (emptyMask w h).length ∧
        sx.toNat = p.1.toNat ∧ sx.toNat < ((emptyMask w h).getD sy.toNat []).length
    · obtain ⟨e1, _, e2, _⟩ := hc
      exact Prod.ext (by omega) (by omega)
    · rw [if_neg hc, getMask_emptyMask] at hm
      exact absurd hm (by simp)
  have hInv0 : BfsInv w h g (sx, sy)
      { mask := setMaskI (emptyMask w h) sx sy true,
        cells := [(sx, sy)], queue := [(sx, sy)] } := by
    refine ⟨hdm0, ?_, ?_, ?_, hstart⟩
    · intro p hp
      have : p = (sx, sy) := List.mem_singleton.mp hp
      subst this
      exact ⟨⟨hb1, hb2, hb3, hb4⟩, hstart⟩
    · intro p hp hm
      have := honly p hp hm
      subst this
      exact ⟨hfloor, Relation.ReflTransGen.refl⟩
    · intro p hp hm hpq
      have := honly p hp hm
      subst this
      exact absurd (List.mem_singleton_self _) hpq
  have hcnt : maskCount (setMaskI (emptyMask w h) sx sy true) =
      maskCount (emptyMask w h) + 1 := by
    exact maskCount_setMask_true (emptyMask w h) sy.toNat sx.toNat hylen hxlen
      (getMask_emptyMask w h sx.toNat sy.toNat)
  have hmeas : bfsMeasure w h
      { mask := setMaskI (emptyMask w h) sx sy true,
        cells := [(sx, sy)], queue := [(sx, sy)] } < w * h + 1 := by
    unfold bfsMeasure
    dsimp only
    rw [hcnt, maskCount_emptyMask]
    simp only [List.length_singleton]
    have hwh : 1 ≤ w * h := Nat.mul_pos (by omega) (by omega)
    omega
  obtain ⟨hqnil, hInvF⟩ := bfsRun_complete w h g (sx, sy) (w * h + 1) _ hInv0 hmeas
  obtain ⟨hdmF, hqmF, hmpF, hfrF, hsmF⟩ := hInvF
  intro p hp
  constructor
  · intro hm
    exact (hmpF p hp hm).2
  · intro hre
    induction hre with
    | refl => exact hsmF
    | tail hab hbc ih =>
      rename_i b c
      obtain ⟨hbin, hcin, hbfl, hcfl, hmove⟩ := hbc
      have hbm := ih hbin
      refine hfrF b hbin hbm ?_ c hcin hcfl hmove
      rw [hqnil]
      exact List.not_mem_nil b

theorem prune_keeps_wall (w h : Nat) (g : Grid) (mask : Mask) (a b : Nat)
    (hwall : getCell g a b = true) :
    getCell (pruneUnreachable w h g mask) a b = true := by
  unfold pruneUnreachable
  refine foldl_preserve (fun g1 => getCell g1 a b = true) _ _ _
    (fun g1 y _ hP => ?_) hwall
  refine foldl_preserve (fun g2 => getCell g2 a b = true) _ _ _
    (fun g2 x _ hP2 => ?_) hP
  split
  · rename_i hcond
    by_cases hab : x = a ∧ y = b
    · obtain ⟨rfl, rfl⟩ := hab
      exact absurd hP2 (by rw [hcond.1]; simp)
    · rw [getCell_setCell_ne g2 x y true a b (by tauto)]
      exact hP2
  · exact hP2

theorem prune_keeps_marked (w h : Nat) (g : Grid) (mask : Mask) (a b : Nat)
    (hmask : getMask mask a b = true) :
    getCell (pruneUnreachable w h g mask) a b = getCell g a b := by
  unfold pruneUnreachable
  refine foldl_preserve (fun g1 => getCell g1 a b = getCell g a b) _ _ _
    (fun g1 y _ hP => ?_) rfl
  refine foldl_preserve (fun g2 => getCell g2 a b = getCell g a b) _ _ _
    (fun g2 x _ hP2 => ?_) hP
  split
  · rename_i hcond
    by_cases hab : x = a ∧ y = b
    · obtain ⟨rfl, rfl⟩ := hab
      exact absurd hmask (by rw [hcond.2]; simp)
    · rw [getCell_setCell_ne g2 x y true a b (by tauto)]
      exact hP2
  · exact hP2

theorem range_mem_self (s n a : Nat) (h1 : s ≤ a) (h2 : a < s + n) :
    a ∈ List.range' s n := by
  rw [List.mem_range']
  exact ⟨a - s, by omega, by omega⟩

theorem prune_kills_unmarked (w h : Nat) (g : Grid) (mask : Mask) (a b : Nat)
    (hdm : dimsOK w h g) (ha1 : 1 ≤ a) (ha2 : a + 1 < w) (hb1 : 1 ≤ b)
    (hb2 : b + 1 < h) (hfloor : getCell g a b = false)
    (hmask : getMask mask a b = false) :
    getCell (pruneUnreachable w h g mask) a b = true := by
  unfold pruneUnreachable
  have hbmem : b ∈ List.range' 1 (h - 2) := range_mem_self 1 (h - 2) b hb1 (by omega)
  have hamem : a ∈ List.range' 1 (w - 2) := range_mem_self 1 (w - 2) a ha1 (by omega)
  obtain ⟨l1, l2, hsplit⟩ := List.append_of_mem hbmem
  rw [hsplit, List.foldl_append]
  obtain ⟨m1, m2, hsplit2⟩ := List.append_of_mem hamem
  -- invariant through the rows before b: dims kept and the cell keeps its
  -- original floor value or has been turned to wall already (it cannot: only
  -- the row pass at b touches it, but the weaker disjunction suffices)
  have habs : ∀ (gs : Grid) (ys : List Nat), getCell gs a b = true →
      getCell (ys.foldl (fun g1 y => (List.range' 1 (w - 2)).foldl (fun g2 x =>
        if getCell g2 x y = false ∧ getMask mask x y = false then
          setCell g2 x y true else g2) g1) gs) a b = true := by
    intro gs ys hP
    refine foldl_preserve (fun g1 => getCell g1 a b = true) _ _ _
      (fun g1 y _ hP1 => ?_) hP
    refine foldl_preserve (fun g2 => getCell g2 a b = true) _ _ _
      (fun g2 x _ hP2 => ?_) hP1
    split
    · rename_i hcond
      by_cases hab : x = a ∧ y = b
      · obtain ⟨rfl, rfl⟩ := hab
        exact absurd hP2 (by rw [hcond.1]; simp)
      · rw [getCell_setCell_ne g2 x y true a b (by tauto)]
        exact hP2
    · exact hP2
  have habsRow : ∀ (gs : Grid) (xs : List Nat) (y : Nat), getCell gs a b = true →
      getCell (xs.foldl (fun g2 x =>
        if getCell g2 x y = false ∧ getMask mask x y = false then
          setCell g2 x y true else g2) gs) a b = true := by
    intro gs xs y hP
    refine foldl_preserve (fun g2 => getCell g2 a b = true) _ _ _
      (fun g2 x _ hP2 => ?_) hP
    split
    · rename_i hcond
      by_cases hab : x = a ∧ y = b
      · obtain ⟨rfl, rfl⟩ := hab
        exact absurd hP2 (by rw [hcond.1]; simp)
      · rw [getCell_setCell_ne g2 x y true a b (by tauto)]
        exact hP2
    · exact hP2
  -- state after the rows before b: dims kept, cell value kept or walled
  have hpre : ∀ (ys : List Nat),
      dimsOK w h (ys.foldl (fun g1 y => (List.range' 1 (w - 2)).foldl
        (fun g2 x => if getCell g2 x y = false ∧ getMask mask x y = false then
          setCell g2 x y true else g2) g1) g) ∧
      (getCell (ys.foldl (fun g1 y => (List.range' 1 (w - 2)).foldl
        (fun g2 x => if getCell g2 x y = false ∧ getMask mask x y = false then
          setCell g2 x y true else g2) g1) g) a b = getCell g a b ∨
       getCell (ys.foldl (fun g1 y => (List.range' 1 (w - 2)).foldl
        (fun g2 x => if getCell g2 x y = false ∧ getMask mask x y = false then
          setCell g2 x y true else g2) g1) g) a b = true) := by
    intro ys
    refine foldl_preserve (fun g1 => dimsOK w h g1 ∧
      (getCell g1 a b = getCell g a b ∨ getCell g1 a b = true)) _ _ _
      (fun g1 y _ hP1 => ?_) ⟨hdm, Or.inl rfl⟩
    refine foldl_preserve (fun g2 => dimsOK w h g2 ∧
      (getCell g2 a b = getCell g a b ∨ getCell g2 a b = true)) _ _ _
      (fun g2 x _ hP2 => ?_) hP1
    obtain ⟨hd2, hv2⟩ := hP2
    split
    · refine ⟨dimsOK_setCell w h g2 x y true hd2, ?_⟩
      rcases getCell_setCell_cases g2 x y true a b with he | he
      · rw [he]; exact hv2
      · rw [he]; exact Or.inr rfl
    · exact ⟨hd2, hv2⟩
  obtain ⟨hdl1, hvl1⟩ := hpre l1
  set gmid := l1.foldl (fun g1 y => (List.range' 1 (w - 2)).foldl
    (fun g2 x => if getCell g2 x y = false ∧ getMask mask x y = false then
      setCell g2 x y true else g2) g1) g with hgmid
  have hrowb : getCell ((List.range' 1 (w - 2)).foldl (fun g2 x =>
      if getCell g2 x b = false ∧ getMask mask x b = false then
        setCell g2 x b true else g2) gmid) a b = true := by
    rw [hsplit2, List.foldl_append]
    have hpre2 : dimsOK w h (m1.foldl (fun g2 x =>
        if getCell g2 x b = false ∧ getMask mask x b = false then
          setCell g2 x b true else g2) gmid) ∧
        (getCell (m1.foldl (fun g2 x =>
          if getCell g2 x b = false ∧ getMask mask x b = false then
            setCell g2 x b true else g2) gmid) a b = getCell g a b ∨
         getCell (m1.foldl (fun g2 x =>
          if getCell g2 x b = false ∧ getMask mask x b = false then
            setCell g2 x b true else g2) gmid) a b = true) := by
      refine foldl_preserve (fun g2 => dimsOK w h g2 ∧
        (getCell g2 a b = getCell g a b ∨ getCell g2 a b = true)) _ _ _
        (fun g2 x _ hP2 => ?_) ⟨hdl1, hvl1⟩
      obtain ⟨hd2, hv2⟩ := hP2
      split
      · refine ⟨dimsOK_setCell w h g2 x b true hd2, ?_⟩
        rcases getCell_setCell_cases g2 x b true a b with he | he
        · rw [he]; exact hv2
        · rw [he]; exact Or.inr rfl
      · exact ⟨hd2, hv2⟩
    obtain ⟨hdm1, hvm1⟩ := hpre2
    set gmid2 := m1.foldl (fun g2 x =>
      if getCell g2 x b = false ∧ getMask mask x b = false then
        setCell g2 x b true else g2) gmid with hgmid2
    simp only [List.foldl_cons]
    rcases hvm1 with hsame2 | htrue2
    · rw [if_pos ⟨by rw [hsame2]; exact hfloor, hmask⟩]
      exact habsRow _ m2 b
        (getCell_setCell_self w h gmid2 a b true hdm1 (by omega) (by omega))
    · have hstay : getCell (if getCell gmid2 a b = false ∧ getMask mask a b = false
          then setCell gmid2 a b true else gmid2) a b = true := by
        split
        · rename_i hcond
          rw [hcond.1] at htrue2
          exact absurd htrue2 (by simp)
        · exact htrue2
      exact habsRow _ m2 b hstay
  simp only [List.foldl_cons]
  exact habs _ l2 hrowb

theorem getCell_sealBorder_interior (w h : Nat) (g : Grid) (a b : Nat)
    (ha1 : 1 ≤ a) (ha2 : a + 1 < w) (hb1 : 1 ≤ b) (hb2 : b + 1 < h) :
    getCell (sealBorder w h g) a b = getCell g a b := by
  unfold sealBorder
  dsimp only
  refine foldl_preserve (fun g1 => getCell g1 a b = getCell g a b) _ _ _ ?_ ?_
  · intro g1 y _ hP
    rw [getCell_setCell_ne (setCell g1 0 y true) (w - 1) y true a b
        (Or.inl (by omega)),
      getCell_setCell_ne g1 0 y true a b (Or.inl (by omega))]
    exact hP
  · refine foldl_preserve (fun g1 => getCell g1 a b = getCell g a b) _ _ _ ?_ rfl
    intro g1 x _ hP
    rw [getCell_setCell_ne (setCell g1 x 0 true) x (h - 1) true a b
        (Or.inr (by omega)),
      getCell_setCell_ne g1 x 0 true a b (Or.inr (by omega))]
    exact hP

theorem floor_not_border (w h : Nat) (g : Grid) (hg : GoodGrid w h g)
    (a b : Nat) (ha : a < w) (hb : b < h) (hfloor : getCell g a b = false) :
    1 ≤ a ∧ a + 1 < w ∧ 1 ≤ b ∧ b + 1 < h := by
  obtain ⟨_, hrow, hcol⟩ := hg
  by_contra hcon
  push_neg at hcon
  have : getCell g a b = true := by
    by_cases h1 : 1 ≤ a
    · by_cases h2 : a + 1 < w
      · by_cases h3 : 1 ≤ b
        · have h4 := hcon h1 h2 h3
          have : b = h - 1 := by omega
          subst this
          exact (hrow a ha).2
        · have : b = 0 := by omega
          subst this
          exact (hrow a ha).1
      · have : a = w - 1 := by omega
        subst this
        exact (hcol b hb).2
    · have : a = 0 := by omega
      subst this
      exact (hcol b hb).1
  rw [this] at hfloor
  exact absurd hfloor (by simp)

/-- The final grid agrees with the post-repair grid on cells that are
reachable floor cells: they are interior, kept by the pruning (marked) and
untouched by the border seal. -/
theorem generate_keeps_reached (w h : Nat) (o : Oracle) (p : Int × Int)
    (hin : InBounds w h p)
    (hfl : getCellI (genAfterConnect w h o) p.1 p.2 = false)
    (hmark : getMaskI ((compute_reachable_from w h (genAfterConnect w h o)
      (Int.ofNat (w / 2)) (Int.ofNat (h / 2))).1) p.1 p.2 = true) :
    getCellI (generate_world_map w h o) p.1 p.2 = false := by
  obtain ⟨hp1, hp2, hp3, hp4⟩ := hin
  have hgood := GoodGrid_genAfterConnect w h o
  have hint := floor_not_border w h (genAfterConnect w h o) hgood p.1.toNat
    p.2.toNat (by omega) (by omega) hfl
  unfold generate_world_map
  dsimp only
  unfold getCellI
  rw [getCell_sealBorder_interior w h _ p.1.toNat p.2.toNat hint.1 hint.2.1
    hint.2.2.1 hint.2.2.2]
  rw [prune_keeps_marked w h _ _ p.1.toNat p.2.toNat hmark]
  exact hfl

/-- Reachability in the post-repair grid transfers to the final grid, since
every cell of a reachable floor path survives pruning and sealing. -/
theorem reaches_transfer (w h : Nat) (o : Oracle) (p : Int × Int)
    (hre : Reaches w h (genAfterConnect w h o)
      (Int.ofNat (w / 2), Int.ofNat (h / 2)) p)
    (hcin : InBounds w h (Int.ofNat (w / 2), Int.ofNat (h / 2)))
    (hcfl : getCellI (genAfterConnect w h o) (Int.ofNat (w / 2))
      (Int.ofNat (h / 2)) = false) :
    Reaches w h (generate_world_map w h o)
      (Int.ofNat (w / 2), Int.ofNat (h / 2)) p := by
  have hspec := compute_reachable_spec w h (genAfterConnect w h o)
    (Int.ofNat (w / 2)) (Int.ofNat (h / 2)) hcin hcfl
  induction hre with
  | refl => exact Relation.ReflTransGen.refl
  | tail hab hbc ih =>
    rename_i b c
    obtain ⟨hbin, hcin2, hbfl, hcfl2, hmove⟩ := hbc
    refine Relation.ReflTransGen.tail ih ?_
    have hbre : Reaches w h (genAfterConnect w h o)
        (Int.ofNat (w / 2), Int.ofNat (h / 2)) b := hab
    have hcre : Reaches w h (genAfterConnect w h o)
        (Int.ofNat (w / 2), Int.ofNat (h / 2)) c :=
      Relation.ReflTransGen.tail hab ⟨hbin, hcin2, hbfl, hcfl2, hmove⟩
    have hbmark := (hspec b hbin).mpr hbre
    have hcmark := (hspec c hcin2).mpr hcre
    exact ⟨hbin, hcin2,
      generate_keeps_reached w h o b hbin hbfl hbmark,
      generate_keeps_reached w h o c hcin2 hcfl2 hcmark, hmove⟩

theorem floor_setCellI (g : Grid) (x y : Int) (a b : Nat)
    (hf : getCell g a b = false) :
    getCell (setCellI g x y false) a b = false := by
  unfold setCellI
  rcases getCell_setCell_cases g x.toNat y.toNat false a b with he | he <;>
    rw [he]
  exact hf

theorem floorPres_carve (w h : Nat) (g : Grid) (x y : Int) (a b : Nat)
    (hf : getCell g a b = false) : getCell (carve w h g x y) a b = false := by
  unfold carve
  split
  · exact floor_setCellI g x y a b hf
  · exact hf

theorem floorPres_carve_wide (w h : Nat) (g : Grid) (x y radius : Int)
    (a b : Nat) (hf : getCell g a b = false) :
    getCell (carve_wide w h g x y radius) a b = false := by
  unfold carve_wide
  refine foldl_preserve (fun g1 => getCell g1 a b = false) _ _ _
    (fun g1 dy _ hP => ?_) hf
  dsimp only
  split
  · exact hP
  · refine foldl_preserve (fun g2 => getCell g2 a b = false) _ _ _
      (fun g2 dx _ hP2 => ?_) hP
    dsimp only
    split
    · exact hP2
    · split
      · exact floor_setCellI g2 _ _ a b hP2
      · exact hP2

theorem floorPres_carve_line (w h : Nat) (g : Grid) (x0 y0 x1 y1 radius : Int)
    (a b : Nat) (hf : getCell g a b = false) :
    getCell (carve_line w h g x0 y0 x1 y1 radius) a b = false := by
  unfold carve_line
  dsimp only
  split
  · exact floorPres_carve_wide w h g x0 y0 radius a b hf
  · refine foldl_preserve (fun g1 => getCell g1 a b = false) _ _ _
      (fun g1 step _ hP => ?_) hf
    dsimp only
    split
    · exact floorPres_carve_wide w h g1 _ _ radius a b hP
    · exact hP

theorem floorPres_digCorridorLoop (w h : Nat) (o : Oracle)
    (cx cy dirX dirY : Int) (n step : Nat) (x y : Int) (s : GenSt) (a b : Nat)
    (hf : getCell s.grid a b = false) :
    getCell (digCorridorLoop w h o cx cy dirX dirY n step x y s).grid a b =
      false := by
  induction n generalizing step x y s with
  | zero => exact hf
  | succ n ih =>
    unfold digCorridorLoop
    dsimp only
    split
    · exact hf
    · have hstamp := floorPres_carve_wide w h s.grid (x + dirX) (y + dirY) 2 a b hf
      split
      · exact hstamp
      · dsimp only [drawGlobalFloat, drawGlobalChoiceIdx]
        split
        · split
          · exact ih _ _ _ _ (floorPres_carve_wide w h _ _ _ 2 a b hstamp)
          · exact ih _ _ _ _ hstamp
        · exact ih _ _ _ _ hstamp

theorem floorPres_dig_corridor (w h : Nat) (o : Oracle) (cx cy dirX dirY : Int)
    (s : GenSt) (a b : Nat) (hf : getCell s.grid a b = false) :
    getCell (dig_corridor w h o cx cy dirX dirY s).grid a b = false :=
  floorPres_digCorridorLoop w h o cx cy dirX dirY _ _ _ _ s a b hf

theorem floorPres_lattice (w h : Nat) (g : Grid) (cx cy : Int) (a b : Nat)
    (hf : getCell g a b = false) :
    getCell (build_navigation_lattice w h g cx cy) a b = false := by
  unfold build_navigation_lattice
  refine foldl_preserve (fun g1 => getCell g1 a b = false) _ _ _
    (fun g1 t _ hP => floorPres_carve_line w h g1 _ _ _ _ 2 a b hP) ?_
  refine foldl_preserve (fun g1 => getCell g1 a b = false) _ _ _
    (fun g1 i _ hP => ?_) hf
  exact floorPres_carve_line w h _ _ _ _ _ 1 a b
    (floorPres_carve_line w h g1 _ _ _ _ 1 a b hP)

theorem floorPres_tunnelLoop (w h : Nat) (o : Oracle) (tx ty : Int) (n : Nat)
    (x y : Int) (s : GenSt) (a b : Nat) (hf : getCell s.grid a b = false) :
    getCell (tunnelLoop w h o tx ty n x y s).grid a b = false := by
  induction n generalizing x y s with
  | zero => exact hf
  | succ n ih =>
    unfold tunnelLoop
    split
    · exact hf
    · dsimp only [drawRandFloat]
      apply ih
      repeat' split
      all_goals repeat apply floorPres_carve_wide
      all_goals exact hf

theorem floorPres_carve_tunnel (w h : Nat) (o : Oracle) (u v : Int × Int)
    (s : GenSt) (a b : Nat) (hf : getCell s.grid a b = false) :
    getCell (carve_tunnel w h o u v s).grid a b = false := by
  unfold carve_tunnel
  dsimp only
  exact floorPres_carve_wide w h _ _ _ 1 a b
    (floorPres_tunnelLoop w h o _ _ _ _ _ _ a b
      (floorPres_carve_wide w h _ _ _ 1 a b hf))

theorem floorPres_connectCell (w h : Nat) (o : Oracle) (cx cy : Int)
    (c : ConnSt) (x y : Int) (a b : Nat) (hf : getCell c.s.grid a b = false) :
    getCell (connectCell w h o cx cy c x y).s.grid a b = false := by
  unfold connectCell
  split
  · exact hf
  · dsimp only
    split
    · exact hf
    · split
      · exact hf
      · split
        · exact hf
        · exact floorPres_carve_tunnel w h o _ _ _ a b hf

theorem floorPres_connect (w h : Nat) (o : Oracle) (cx cy : Int) (c : ConnSt)
    (a b : Nat) (hf : getCell c.s.grid a b = false) :
    getCell (connect_unreachable_components w h o cx cy c).s.grid a b =
      false := by
  unfold connect_unreachable_components
  refine foldl_preserve (fun c1 : ConnSt => getCell c1.s.grid a b = false) _ _ _
    (fun c1 y _ hP => ?_) hf
  refine foldl_preserve (fun c2 : ConnSt => getCell c2.s.grid a b = false) _ _ _
    (fun c2 x _ hP2 => floorPres_connectCell w h o cx cy c2 x _ a b hP2) hP

theorem intRange_mem_intro (a b p : Int) (h1 : a ≤ p) (h2 : p ≤ b) :
    p ∈ intRange a b := by
  unfold intRange
  rw [List.mem_map]
  refine ⟨(p - a).toNat, ?_, ?_⟩
  · rw [List.mem_range]; omega
  · simp only [Int.ofNat_eq_natCast]; omega

theorem spawnRow_floorPres (w h : Nat) (dy : Int) (xs : List Int) (gs : Grid)
    (a b : Nat) (hP : getCell gs a b = false) :
    getCell (xs.foldl (fun g2 dx =>
      if Int.ofNat (w / 2) + dx ≤ 1 ∨ Int.ofNat (w / 2) + dx ≥ (w : Int) - 2
      then g2
      else if dx * dx + dy * dy ≤ 49 then
        setCellI g2 (Int.ofNat (w / 2) + dx) (Int.ofNat (h / 2) + dy) false
      else g2) gs) a b = false := by
  refine foldl_preserve (fun g2 => getCell g2 a b = false) _ _ _
    (fun g2 dx _ hP2 => ?_) hP
  split
  · exact hP2
  · split
    · exact floor_setCellI g2 _ _ _ _ hP2
    · exact hP2

theorem spawnRow_dims (w h : Nat) (dy : Int) (xs : List Int) (gs : Grid)
    (hdm : dimsOK w h gs) :
    dimsOK w h (xs.foldl (fun g2 dx =>
      if Int.ofNat (w / 2) + dx ≤ 1 ∨ Int.ofNat (w / 2) + dx ≥ (w : Int) - 2
      then g2
      else if dx * dx + dy * dy ≤ 49 then
        setCellI g2 (Int.ofNat (w / 2) + dx) (Int.ofNat (h / 2) + dy) false
      else g2) gs) := by
  refine foldl_preserve (fun g2 => dimsOK w h g2) _ _ _
    (fun g2 dx _ hP2 => ?_) hdm
  split
  · exact hP2
  · split
    · exact dimsOK_setCell w h g2 _ _ false hP2
    · exact hP2

theorem spawnRow_center (w h : Nat) (xs : List Int) (gs : Grid)
    (hdm : dimsOK w h gs) (hw : 17 ≤ w) (hh : 17 ≤ h)
    (h0 : (0 : Int) ∈ xs) :
    getCell (xs.foldl (fun g2 dx =>
      if Int.ofNat (w / 2) + dx ≤ 1 ∨ Int.ofNat (w / 2) + dx ≥ (w : Int) - 2
      then g2
      else if dx * dx + (0 : Int) * 0 ≤ 49 then
        setCellI g2 (Int.ofNat (w / 2) + dx) (Int.ofNat (h / 2) + 0) false
      else g2) gs) (w / 2) (h / 2) = false := by
  obtain ⟨m1, m2, hsplit⟩ := List.append_of_mem h0
  rw [hsplit, List.foldl_append]
  have hdm1 := spawnRow_dims w h 0 m1 gs hdm
  refine spawnRow_floorPres w h 0 m2 _ _ _ ?_
  simp only [List.foldl_cons]
  rw [if_neg (by simp only [Int.ofNat_eq_natCast]; omega), if_pos (by omega)]
  unfold setCellI
  have hx : (Int.ofNat (w / 2) + 0).toNat = w / 2 := by simp only [Int.ofNat_eq_natCast]; omega
  have hy : (Int.ofNat (h / 2) + 0).toNat = h / 2 := by simp only [Int.ofNat_eq_natCast]; omega
  rw [hx, hy]
  exact getCell_setCell_self w h _ _ _ false hdm1 (by omega) (by omega)

theorem spawnCol_center (w h : Nat) (ys : List Int) (gs : Grid)
    (hdm : dimsOK w h gs) (hw : 17 ≤ w) (hh : 17 ≤ h)
    (h0 : (0 : Int) ∈ ys) :
    getCell (ys.foldl (fun g1 dy =>
      if Int.ofNat (h / 2) + dy ≤ 1 ∨ Int.ofNat (h / 2) + dy ≥ (h : Int) - 2
      then g1
      else (intRange (-7) 7).foldl (fun g2 dx =>
        if Int.ofNat (w / 2) + dx ≤ 1 ∨ Int.ofNat (w / 2) + dx ≥ (w : Int) - 2
        then g2
        else if dx * dx + dy * dy ≤ 49 then
          setCellI g2 (Int.ofNat (w / 2) + dx) (Int.ofNat (h / 2) + dy) false
        else g2) g1) gs) (w / 2) (h / 2) = false := by
  obtain ⟨l1, l2, hsplit⟩ := List.append_of_mem h0
  rw [hsplit, List.foldl_append]
  have habsCol : ∀ (gin : Grid) (ys2 : List Int),
      getCell gin (w / 2) (h / 2) = false →
      getCell (ys2.foldl (fun g1 dy =>
        if Int.ofNat (h / 2) + dy ≤ 1 ∨ Int.ofNat (h / 2) + dy ≥ (h : Int) - 2
        then g1
        else (intRange (-7) 7).foldl (fun g2 dx =>
          if Int.ofNat (w / 2) + dx ≤ 1 ∨ Int.ofNat (w / 2) + dx ≥ (w : Int) - 2
          then g2
          else if dx * dx + dy * dy ≤ 49 then
            setCellI g2 (Int.ofNat (w / 2) + dx) (Int.ofNat (h / 2) + dy) false
          else g2) g1) gin) (w / 2) (h / 2) = false := by
    intro gin ys2 hP
    refine foldl_preserve (fun g1 => getCell g1 (w / 2) (h / 2) = false) _ _ _
      (fun g1 dy _ hP1 => ?_) hP
    split
    · exact hP1
    · exact spawnRow_floorPres w h dy _ g1 _ _ hP1
  have hdimsl1 : dimsOK w h (l1.foldl (fun g1 dy =>
      if Int.ofNat (h / 2) + dy ≤ 1 ∨ Int.ofNat (h / 2) + dy ≥ (h : Int) - 2
      then g1
      else (intRange (-7) 7).foldl (fun g2 dx =>
        if Int.ofNat (w / 2) + dx ≤ 1 ∨ Int.ofNat (w / 2) + dx ≥ (w : Int) - 2
        then g2
        else if dx * dx + dy * dy ≤ 49 then
          setCellI g2 (Int.ofNat (w / 2) + dx) (Int.ofNat (h / 2) + dy) false
        else g2) g1) gs) := by
    refine foldl_preserve (fun g1 => dimsOK w h g1) _ _ _
      (fun g1 dy _ hP1 => ?_) hdm
    split
    · exact hP1
    · exact spawnRow_dims w h dy _ g1 hP1
  refine habsCol _ l2 ?_
  simp only [List.foldl_cons]
  rw [if_neg (by simp only [Int.ofNat_eq_natCast]; omega)]
  exact spawnRow_center w h (intRange (-7) 7) _ hdimsl1 hw hh
    (intRange_mem_intro _ _ _ (by omega) (by omega))

theorem spawnDisk_center (w h : Nat) (g : Grid) (hdm : dimsOK w h g)
    (hw : 17 ≤ w) (hh : 17 ≤ h) :
    getCell (spawnDisk w h g (Int.ofNat (w / 2)) (Int.ofNat (h / 2)))
      (w / 2) (h / 2) = false := by
  unfold spawnDisk
  exact spawnCol_center w h (intRange (-7) 7) g hdm hw hh
    (intRange_mem_intro _ _ _ (by omega) (by omega))

theorem ensure_spawn_center (w h : Nat) (o : Oracle) (s : GenSt)
    (hdm : dimsOK w h s.grid) (hw : 17 ≤ w) (hh : 17 ≤ h) :
    getCell (ensure_spawn_area w h o s).2.grid (w / 2) (h / 2) = false := by
  unfold ensure_spawn_area
  dsimp only
  refine foldl_preserve
    (fun s1 : GenSt => getCell s1.grid (w / 2) (h / 2) = false) _ _ _
    (fun s1 d _ hP => floorPres_dig_corridor w h o _ _ _ _ s1 _ _ hP) ?_
  exact spawnDisk_center w h s.grid hdm hw hh

theorem genAfterConnect_center (w h : Nat) (o : Oracle)
    (hw : 17 ≤ w) (hh : 17 ≤ h) :
    getCellI (genAfterConnect w h o) (Int.ofNat (w / 2)) (Int.ofNat (h / 2)) =
      false := by
  have key : ∀ gfin : Grid, getCell gfin (w / 2) (h / 2) = false →
      getCellI gfin (Int.ofNat (w / 2)) (Int.ofNat (h / 2)) = false :=
    fun _ hf => hf
  refine key _ ?_
  unfold genAfterConnect
  dsimp only
  refine floorPres_connect w h o _ _ _ _ _ ?_
  dsimp only
  split
  · refine floorPres_carve w h _ _ _ _ _ ?_
    refine floorPres_lattice w h _ _ _ _ _ ?_
    refine ensure_spawn_center w h o _ ?_ hw hh
    dsimp only
    refine (GoodGrid_automatonPhase w h _ ?_).1
    refine GoodGrid_corridorsPhase w h o _ _ ?_
    refine GoodGrid_roomsPhase w h o _ ?_
    exact GoodGrid_initGrid w h
  · refine floorPres_lattice w h _ _ _ _ _ ?_
    refine ensure_spawn_center w h o _ ?_ hw hh
    dsimp only
    refine (GoodGrid_automatonPhase w h _ ?_).1
    refine GoodGrid_corridorsPhase w h o _ _ ?_
    refine GoodGrid_roomsPhase w h o _ ?_
    exact GoodGrid_initGrid w h

theorem center_inbounds (w h : Nat) (hw : 17 ≤ w) (hh : 17 ≤ h) :
    InBounds w h (Int.ofNat (w / 2), Int.ofNat (h / 2)) := by
  unfold InBounds
  dsimp only
  simp only [Int.ofNat_eq_natCast]
  omega

theorem center_floor_final (w h : Nat) (o : Oracle) (hw : 17 ≤ w)
    (hh : 17 ≤ h) :
    getCellI (generate_world_map w h o) (Int.ofNat (w / 2))
      (Int.ofNat (h / 2)) = false := by
  have hcin := center_inbounds w h hw hh
  have hcfl := genAfterConnect_center w h o hw hh
  have hspec := compute_reachable_spec w h (genAfterConnect w h o)
    (Int.ofNat (w / 2)) (Int.ofNat (h / 2)) hcin hcfl
  have hmark := (hspec (Int.ofNat (w / 2), Int.ofNat (h / 2)) hcin).mpr
    Relation.ReflTransGen.refl
  exact generate_keeps_reached w h o _ hcin hcfl hmark

theorem final_floor_marked (w h : Nat) (o : Oracle) (p : Int × Int)
    (hin : InBounds w h p)
    (hfl : getCellI (generate_world_map w h o) p.1 p.2 = false) :
    getCellI (genAfterConnect w h o) p.1 p.2 = false ∧
    getMaskI (compute_reachable_from w h (genAfterConnect w h o)
      (Int.ofNat (w / 2)) (Int.ofNat (h / 2))).1 p.1 p.2 = true := by
  obtain ⟨hp1, hp2, hp3, hp4⟩ := hin
  have hgoodF := GoodGrid_generate w h o
  have hint := floor_not_border w h _ hgoodF p.1.toNat p.2.toNat
    (by omega) (by omega) hfl
  have hgood2 := GoodGrid_genAfterConnect w h o
  have hseal : getCellI (generate_world_map w h o) p.1 p.2 =
      getCell (pruneUnreachable w h (genAfterConnect w h o)
        (compute_reachable_from w h (genAfterConnect w h o)
          (Int.ofNat (w / 2)) (Int.ofNat (h / 2))).1) p.1.toNat p.2.toNat := by
    unfold generate_world_map getCellI
    dsimp only
    exact getCell_sealBorder_interior w h _ _ _ hint.1 hint.2.1
      hint.2.2.1 hint.2.2.2
  rw [hseal] at hfl
  by_cases hmask : getMask (compute_reachable_from w h (genAfterConnect w h o)
      (Int.ofNat (w / 2)) (Int.ofNat (h / 2))).1 p.1.toNat p.2.toNat = true
  · refine ⟨?_, hmask⟩
    rw [prune_keeps_marked w h _ _ _ _ hmask] at hfl
    exact hfl
  · rw [Bool.not_eq_true] at hmask
    cases hg2 : getCell (genAfterConnect w h o) p.1.toNat p.2.toNat with
    | false =>
      have hkill := prune_kills_unmarked w h _ _ p.1.toNat p.2.toNat
        hgood2.1 hint.1 hint.2.1 hint.2.2.1 hint.2.2.2 hg2 hmask
      rw [hkill] at hfl
      exact absurd hfl (by simp)
    | true =>
      have hkeep := prune_keeps_wall w h (genAfterConnect w h o)
        (compute_reachable_from w h (genAfterConnect w h o)
          (Int.ofNat (w / 2)) (Int.ofNat (h / 2))).1 p.1.toNat p.2.toNat hg2
      rw [hkeep] at hfl
      exact absurd hfl (by simp)

/-- C1: in the grid returned by generate_world_map (for dimensions where
the Python generator's randint calls are well-formed, i.e. 17 ≤ width,
height), every floor cell is reachable from the spawn cell (the grid
center) via 4-connected movement through floor cells. -/
theorem claim_C1 (w h : Nat) (o : Oracle) (hw : 17 ≤ w) (hh : 17 ≤ h)
    (p : Int × Int) (hin : InBounds w h p)
    (hfl : getCellI (generate_world_map w h o) p.1 p.2 = false) :
    Reaches w h (generate_world_map w h o)
      (Int.ofNat (w / 2), Int.ofNat (h / 2)) p := by
  obtain ⟨hg2fl, hmark⟩ := final_floor_marked w h o p hin hfl
  have hcin := center_inbounds w h hw hh
  have hcfl := genAfterConnect_center w h o hw hh
  have hre : Reaches w h (genAfterConnect w h o)
      (Int.ofNat (w / 2), Int.ofNat (h / 2)) p :=
    (compute_reachable_spec w h (genAfterConnect w h o)
      (Int.ofNat (w / 2)) (Int.ofNat (h / 2)) hcin hcfl p hin).mp hmark
  exact reaches_transfer w h o p hre hcin hcfl

/-- Witness for C1 at the smallest well-formed square map and the all-zero
oracle: the center cell itself is floor and reachable. -/
theorem claim_C1_witness :
    Reaches 17 17 (generate_world_map 17 17 zeroOracle)
      (Int.ofNat 8, Int.ofNat 8) (Int.ofNat 8, Int.ofNat 8) :=
  claim_C1 17 17 zeroOracle (by decide) (by decide)
    (Int.ofNat 8, Int.ofNat 8) ⟨by decide, by decide, by decide, by decide⟩
    (center_floor_final 17 17 zeroOracle (by decide) (by decide))

/-- C8: for every width, height and oracle, every cell of row 0, row h-1,
column 0 and column w-1 of the grid returned by generate_world_map is
wall. -/
theorem claim_C8 (w h : Nat) (o : Oracle) :
    borderWall w h (generate_world_map w h o) :=
  (GoodGrid_generate w h o).2

/-- C2: world generation is NOT deterministic in the seed alone — the
dig_corridor phase (generator.py lines 162-163) draws from the global
random module rather than the seeded rng. Two oracles whose seeded
streams (rInts, rFloats) agree everywhere but whose global streams
differ produce different grids: starting from the same all-wall 12-by-12
grid and digging from (6,6) in direction (1,0), cell (7,9) is floor
under the first global stream and wall under the second. -/
theorem claim_C2 :
    (∀ i, globalOracleA.rInts i = globalOracleB.rInts i) ∧
    (∀ i, globalOracleA.rFloats i = globalOracleB.rFloats i) ∧
    getCellI (dig_corridor 12 12 globalOracleA 6 6 1 0 (genSt0 12 12)).grid
        7 9 ≠
      getCellI (dig_corridor 12 12 globalOracleB 6 6 1 0 (genSt0 12 12)).grid
        7 9 :=
  ⟨fun _ => rfl, fun _ => rfl, by decide⟩

/-- C10: whenever handle_dash is called with a dash request, the menu
closed and the cooldown elapsed, the cooldown stamp last_dash_time is set
to the current time unconditionally — including when every sub-step is
wall-blocked — while every player field other than position and
last_move_vector is unchanged. -/
theorem claim_C10 (tun : Tuning) (hyp : ℚ → ℚ → ℚ) (cosF sinF : ℚ → ℚ)
    (wallCache : Int × Int → Bool) (st : GameSt) (moveDirection : ℚ × ℚ)
    (currentTime : ℚ) (hmenu : st.menu_open = false)
    (hcool : ¬currentTime - st.last_dash_time < tun.DASH_COOLDOWN) :
    (handle_dash tun hyp cosF sinF wallCache st true moveDirection
        currentTime).2.last_dash_time = currentTime ∧
    (handle_dash tun hyp cosF sinF wallCache st true moveDirection
        currentTime).2.player_angle = st.player_angle ∧
    (handle_dash tun hyp cosF sinF wallCache st true moveDirection
        currentTime).2.player_health = st.player_health ∧
    (handle_dash tun hyp cosF sinF wallCache st true moveDirection
        currentTime).2.last_shot_time = st.last_shot_time ∧
    (handle_dash tun hyp cosF sinF wallCache st true moveDirection
        currentTime).2.last_enemy_spawn_time = st.last_enemy_spawn_time ∧
    (handle_dash tun hyp cosF sinF wallCache st true moveDirection
        currentTime).2.menu_open = st.menu_open ∧
    (handle_dash tun hyp cosF sinF wallCache st true moveDirection
        currentTime).2.projectiles = st.projectiles ∧
    (handle_dash tun hyp cosF sinF wallCache st true moveDirection
        currentTime).2.explosions = st.explosions ∧
    (handle_dash tun hyp cosF sinF wallCache st true moveDirection
        currentTime).2.enemies = st.enemies := by
  have hc : ¬(¬(true : Bool) = true ∨ st.menu_open = true ∨
      currentTime - st.last_dash_time < tun.DASH_COOLDOWN) := by
    intro hor
    rcases hor with hA | hB | hC
    · exact hA rfl
    · rw [hmenu] at hB
      exact Bool.false_ne_true hB
    · exact hcool hC
  unfold handle_dash
  dsimp only
  rw [if_neg hc]
  dsimp only
  repeat' split
  all_goals exact ⟨rfl, rfl, rfl, rfl, rfl, rfl, rfl, rfl, rfl⟩

/-- Witness for C10 at a concrete tuning, state, time and direction. -/
theorem claim_C10_witness :
    (handle_dash witnessTuning (fun a b => a + b) (fun q => q) (fun q => q)
        (fun _ => false) witnessGameSt true (1, 0) 2).2.last_dash_time = 2 ∧
    (handle_dash witnessTuning (fun a b => a + b) (fun q => q) (fun q => q)
        (fun _ => false) witnessGameSt true (1, 0) 2).2.player_angle =
      witnessGameSt.player_angle ∧
    (handle_dash witnessTuning (fun a b => a + b) (fun q => q) (fun q => q)
        (fun _ => false) witnessGameSt true (1, 0) 2).2.player_health =
      witnessGameSt.player_health ∧
    (handle_dash witnessTuning (fun a b => a + b) (fun q => q) (fun q => q)
        (fun _ => false) witnessGameSt true (1, 0) 2).2.last_shot_time =
      witnessGameSt.last_shot_time ∧
    (handle_dash witnessTuning (fun a b => a + b) (fun q => q) (fun q => q)
        (fun _ => false) witnessGameSt true (1, 0) 2).2.last_enemy_spawn_time =
      witnessGameSt.last_enemy_spawn_time ∧
    (handle_dash witnessTuning (fun a b => a + b) (fun q => q) (fun q => q)
        (fun _ => false) witnessGameSt true (1, 0) 2).2.menu_open =
      witnessGameSt.menu_open ∧
    (handle_dash witnessTuning (fun a b => a + b) (fun q => q) (fun q => q)
        (fun _ => false) witnessGameSt true (1, 0) 2).2.projectiles =
      witnessGameSt.projectiles ∧
    (handle_dash witnessTuning (fun a b => a + b) (fun q => q) (fun q => q)
        (fun _ => false) witnessGameSt true (1, 0) 2).2.explosions =
      witnessGameSt.explosions ∧
    (handle_dash witnessTuning (fun a b => a + b) (fun q => q) (fun q => q)
        (fun _ => false) witnessGameSt true (1, 0) 2).2.enemies =
      witnessGameSt.enemies :=
  claim_C10 witnessTuning (fun a b => a + b) (fun q => q) (fun q => q)
    (fun _ => false) witnessGameSt (1, 0) 2 rfl
    (by simp [witnessTuning, witnessGameSt])

theorem pyInt_nonpos (x : ℚ) (h : x < 0) : pyInt x ≤ 0 := by
  unfold pyInt
  rw [if_neg (not_le.mpr h)]
  have h0 : (0 : Int) ≤ (-x).floor := Rat.le_floor.mpr (by push_cast; linarith)
  omega

theorem pyInt_nonneg (x : ℚ) (h : 0 ≤ x) : 0 ≤ pyInt x := by
  unfold pyInt
  rw [if_pos h]
  exact Rat.le_floor.mpr (by push_cast; linarith)

theorem pyInt_le_of_le (x : ℚ) (n : Int) (h0 : 0 ≤ x) (h : (n : ℚ) ≤ x) :
    n ≤ pyInt x := by
  unfold pyInt
  rw [if_pos h0]
  exact Rat.le_floor.mpr h

theorem pyInt_lt_of_lt (x : ℚ) (n : Int) (h0 : 0 ≤ x) (h : x < (n : ℚ)) :
    pyInt x < n := by
  unfold pyInt
  rw [if_pos h0]
  by_contra hcon
  push_neg at hcon
  exact absurd (Rat.le_floor.mp hcon) (not_le.mpr h)

/-- C7: is_wall with a border-walled wall index (as generate_world_map
produces, lines 321-326): every query outside the map bounds answers
wall, and every in-bounds query answers membership of the truncated
integer cell; the embedding is a total function, so no query errors.
The border-wall hypothesis is needed because int() truncates toward
zero: a coordinate in (-1, 0) lands in cell 0, inside the index range,
and the answer is then the border cell's membership bit. -/
theorem claim_C7 (wallCache : Int × Int → Bool)
    (hborder : ∀ p : Int × Int, 0 ≤ p.1 → p.1 < (MAP_WIDTH : Int) →
      0 ≤ p.2 → p.2 < (MAP_HEIGHT : Int) →
      (p.1 = 0 ∨ p.1 = (MAP_WIDTH : Int) - 1 ∨ p.2 = 0 ∨
        p.2 = (MAP_HEIGHT : Int) - 1) → wallCache p = true)
    (x y : ℚ) :
    ((x < 0 ∨ (MAP_WIDTH : ℚ) ≤ x ∨ y < 0 ∨ (MAP_HEIGHT : ℚ) ≤ y) →
      Game.is_wall wallCache x y = true) ∧
    (0 ≤ x → x < (MAP_WIDTH : ℚ) → 0 ≤ y → y < (MAP_HEIGHT : ℚ) →
      Game.is_wall wallCache x y = wallCache (pyInt x, pyInt y)) := by
  constructor
  · intro hout
    unfold Game.is_wall
    dsimp only
    by_cases hguard : pyInt x < 0 ∨ pyInt x ≥ (MAP_WIDTH : Int) ∨
        pyInt y < 0 ∨ pyInt y ≥ (MAP_HEIGHT : Int)
    · rw [if_pos hguard]
    · rw [if_neg hguard]
      push_neg at hguard
      obtain ⟨hx0, hxW, hy0, hyH⟩ := hguard
      refine hborder (pyInt x, pyInt y) hx0 hxW hy0 hyH ?_
      rcases hout with hc | hc | hc | hc
      · left
        have := pyInt_nonpos x hc
        omega
      · exfalso
        have hge := pyInt_le_of_le x (MAP_WIDTH : Int) (by
          have : ((MAP_WIDTH : Int) : ℚ) ≤ x := by exact_mod_cast hc
          have hW : (0 : ℚ) ≤ ((MAP_WIDTH : Int) : ℚ) := by
            simp [MAP_WIDTH]
          linarith) (by exact_mod_cast hc)
        omega
      · right; right; left
        have := pyInt_nonpos y hc
        omega
      · exfalso
        have hge := pyInt_le_of_le y (MAP_HEIGHT : Int) (by
          have : ((MAP_HEIGHT : Int) : ℚ) ≤ y := by exact_mod_cast hc
          have hH : (0 : ℚ) ≤ ((MAP_HEIGHT : Int) : ℚ) := by
            simp [MAP_HEIGHT]
          linarith) (by exact_mod_cast hc)
        omega
  · intro hx0 hxW hy0 hyH
    unfold Game.is_wall
    dsimp only
    rw [if_neg ?hng]
    case hng =>
      push_neg
      refine ⟨pyInt_nonneg x hx0, ?_, pyInt_nonneg y hy0, ?_⟩
      · exact pyInt_lt_of_lt x _ hx0 (by exact_mod_cast hxW)
      · exact pyInt_lt_of_lt y _ hy0 (by exact_mod_cast hyH)

/-- Witness for C7 at the all-wall index, x = -1, y = 3. -/
theorem claim_C7_witness :
    (((-1 : ℚ) < 0 ∨ (MAP_WIDTH : ℚ) ≤ -1 ∨ (3 : ℚ) < 0 ∨
        (MAP_HEIGHT : ℚ) ≤ 3) →
      Game.is_wall (fun _ => true) (-1) 3 = true) ∧
    (0 ≤ (-1 : ℚ) → (-1 : ℚ) < (MAP_WIDTH : ℚ) → 0 ≤ (3 : ℚ) →
      (3 : ℚ) < (MAP_HEIGHT : ℚ) →
      Game.is_wall (fun _ => true) (-1) 3 =
        (fun _ => true) (pyInt (-1), pyInt 3)) :=
  claim_C7 (fun _ => true) (fun _ _ _ _ _ _ => rfl) (-1) 3

/-- C3 (amended): apply_player_damage clamps health at zero and, exactly
when the clamped value is zero, synchronously respawns: center spawn
coordinates, health reset to max, and the projectile, explosion and enemy
collections cleared at that moment (the end-of-tick emptiness the original
claim adds fails: see the counterexample). -/
theorem claim_C3 (tun : Tuning) (st : GameSt) (amount : Int) :
    (apply_player_damage tun st amount).2.player_health =
      (if max 0 (st.player_health - amount) = 0 then tun.PLAYER_MAX_HEALTH
       else max 0 (st.player_health - amount)) ∧
    (max 0 (st.player_health - amount) = 0 →
      (apply_player_damage tun st amount).2.player_x =
          (MAP_WIDTH : ℚ) / 2 + 1 / 2 ∧
      (apply_player_damage tun st amount).2.player_y =
          (MAP_HEIGHT : ℚ) / 2 + 1 / 2 ∧
      (apply_player_damage tun st amount).2.projectiles = [] ∧
      (apply_player_damage tun st amount).2.explosions = [] ∧
      (apply_player_damage tun st amount).2.enemies = []) := by
  unfold apply_player_damage
  dsimp only
  split
  · exact ⟨rfl, fun _ => ⟨rfl, rfl, rfl, rfl, rfl⟩⟩
  · rename_i hnz
    exact ⟨rfl, fun h0 => absurd h0 hnz⟩

/-- Counterexample to the end-of-tick emptiness of C3: in a tick whose
enemy projectile kills the player, the respawn (health back to max,
projectiles and enemies cleared) happens mid-update, and the killing
projectile's explosion is then appended to the just-cleared live list, so
the tick ends with a non-empty explosions collection. -/
theorem claim_C3_cex :
    (runProjectilePhase witnessTuning (fun _ _ => 0) (fun _ => false) 1 5
        lethalGameSt).player_health = witnessTuning.PLAYER_MAX_HEALTH ∧
    (runProjectilePhase witnessTuning (fun _ _ => 0) (fun _ => false) 1 5
        lethalGameSt).projectiles = [] ∧
    (runProjectilePhase witnessTuning (fun _ _ => 0) (fun _ => false) 1 5
        lethalGameSt).enemies = [] ∧
    (runProjectilePhase witnessTuning (fun _ _ => 0) (fun _ => false) 1 5
        lethalGameSt).explosions ≠ [] := by
  with_unfolding_all decide

/-- C6 (amended): the explosion of a terminating projectile is emitted at
the projectile's position at the terminating substep — on a wall hit that
is the position just stepped inside the wall, not the last valid
position: if the first substep's trial position is a wall, the explosion
is emitted exactly there. -/
theorem claim_C6 (tun : Tuning) (hyp : ℚ → ℚ → ℚ) (is_wall : ℚ → ℚ → Bool)
    (playerPos : ℚ × ℚ) (playerHitRadius : ℚ) (enemies : List Enemy)
    (hitListIn : List Enemy) (deltaTime timeNow : ℚ) (p : Projectile)
    (hpos : 0 < p.speed * deltaTime)
    (hwall : is_wall
      (p.posX + p.dirX * (p.speed * deltaTime /
        ((max 1 (pyInt (p.speed * deltaTime /
          tun.PROJECTILE_STEP_DISTANCE)).toNat : Nat) : ℚ)))
      (p.posY + p.dirY * (p.speed * deltaTime /
        ((max 1 (pyInt (p.speed * deltaTime /
          tun.PROJECTILE_STEP_DISTANCE)).toNat : Nat) : ℚ))) = true) :
    (stepProjectile tun hyp is_wall playerPos playerHitRadius enemies
        hitListIn deltaTime timeNow p).explosion =
      some ⟨p.posX + p.dirX * (p.speed * deltaTime /
        ((max 1 (pyInt (p.speed * deltaTime /
          tun.PROJECTILE_STEP_DISTANCE)).toNat : Nat) : ℚ)),
        p.posY + p.dirY * (p.speed * deltaTime /
        ((max 1 (pyInt (p.speed * deltaTime /
          tun.PROJECTILE_STEP_DISTANCE)).toNat : Nat) : ℚ)),
        timeNow⟩ := by
  unfold stepProjectile
  dsimp only
  rw [if_neg (not_le.mpr hpos)]
  generalize hN : max 1 (pyInt (p.speed * deltaTime /
    tun.PROJECTILE_STEP_DISTANCE)).toNat = N at hwall ⊢
  have hN1 : 1 ≤ N := hN ▸ le_max_left 1 _
  cases N with
  | zero => omega
  | succ k =>
    unfold projSubstepLoop
    unfold projSubstep
    dsimp only
    rw [if_pos hwall]
    dsimp only
    rw [if_pos rfl, if_pos (Or.inl rfl)]

/-- Witness for C6 with the everywhere-wall test: the explosion is at the
first stepped position. -/
theorem claim_C6_witness :
    (stepProjectile witnessTuning (fun _ _ => 0) (fun _ _ => true) (0, 0)
        witnessTuning.PLAYER_HIT_RADIUS [] [] 1 5 wallboundProjectile).explosion =
      some ⟨wallboundProjectile.posX + wallboundProjectile.dirX *
          (wallboundProjectile.speed * 1 /
          ((max 1 (pyInt (wallboundProjectile.speed * 1 /
            witnessTuning.PROJECTILE_STEP_DISTANCE)).toNat : Nat) : ℚ)),
        wallboundProjectile.posY + wallboundProjectile.dirY *
          (wallboundProjectile.speed * 1 /
          ((max 1 (pyInt (wallboundProjectile.speed * 1 /
            witnessTuning.PROJECTILE_STEP_DISTANCE)).toNat : Nat) : ℚ)),
        5⟩ :=
  claim_C6 witnessTuning (fun _ _ => 0) (fun _ _ => true) (0, 0)
    witnessTuning.PLAYER_HIT_RADIUS [] [] 1 5 wallboundProjectile
    (by simp [wallboundProjectile]) rfl

/-- Counterexample to C6's "not inside a wall cell": against the x ≥ 11
wall half-plane, the projectile from (10.5, 10) terminates with its
explosion at (11, 10) — a position the wall test classifies as wall. -/
theorem claim_C6_cex :
    (update_projectiles witnessTuning (fun _ _ => 0) cexWall
        [wallboundProjectile] [] [] 1 5 (0, 0)
        witnessTuning.PLAYER_HIT_RADIUS).2.1 = [⟨11, 10, 5⟩] ∧
    cexWall 11 10 = true := by
  with_unfolding_all decide

theorem mem_insertDesc (x z : DrawItem) (l : List DrawItem)
    (h : z ∈ insertDesc x l) : z = x ∨ z ∈ l := by
  induction l with
  | nil =>
    unfold insertDesc at h
    exact Or.inl (List.mem_singleton.mp h)
  | cons y ys ih =>
    unfold insertDesc at h
    split at h
    · rcases List.mem_cons.mp h with rfl | hz'
      · exact Or.inl rfl
      · exact Or.inr hz'
    · rcases List.mem_cons.mp h with rfl | hz'
      · exact Or.inr (List.mem_cons_self z ys)
      · rcases ih hz' with rfl | hin
        · exact Or.inl rfl
        · exact Or.inr (List.mem_cons_of_mem y hin)

theorem insertDesc_sorted (x : DrawItem) (l : List DrawItem)
    (h : KeyDesc l) : KeyDesc (insertDesc x l) := by
  induction l with
  | nil =>
    unfold insertDesc KeyDesc
    exact List.pairwise_singleton _ x
  | cons y ys ih =>
    unfold insertDesc
    obtain ⟨hhead, hys⟩ := List.pairwise_cons.mp h
    split
    · rename_i hgt
      refine List.pairwise_cons.mpr ⟨?_, h⟩
      intro z hz
      rcases List.mem_cons.mp hz with rfl | hz'
      · exact le_of_lt hgt
      · exact le_trans (hhead z hz') (le_of_lt hgt)
    · rename_i hng
      refine List.pairwise_cons.mpr ⟨?_, ih hys⟩
      intro z hz
      rcases mem_insertDesc x z ys hz with rfl | hz'
      · exact not_lt.mp hng
      · exact hhead z hz'

theorem sortDesc_sorted (l : List DrawItem) : KeyDesc (sortDesc l) := by
  unfold sortDesc
  refine foldl_preserve KeyDesc _ _ _
    (fun acc x _ hP => insertDesc_sorted x acc hP) ?_
  unfold KeyDesc
  exact List.Pairwise.nil

theorem mem_sortDesc (z : DrawItem) (l : List DrawItem)
    (h : z ∈ sortDesc l) : z ∈ l := by
  unfold sortDesc at h
  have gen : ∀ (l2 : List DrawItem) (acc : List DrawItem),
      z ∈ l2.foldl (fun a x => insertDesc x a) acc → z ∈ acc ∨ z ∈ l2 := by
    intro l2
    induction l2 with
    | nil => exact fun acc hm => Or.inl hm
    | cons y ys ih =>
      intro acc hm
      rcases ih (insertDesc y acc) hm with hin | hin
      · rcases mem_insertDesc y z acc hin with rfl | hacc
        · exact Or.inr (List.mem_cons_self z ys)
        · exact Or.inl hacc
      · exact Or.inr (List.mem_cons_of_mem y hin)
  rcases gen l [] h with hin | hin
  · exact absurd hin (List.not_mem_nil z)
  · exact hin

theorem enemy_items_key_eq_dist (proj : ℚ × ℚ → Option (ℚ × Int))
    (activeEnemies : List Enemy) (z : DrawItem)
    (h : z ∈ activeEnemies.foldl (fun acc e =>
      match proj (e.posX, e.posY) with
      | none => acc
      | some pr => acc ++ [⟨SpriteKind.enemySprite, pr.1, pr.1⟩]) []) :
    z.key = z.dist := by
  have := foldl_preserve (fun acc : List DrawItem => ∀ w ∈ acc, w.key = w.dist)
    (fun acc e =>
      match proj (e.posX, e.posY) with
      | none => acc
      | some pr => acc ++ [⟨SpriteKind.enemySprite, pr.1, pr.1⟩])
    activeEnemies []
    (fun acc e _ hP => ?_) (by intro w hw; exact absurd hw (List.not_mem_nil w))
  · exact this z h
  · dsimp only
    split
    · exact hP
    · intro w hw
      rcases List.mem_append.mp hw with hin | hin
      · exact hP w hin
      · rw [List.mem_singleton.mp hin]

/-- C9 (amended): the frame's entity sprites are drawn in two separate
passes, each sorted descending on its own: the enemy pass (sorted, and
far-to-near, since its sort key is the distance) is blitted entirely
before the projectile/trail/explosion pass (sorted descending by its
stored keys, where a trail's key is its distance + 0.2); there is no
single combined sort across all four sprite kinds. -/
theorem claim_C9 (proj : ℚ × ℚ → Option (ℚ × Int))
    (activeEnemies : List Enemy) (activeProjectiles : List Projectile)
    (activeExplosions : List Explosion) (timeNow explosionDuration : ℚ) :
    FarToNear (draw_enemies_order proj activeEnemies) ∧
    KeyDesc (draw_enemies_order proj activeEnemies) ∧
    KeyDesc (draw_projectiles_order proj activeProjectiles activeExplosions
      timeNow explosionDuration) := by
  have hkd : KeyDesc (draw_enemies_order proj activeEnemies) := by
    unfold draw_enemies_order
    exact sortDesc_sorted _
  refine ⟨?_, hkd, ?_⟩
  · unfold FarToNear
    unfold KeyDesc at hkd
    refine hkd.imp_of_mem ?_
    intro a b ha hb hk
    unfold draw_enemies_order at ha hb
    have hka := enemy_items_key_eq_dist proj activeEnemies a (mem_sortDesc _ _ ha)
    have hkb := enemy_items_key_eq_dist proj activeEnemies b (mem_sortDesc _ _ hb)
    rw [← hka, ← hkb]
    exact hk
  · unfold draw_projectiles_order
    dsimp only
    exact sortDesc_sorted _

/-- Counterexample to the combined far-to-near order of C9: with an enemy
at distance 1 and a projectile at distance 5 (projection reading the x
coordinate), the frame draws the near enemy first and the far projectile
sprites after it, so the combined sequence is not far-to-near. -/
theorem claim_C9_cex :
    ¬FarToNear (frameDrawOrder (fun pos => some (pos.1, 0))
      [{ posX := 1, posY := 0, spawnTime := 0, lastShot := 0 }]
      [{ posX := 5, posY := 0, dirX := 1, dirY := 0, speed := 1,
         distance := 0, spawnTime := 0, owner := Owner.enemy }]
      [] 0 1) := by
  intro hcon
  unfold FarToNear at hcon
  have := hcon
  rw [show frameDrawOrder (fun pos => some (pos.1, 0))
      [{ posX := 1, posY := 0, spawnTime := 0, lastShot := 0 }]
      [{ posX := 5, posY := 0, dirX := 1, dirY := 0, speed := 1,
         distance := 0, spawnTime := 0, owner := Owner.enemy }]
      [] 0 1 =
    [⟨SpriteKind.enemySprite, 1, 1⟩,
     ⟨SpriteKind.projectileTrail, 5, 5 + mkRat 2 10⟩,
     ⟨SpriteKind.projectileBody, 5, 5⟩] from by with_unfolding_all rfl] at this
  have h51 : (5 : ℚ) ≤ 1 :=
    (List.pairwise_cons.mp this).1 ⟨SpriteKind.projectileBody, 5, 5⟩
      (by simp)
  norm_num at h51

theorem projSubstep_out (tun : Tuning) (hyp : ℚ → ℚ → ℚ)
    (is_wall : ℚ → ℚ → Bool) (playerPos : ℚ × ℚ) (playerHitRadius : ℚ)
    (enemies : List Enemy) (owner : Owner) (stepDx stepDy : ℚ)
    (d0 : ℚ) (n0 : Nat) (st : SubstepSt)
    (hhyp : ∀ a b, 0 ≤ hyp a b) (hc : st.collided = false)
    (hd : d0 ≤ st.travelled) (hn : n0 ≤ st.hitList.length) :
    d0 ≤ (projSubstep tun hyp is_wall playerPos playerHitRadius enemies
        owner stepDx stepDy st).travelled ∧
    n0 ≤ (projSubstep tun hyp is_wall playerPos playerHitRadius enemies
        owner stepDx stepDy st).hitList.length ∧
    ((projSubstep tun hyp is_wall playerPos playerHitRadius enemies
        owner stepDx stepDy st).collided = true →
      is_wall (projSubstep tun hyp is_wall playerPos playerHitRadius enemies
          owner stepDx stepDy st).posX
        (projSubstep tun hyp is_wall playerPos playerHitRadius enemies
          owner stepDx stepDy st).posY = true ∨
      n0 < (projSubstep tun hyp is_wall playerPos playerHitRadius enemies
          owner stepDx stepDy st).hitList.length ∨
      (projSubstep tun hyp is_wall playerPos playerHitRadius enemies
          owner stepDx stepDy st).playerHit = true) := by
  unfold projSubstep
  dsimp only
  have hdv : d0 ≤ st.travelled + hyp stepDx stepDy :=
    le_trans hd (le_add_of_nonneg_right (hhyp stepDx stepDy))
  split
  · rename_i hwall
    exact ⟨hdv, hn, fun _ => Or.inl hwall⟩
  · rename_i hnwall
    cases owner with
    | player =>
      dsimp only
      split
      · rename_i e heq
        refine ⟨hdv, ?_, fun _ => Or.inr (Or.inl ?_)⟩ <;>
          simp only [List.length_append, List.length_singleton] <;> omega
      · exact ⟨hdv, hn, fun hcol => absurd hcol (by rw [hc]; simp)⟩
    | enemy =>
      dsimp only
      split
      · exact ⟨hdv, hn, fun _ => Or.inr (Or.inr rfl)⟩
      · exact ⟨hdv, hn, fun hcol => absurd hcol (by rw [hc]; simp)⟩

theorem projSubstepLoop_out (tun : Tuning) (hyp : ℚ → ℚ → ℚ)
    (is_wall : ℚ → ℚ → Bool) (playerPos : ℚ × ℚ) (playerHitRadius : ℚ)
    (enemies : List Enemy) (owner : Owner) (stepDx stepDy : ℚ)
    (d0 : ℚ) (n0 : Nat) (hhyp : ∀ a b, 0 ≤ hyp a b) :
    ∀ (n : Nat) (st : SubstepSt), st.collided = false →
      d0 ≤ st.travelled → n0 ≤ st.hitList.length →
      d0 ≤ (projSubstepLoop tun hyp is_wall playerPos playerHitRadius enemies
          owner stepDx stepDy n st).travelled ∧
      n0 ≤ (projSubstepLoop tun hyp is_wall playerPos playerHitRadius enemies
          owner stepDx stepDy n st).hitList.length ∧
      ((projSubstepLoop tun hyp is_wall playerPos playerHitRadius enemies
          owner stepDx stepDy n st).collided = true →
        is_wall (projSubstepLoop tun hyp is_wall playerPos playerHitRadius
            enemies owner stepDx stepDy n st).posX
          (projSubstepLoop tun hyp is_wall playerPos playerHitRadius
            enemies owner stepDx stepDy n st).posY = true ∨
        n0 < (projSubstepLoop tun hyp is_wall playerPos playerHitRadius
            enemies owner stepDx stepDy n st).hitList.length ∨
        (projSubstepLoop tun hyp is_wall playerPos playerHitRadius enemies
            owner stepDx stepDy n st).playerHit = true)
  | 0, st, hc, hd, hn => by
    unfold projSubstepLoop
    exact ⟨hd, hn, fun hcol => absurd hcol (by rw [hc]; simp)⟩
  | n + 1, st, hc, hd, hn => by
    unfold projSubstepLoop
    dsimp only
    have hstep := projSubstep_out tun hyp is_wall playerPos playerHitRadius
      enemies owner stepDx stepDy d0 n0 st hhyp hc hd hn
    split
    · exact ⟨hstep.1, hstep.2.1, hstep.2.2⟩
    · rename_i hnc
      exact projSubstepLoop_out tun hyp is_wall playerPos playerHitRadius
        enemies owner stepDx stepDy d0 n0 hhyp n _
        (by rw [Bool.not_eq_true] at hnc; exact hnc) hstep.1 hstep.2.1

theorem stepProjectile_exactly_one (tun : Tuning) (hyp : ℚ → ℚ → ℚ)
    (is_wall : ℚ → ℚ → Bool) (playerPos : ℚ × ℚ) (playerHitRadius : ℚ)
    (enemies : List Enemy) (hitListIn : List Enemy) (deltaTime timeNow : ℚ)
    (p : Projectile) :
    (∃ q, (stepProjectile tun hyp is_wall playerPos playerHitRadius enemies
        hitListIn deltaTime timeNow p).alive = some q ∧
      (stepProjectile tun hyp is_wall playerPos playerHitRadius enemies
        hitListIn deltaTime timeNow p).explosion = none) ∨
    ((stepProjectile tun hyp is_wall playerPos playerHitRadius enemies
        hitListIn deltaTime timeNow p).alive = none ∧
      ∃ e, (stepProjectile tun hyp is_wall playerPos playerHitRadius enemies
        hitListIn deltaTime timeNow p).explosion = some e) := by
  unfold stepProjectile
  dsimp only
  split
  · exact Or.inl ⟨p, rfl, rfl⟩
  · split
    · exact Or.inr ⟨rfl, _, rfl⟩
    · exact Or.inl ⟨_, rfl, rfl⟩

theorem updateFold_count (tun : Tuning) (hyp : ℚ → ℚ → ℚ)
    (is_wall : ℚ → ℚ → Bool) (activeEnemies : List Enemy)
    (deltaTime timeNow : ℚ) (playerPos : ℚ × ℚ) (playerHitRadius : ℚ) :
    ∀ (l : List Projectile)
      (acc : List Projectile × List Explosion × List Enemy × Nat),
      (l.foldl (fun acc p =>
        let (updated, explosions, hitList, hits) := acc
        let r := stepProjectile tun hyp is_wall playerPos playerHitRadius
          activeEnemies hitList deltaTime timeNow p
        (updated ++ (match r.alive with | some q => [q] | none => []),
         explosions ++ (match r.explosion with | some e => [e] | none => []),
         r.hitList,
         hits + (if r.playerHit then 1 else 0))) acc).1.length +
      (l.foldl (fun acc p =>
        let (updated, explosions, hitList, hits) := acc
        let r := stepProjectile tun hyp is_wall playerPos playerHitRadius
          activeEnemies hitList deltaTime timeNow p
        (updated ++ (match r.alive with | some q => [q] | none => []),
         explosions ++ (match r.explosion with | some e => [e] | none => []),
         r.hitList,
         hits + (if r.playerHit then 1 else 0))) acc).2.1.length =
      acc.1.length + acc.2.1.length + l.length
  | [], acc => by simp
  | p :: rest, acc => by
    obtain ⟨u, ex, hl, ht⟩ := acc
    rw [List.foldl_cons,
      updateFold_count tun hyp is_wall activeEnemies deltaTime timeNow
        playerPos playerHitRadius rest _]
    dsimp only
    rcases stepProjectile_exactly_one tun hyp is_wall playerPos
        playerHitRadius activeEnemies hl deltaTime timeNow p with
      ⟨q, hal, hex⟩ | ⟨hal, e, hex⟩
    · simp only [hal, hex, List.length_append]
      simp only [List.length_cons, List.length_nil, List.length]
      omega
    · simp only [hal, hex, List.length_append]
      simp only [List.length_cons, List.length_nil, List.length]
      omega

/-- C4: per projectile processed by update_projectiles (with the hypot
abstraction nonnegative, as math.hypot is): while it stays alive its
cumulative distance never decreases and its direction, speed and owner are
unchanged; it is removed and converted into exactly one explosion — and
when that happens, the cause is a wall at the explosion position, a new
enemy on the hit list, a player hit, or the travelled distance having
reached the maximum; and over any input lists, survivors plus emitted
explosions account for every projectile exactly once. -/
theorem claim_C4 (tun : Tuning) (hyp : ℚ → ℚ → ℚ) (is_wall : ℚ → ℚ → Bool)
    (playerPos : ℚ × ℚ) (playerHitRadius : ℚ) (enemies : List Enemy)
    (hitListIn : List Enemy) (deltaTime timeNow : ℚ) (p : Projectile)
    (hhyp : ∀ a b, 0 ≤ hyp a b) :
    (∀ q, (stepProjectile tun hyp is_wall playerPos playerHitRadius enemies
        hitListIn deltaTime timeNow p).alive = some q →
      p.distance ≤ q.distance ∧ q.dirX = p.dirX ∧ q.dirY = p.dirY ∧
      q.speed = p.speed ∧ q.owner = p.owner ∧
      (stepProjectile tun hyp is_wall playerPos playerHitRadius enemies
        hitListIn deltaTime timeNow p).explosion = none) ∧
    ((∃ q, (stepProjectile tun hyp is_wall playerPos playerHitRadius enemies
        hitListIn deltaTime timeNow p).alive = some q ∧
        (stepProjectile tun hyp is_wall playerPos playerHitRadius enemies
        hitListIn deltaTime timeNow p).explosion = none) ∨
      ((stepProjectile tun hyp is_wall playerPos playerHitRadius enemies
        hitListIn deltaTime timeNow p).alive = none ∧
        ∃ e, (stepProjectile tun hyp is_wall playerPos playerHitRadius enemies
        hitListIn deltaTime timeNow p).explosion = some e)) ∧
    (∀ e, (stepProjectile tun hyp is_wall playerPos playerHitRadius enemies
        hitListIn deltaTime timeNow p).explosion = some e →
      is_wall e.posX e.posY = true ∨
      hitListIn.length < (stepProjectile tun hyp is_wall playerPos playerHitRadius enemies
        hitListIn deltaTime timeNow p).hitList.length ∨
      (stepProjectile tun hyp is_wall playerPos playerHitRadius enemies
        hitListIn deltaTime timeNow p).playerHit = true ∨
      tun.PROJECTILE_MAX_DISTANCE ≤
        (projSubstepLoop tun hyp is_wall playerPos playerHitRadius enemies
        p.owner (p.dirX * (p.speed * deltaTime / (((max 1 (pyInt (p.speed * deltaTime / tun.PROJECTILE_STEP_DISTANCE)).toNat : Nat) : ℚ))))
        (p.dirY * (p.speed * deltaTime / (((max 1 (pyInt (p.speed * deltaTime / tun.PROJECTILE_STEP_DISTANCE)).toNat : Nat) : ℚ))))
        (max 1 (pyInt (p.speed * deltaTime / tun.PROJECTILE_STEP_DISTANCE)).toNat)
        { posX := p.posX, posY := p.posY, travelled := p.distance,
          collided := false, hitList := hitListIn, playerHit := false }).travelled) ∧
    (∀ (ps : List Projectile) (exps : List Explosion),
      (update_projectiles tun hyp is_wall ps exps enemies deltaTime timeNow
        playerPos playerHitRadius).1.length +
      (update_projectiles tun hyp is_wall ps exps enemies deltaTime timeNow
        playerPos playerHitRadius).2.1.length = ps.length + exps.length) := by
  refine ⟨?_, stepProjectile_exactly_one tun hyp is_wall playerPos
    playerHitRadius enemies hitListIn deltaTime timeNow p, ?_, ?_⟩
  · intro q
    unfold stepProjectile
    dsimp only
    split
    · intro hq
      obtain rfl := Option.some.inj hq
      exact ⟨le_refl _, rfl, rfl, rfl, rfl, rfl⟩
    · split
      · intro hq
        exact absurd hq (by simp)
      · intro hq
        obtain rfl := Option.some.inj hq
        refine ⟨?_, rfl, rfl, rfl, rfl, rfl⟩
        dsimp only
        exact (projSubstepLoop_out tun hyp is_wall playerPos playerHitRadius
          enemies p.owner _ _ p.distance hitListIn.length hhyp _
          { posX := p.posX, posY := p.posY, travelled := p.distance,
            collided := false, hitList := hitListIn, playerHit := false } rfl
          (le_refl _) (le_refl _)).1
  · intro e
    unfold stepProjectile
    dsimp only
    split
    · intro he
      exact absurd he (by simp)
    · split
      · rename_i hterm
        intro he
        obtain rfl := Option.some.inj he
        dsimp only
        have hloop := projSubstepLoop_out tun hyp is_wall playerPos
          playerHitRadius enemies p.owner
          (p.dirX * (p.speed * deltaTime / (((max 1 (pyInt (p.speed *
            deltaTime / tun.PROJECTILE_STEP_DISTANCE)).toNat : Nat) : ℚ))))
          (p.dirY * (p.speed * deltaTime / (((max 1 (pyInt (p.speed *
            deltaTime / tun.PROJECTILE_STEP_DISTANCE)).toNat : Nat) : ℚ))))
          p.distance hitListIn.length
          hhyp (max 1 (pyInt (p.speed * deltaTime /
            tun.PROJECTILE_STEP_DISTANCE)).toNat)
          { posX := p.posX, posY := p.posY, travelled := p.distance,
            collided := false, hitList := hitListIn, playerHit := false } rfl (le_refl _) (le_refl _)
        rcases hterm with hcol | hmax
        · rcases hloop.2.2 hcol with hw | hh | hp2
          · exact Or.inl hw
          · exact Or.inr (Or.inl hh)
          · exact Or.inr (Or.inr (Or.inl hp2))
        · exact Or.inr (Or.inr (Or.inr hmax))
      · intro he
        exact absurd he (by simp)
  · intro ps exps
    unfold update_projectiles
    rw [updateFold_count tun hyp is_wall enemies deltaTime timeNow playerPos
      playerHitRadius ps ([], exps, [], 0)]
    simp only [List.length_nil]
    omega

/-- Witness for C4 at a concrete tuning, wall, and projectile. -/
theorem claim_C4_witness :
    (∀ q, (stepProjectile witnessTuning (fun _ _ => (0 : ℚ)) cexWall (0, 0) 0 []
        [] 1 0 wallboundProjectile).alive = some q →
      wallboundProjectile.distance ≤ q.distance ∧ q.dirX = wallboundProjectile.dirX ∧ q.dirY = wallboundProjectile.dirY ∧
      q.speed = wallboundProjectile.speed ∧ q.owner = wallboundProjectile.owner ∧
      (stepProjectile witnessTuning (fun _ _ => (0 : ℚ)) cexWall (0, 0) 0 []
        [] 1 0 wallboundProjectile).explosion = none) ∧
    ((∃ q, (stepProjectile witnessTuning (fun _ _ => (0 : ℚ)) cexWall (0, 0) 0 []
        [] 1 0 wallboundProjectile).alive = some q ∧
        (stepProjectile witnessTuning (fun _ _ => (0 : ℚ)) cexWall (0, 0) 0 []
        [] 1 0 wallboundProjectile).explosion = none) ∨
      ((stepProjectile witnessTuning (fun _ _ => (0 : ℚ)) cexWall (0, 0) 0 []
        [] 1 0 wallboundProjectile).alive = none ∧
        ∃ e, (stepProjectile witnessTuning (fun _ _ => (0 : ℚ)) cexWall (0, 0) 0 []
        [] 1 0 wallboundProjectile).explosion = some e)) ∧
    (∀ e, (stepProjectile witnessTuning (fun _ _ => (0 : ℚ)) cexWall (0, 0) 0 []
        [] 1 0 wallboundProjectile).explosion = some e →
      cexWall e.posX e.posY = true ∨
      ([] : List Enemy).length < (stepProjectile witnessTuning (fun _ _ => (0 : ℚ)) cexWall (0, 0) 0 []
        [] 1 0 wallboundProjectile).hitList.length ∨
      (stepProjectile witnessTuning (fun _ _ => (0 : ℚ)) cexWall (0, 0) 0 []
        [] 1 0 wallboundProjectile).playerHit = true ∨
      witnessTuning.PROJECTILE_MAX_DISTANCE ≤
        (projSubstepLoop witnessTuning (fun _ _ => (0 : ℚ)) cexWall (0, 0) 0 []
        wallboundProjectile.owner (wallboundProjectile.dirX * (wallboundProjectile.speed * (1 : ℚ) / (((max 1 (pyInt (wallboundProjectile.speed * (1 : ℚ) / witnessTuning.PROJECTILE_STEP_DISTANCE)).toNat : Nat) : ℚ))))
        (wallboundProjectile.dirY * (wallboundProjectile.speed * (1 : ℚ) / (((max 1 (pyInt (wallboundProjectile.speed * (1 : ℚ) / witnessTuning.PROJECTILE_STEP_DISTANCE)).toNat : Nat) : ℚ))))
        (max 1 (pyInt (wallboundProjectile.speed * (1 : ℚ) / witnessTuning.PROJECTILE_STEP_DISTANCE)).toNat)
        { posX := wallboundProjectile.posX, posY := wallboundProjectile.posY, travelled := wallboundProjectile.distance,
          collided := false, hitList := [], playerHit := false }).travelled) ∧
    (∀ (ps : List Projectile) (exps : List Explosion),
      (update_projectiles witnessTuning (fun _ _ => (0 : ℚ)) cexWall ps exps []
        1 0 (0, 0) 0).1.length +
      (update_projectiles witnessTuning (fun _ _ => (0 : ℚ)) cexWall ps exps []
        1 0 (0, 0) 0).2.1.length = ps.length + exps.length) :=
  claim_C4 witnessTuning (fun _ _ => (0 : ℚ)) cexWall (0, 0) 0 [] [] 1 0
    wallboundProjectile (fun _ _ => le_refl 0)

theorem ddaLoop_spec (wallCache : Int × Int → Bool) (maxDepth : ℚ)
    (stepX stepY : Int) (deltaDistX deltaDistY ca sa px py : ℚ)
    (hca : ca ≠ 0) (hsa : sa ≠ 0)
    (hddx : deltaDistX * |ca| = 1) (hddy : deltaDistY * |sa| = 1)
    (hsx : stepX = 1 ∨ stepX = -1) (hsy : stepY = 1 ∨ stepY = -1)
    (hpx0 : 0 ≤ px) (hpxW : px ≤ (MAP_WIDTH : ℚ))
    (hpy0 : 0 ≤ py) (hpyH : py ≤ (MAP_HEIGHT : ℚ)) :
    ∀ (n : Nat) (st : DdaSt),
      0 ≤ st.map_x → st.map_x < (MAP_WIDTH : Int) →
      0 ≤ st.map_y → st.map_y < (MAP_HEIGHT : Int) →
      0 ≤ st.side_dist_x → 0 ≤ st.side_dist_y →
      st.side_dist_x * |ca| =
        (if stepX = 1 then (st.map_x : ℚ) + 1 - px else px - (st.map_x : ℚ)) →
      st.side_dist_y * |sa| =
        (if stepY = 1 then (st.map_y : ℚ) + 1 - py else py - (st.map_y : ℚ)) →
      ((ddaLoop wallCache maxDepth stepX stepY deltaDistX deltaDistY
          n st).distance = maxDepth ∧
        (ddaLoop wallCache maxDepth stepX stepY deltaDistX deltaDistY
          n st).side = 0) ∨
      (0 ≤ (ddaLoop wallCache maxDepth stepX stepY deltaDistX deltaDistY
          n st).distance ∧
       (ddaLoop wallCache maxDepth stepX stepY deltaDistX deltaDistY
          n st).distance * |ca| ≤ (MAP_WIDTH : ℚ) ∧
       (ddaLoop wallCache maxDepth stepX stepY deltaDistX deltaDistY
          n st).distance * |sa| ≤ (MAP_HEIGHT : ℚ) ∧
       0 ≤ (ddaLoop wallCache maxDepth stepX stepY deltaDistX deltaDistY
          n st).map_x ∧
       (ddaLoop wallCache maxDepth stepX stepY deltaDistX deltaDistY
          n st).map_x < (MAP_WIDTH : Int) ∧
       0 ≤ (ddaLoop wallCache maxDepth stepX stepY deltaDistX deltaDistY
          n st).map_y ∧
       (ddaLoop wallCache maxDepth stepX stepY deltaDistX deltaDistY
          n st).map_y < (MAP_HEIGHT : Int) ∧
       wallCache ((ddaLoop wallCache maxDepth stepX stepY deltaDistX
          deltaDistY n st).map_x,
         (ddaLoop wallCache maxDepth stepX stepY deltaDistX deltaDistY
          n st).map_y) = true)
  | 0, st, _, _, _, _, _, _, _, _ => by
    unfold ddaLoop
    exact Or.inl ⟨rfl, rfl⟩
  | n + 1, st, hx0, hxW, hy0, hyH, hsdx0, hsdy0, hXI, hYI => by
    have hca0 : 0 < |ca| := abs_pos.mpr hca
    have hsa0 : 0 < |sa| := abs_pos.mpr hsa
    have hddx0 : 0 ≤ deltaDistX := by nlinarith
    have hddy0 : 0 ≤ deltaDistY := by nlinarith
    unfold ddaLoop
    dsimp only
    split
    · rename_i hlt
      dsimp only
      split
      · exact Or.inl ⟨rfl, rfl⟩
      · rename_i hib
        push_neg at hib
        obtain ⟨hb1, hb2, hb3, hb4⟩ := hib
        split
        · rename_i hwall
          refine Or.inr ⟨hsdx0, ?_, ?_, hb1, hb2, hb3, hb4, hwall⟩
          · rw [hXI]
            rcases hsx with rfl | rfl
            · rw [if_pos rfl]
              have hc : ((st.map_x : ℚ) + 1) ≤ (MAP_WIDTH : ℚ) := by
                have : (st.map_x + 1 : Int) ≤ (MAP_WIDTH : Int) := by omega
                exact_mod_cast this
              linarith
            · rw [if_neg (by decide)]
              have hc : (0 : ℚ) ≤ (st.map_x : ℚ) := by exact_mod_cast hx0
              linarith
          · have hstep : st.side_dist_x * |sa| ≤ st.side_dist_y * |sa| :=
              mul_le_mul_of_nonneg_right (le_of_lt hlt) (abs_nonneg sa)
            rw [hYI] at hstep
            refine le_trans hstep ?_
            rcases hsy with rfl | rfl
            · rw [if_pos rfl]
              have hc : ((st.map_y : ℚ) + 1) ≤ (MAP_HEIGHT : ℚ) := by
                have : (st.map_y + 1 : Int) ≤ (MAP_HEIGHT : Int) := by omega
                exact_mod_cast this
              linarith
            · rw [if_neg (by decide)]
              have hc : (0 : ℚ) ≤ (st.map_y : ℚ) := by exact_mod_cast hy0
              linarith
        · rename_i hnw
          refine ddaLoop_spec wallCache maxDepth stepX stepY deltaDistX
            deltaDistY ca sa px py hca hsa hddx hddy hsx hsy hpx0 hpxW
            hpy0 hpyH n _ hb1 hb2 hb3 hb4 (add_nonneg hsdx0 hddx0) hsdy0
            ?_ ?_
          · dsimp only
            rw [add_mul, hXI, hddx]
            rcases hsx with rfl | rfl
            · rw [if_pos rfl, if_pos rfl]
              push_cast
              ring
            · rw [if_neg (by decide), if_neg (by decide)]
              push_cast
              ring
          · exact hYI
    · rename_i hge
      dsimp only
      split
      · exact Or.inl ⟨rfl, rfl⟩
      · rename_i hib
        push_neg at hib
        obtain ⟨hb1, hb2, hb3, hb4⟩ := hib
        split
        · rename_i hwall
          refine Or.inr ⟨hsdy0, ?_, ?_, hb1, hb2, hb3, hb4, hwall⟩
          · have hstep : st.side_dist_y * |ca| ≤ st.side_dist_x * |ca| :=
              mul_le_mul_of_nonneg_right (not_lt.mp hge) (abs_nonneg ca)
            rw [hXI] at hstep
            refine le_trans hstep ?_
            rcases hsx with rfl | rfl
            · rw [if_pos rfl]
              have hc : ((st.map_x : ℚ) + 1) ≤ (MAP_WIDTH : ℚ) := by
                have : (st.map_x + 1 : Int) ≤ (MAP_WIDTH : Int) := by omega
                exact_mod_cast this
              linarith
            · rw [if_neg (by decide)]
              have hc : (0 : ℚ) ≤ (st.map_x : ℚ) := by exact_mod_cast hx0
              linarith
          · rw [hYI]
            rcases hsy with rfl | rfl
            · rw [if_pos rfl]
              have hc : ((st.map_y : ℚ) + 1) ≤ (MAP_HEIGHT : ℚ) := by
                have : (st.map_y + 1 : Int) ≤ (MAP_HEIGHT : Int) := by omega
                exact_mod_cast this
              linarith
            · rw [if_neg (by decide)]
              have hc : (0 : ℚ) ≤ (st.map_y : ℚ) := by exact_mod_cast hy0
              linarith
        · rename_i hnw
          refine ddaLoop_spec wallCache maxDepth stepX stepY deltaDistX
            deltaDistY ca sa px py hca hsa hddx hddy hsx hsy hpx0 hpxW
            hpy0 hpyH n _ hb1 hb2 hb3 hb4 hsdx0 (add_nonneg hsdy0 hddy0)
            ?_ ?_
          · exact hXI
          · dsimp only
            rw [add_mul, hYI, hddy]
            rcases hsy with rfl | rfl
            · rw [if_pos rfl, if_pos rfl]
              push_cast
              ring
            · rw [if_neg (by decide), if_neg (by decide)]
              push_cast
              ring

theorem pyInt_cast_le (x : ℚ) (h : 0 ≤ x) : ((pyInt x : Int) : ℚ) ≤ x := by
  unfold pyInt
  rw [if_pos h]
  exact Rat.le_floor.mp (le_refl _)

theorem lt_pyInt_add_one (x : ℚ) (h : 0 ≤ x) : x < ((pyInt x : Int) : ℚ) + 1 := by
  unfold pyInt
  rw [if_pos h]
  by_contra hcon
  push_neg at hcon
  have hle : x.floor + 1 ≤ x.floor := Rat.le_floor.mpr (by push_cast; linarith)
  omega

theorem dda_depth_bound (d maxDepth ca sa sinA cosA : ℚ)
    (hnorm : sinA * sinA + cosA * cosA = 1)
    (habs1 : |sinA| ≤ |sa|) (habs2 : |cosA| ≤ |ca|)
    (hd0 : 0 ≤ d) (h1 : d * |ca| ≤ (MAP_WIDTH : ℚ))
    (h2 : d * |sa| ≤ (MAP_HEIGHT : ℚ)) (hmd0 : 0 ≤ maxDepth)
    (hmd : (MAP_WIDTH : ℚ) * (MAP_WIDTH : ℚ) +
      (MAP_HEIGHT : ℚ) * (MAP_HEIGHT : ℚ) ≤ maxDepth * maxDepth) :
    d ≤ maxDepth := by
  have h1' : (d * |ca|) * (d * |ca|) ≤ (MAP_WIDTH : ℚ) * (MAP_WIDTH : ℚ) :=
    mul_self_le_mul_self (mul_nonneg hd0 (abs_nonneg ca)) h1
  have h2' : (d * |sa|) * (d * |sa|) ≤ (MAP_HEIGHT : ℚ) * (MAP_HEIGHT : ℚ) :=
    mul_self_le_mul_self (mul_nonneg hd0 (abs_nonneg sa)) h2
  have e1 : sinA * sinA ≤ sa * sa := by
    have := mul_self_le_mul_self (abs_nonneg sinA) habs1
    simpa [abs_mul_abs_self] using this
  have e2 : cosA * cosA ≤ ca * ca := by
    have := mul_self_le_mul_self (abs_nonneg cosA) habs2
    simpa [abs_mul_abs_self] using this
  have hn : 1 ≤ ca * ca + sa * sa := by linarith
  have hsq : d * d ≤ maxDepth * maxDepth := by
    have hca2 : (d * |ca|) * (d * |ca|) = (d * d) * (ca * ca) := by
      rw [show (d * |ca|) * (d * |ca|) = (d * d) * (|ca| * |ca|) from by ring,
        abs_mul_abs_self]
    have hsa2 : (d * |sa|) * (d * |sa|) = (d * d) * (sa * sa) := by
      rw [show (d * |sa|) * (d * |sa|) = (d * d) * (|sa| * |sa|) from by ring,
        abs_mul_abs_self]
    nlinarith [mul_nonneg hd0 hd0]
  nlinarith [hsq, hd0, hmd0]

/-- C5: for every position inside the map and every exact (sine, cosine)
pair of an angle (the in-code clamping can only grow the pair's norm),
cast_single_ray returns either the maximum-depth sentinel or a hit with
0 ≤ distance ≤ max-depth and hit cell coordinates inside map bounds; the
hypothesis hmd states that the max-depth parameter is at least
hypot(MAP_WIDTH, MAP_HEIGHT), as raycast.py line 16 defines MAX_DEPTH. -/
theorem claim_C5 (wallCache : Int × Int → Bool)
    (maxDepth px py sinA cosA : ℚ)
    (hnorm : sinA * sinA + cosA * cosA = 1)
    (hpx0 : 0 ≤ px) (hpxW : px < (MAP_WIDTH : ℚ))
    (hpy0 : 0 ≤ py) (hpyH : py < (MAP_HEIGHT : ℚ))
    (hmd0 : 0 ≤ maxDepth)
    (hmd : (MAP_WIDTH : ℚ) * (MAP_WIDTH : ℚ) +
      (MAP_HEIGHT : ℚ) * (MAP_HEIGHT : ℚ) ≤ maxDepth * maxDepth) :
    ((cast_single_ray wallCache maxDepth px py sinA cosA).distance = maxDepth ∧ (cast_single_ray wallCache maxDepth px py sinA cosA).side = 0) ∨
    (0 ≤ (cast_single_ray wallCache maxDepth px py sinA cosA).distance ∧ (cast_single_ray wallCache maxDepth px py sinA cosA).distance ≤ maxDepth ∧
     0 ≤ (cast_single_ray wallCache maxDepth px py sinA cosA).map_x ∧ (cast_single_ray wallCache maxDepth px py sinA cosA).map_x < (MAP_WIDTH : Int) ∧
     0 ≤ (cast_single_ray wallCache maxDepth px py sinA cosA).map_y ∧ (cast_single_ray wallCache maxDepth px py sinA cosA).map_y < (MAP_HEIGHT : Int) ∧
     wallCache ((cast_single_ray wallCache maxDepth px py sinA cosA).map_x, (cast_single_ray wallCache maxDepth px py sinA cosA).map_y) = true) := by
  have heps : (0 : ℚ) < mkRat 1 1000000 := by decide
  unfold cast_single_ray
  dsimp only
  generalize hsadef :
    (if |sinA| > mkRat 1 1000000 then sinA else mkRat 1 1000000) = sa2
  generalize hcadef :
    (if |cosA| > mkRat 1 1000000 then cosA else mkRat 1 1000000) = ca2
  have hsane : sa2 ≠ 0 := by
    rw [← hsadef]
    split
    · rename_i h
      exact abs_pos.mp (lt_trans heps h)
    · exact ne_of_gt heps
  have hcane : ca2 ≠ 0 := by
    rw [← hcadef]
    split
    · rename_i h
      exact abs_pos.mp (lt_trans heps h)
    · exact ne_of_gt heps
  have habssa : |sinA| ≤ |sa2| := by
    rw [← hsadef]
    split
    · exact le_refl _
    · rename_i h
      push_neg at h
      exact le_trans h (le_abs_self _)
  have habsca : |cosA| ≤ |ca2| := by
    rw [← hcadef]
    split
    · exact le_refl _
    · rename_i h
      push_neg at h
      exact le_trans h (le_abs_self _)
  have hddx1 : |1/ca2| * |ca2| = 1 := by
    rw [← abs_mul, one_div_mul_cancel hcane, abs_one]
  have hddy1 : |1/sa2| * |sa2| = 1 := by
    rw [← abs_mul, one_div_mul_cancel hsane, abs_one]
  have hmxW : pyInt px < (MAP_WIDTH : Int) :=
    pyInt_lt_of_lt px _ hpx0 (by exact_mod_cast hpxW)
  have hmyH : pyInt py < (MAP_HEIGHT : Int) :=
    pyInt_lt_of_lt py _ hpy0 (by exact_mod_cast hpyH)
  split
  · rename_i hcpos
    dsimp only
    split
    · rename_i hspos
      dsimp only
      rcases ddaLoop_spec wallCache maxDepth 1 1 (|1/ca2|) (|1/sa2|) ca2 sa2
        px py hcane hsane hddx1 hddy1 (Or.inl rfl) (Or.inl rfl)
        hpx0 (le_of_lt hpxW) hpy0 (le_of_lt hpyH) MAX_RAY_STEPS
        { map_x := pyInt px, map_y := pyInt py,
          side_dist_x := (((pyInt px : Int) : ℚ) + 1 - px) * |1/ca2|,
          side_dist_y := (((pyInt py : Int) : ℚ) + 1 - py) * |1/sa2| }
        (pyInt_nonneg px hpx0) hmxW (pyInt_nonneg py hpy0) hmyH
        (mul_nonneg (by linarith [lt_pyInt_add_one px hpx0]) (abs_nonneg (1/ca2)))
        (mul_nonneg (by linarith [lt_pyInt_add_one py hpy0]) (abs_nonneg (1/sa2)))
        (by dsimp only; rw [if_pos rfl, mul_assoc, hddx1, mul_one])
        (by dsimp only; rw [if_pos rfl, mul_assoc, hddy1, mul_one])
        with hl | hr
      · exact Or.inl hl
      · exact Or.inr ⟨hr.1,
          dda_depth_bound _ maxDepth ca2 sa2 sinA cosA hnorm habssa habsca
            hr.1 hr.2.1 hr.2.2.1 hmd0 hmd, hr.2.2.2⟩
    · rename_i hsneg
      dsimp only
      rcases ddaLoop_spec wallCache maxDepth 1 (-1) (|1/ca2|) (|1/sa2|) ca2 sa2
        px py hcane hsane hddx1 hddy1 (Or.inl rfl) (Or.inr rfl)
        hpx0 (le_of_lt hpxW) hpy0 (le_of_lt hpyH) MAX_RAY_STEPS
        { map_x := pyInt px, map_y := pyInt py,
          side_dist_x := (((pyInt px : Int) : ℚ) + 1 - px) * |1/ca2|,
          side_dist_y := (py - ((pyInt py : Int) : ℚ)) * |1/sa2| }
        (pyInt_nonneg px hpx0) hmxW (pyInt_nonneg py hpy0) hmyH
        (mul_nonneg (by linarith [lt_pyInt_add_one px hpx0]) (abs_nonneg (1/ca2)))
        (mul_nonneg (by linarith [pyInt_cast_le py hpy0]) (abs_nonneg (1/sa2)))
        (by dsimp only; rw [if_pos rfl, mul_assoc, hddx1, mul_one])
        (by dsimp only; rw [if_neg (by decide), mul_assoc, hddy1, mul_one])
        with hl | hr
      · exact Or.inl hl
      · exact Or.inr ⟨hr.1,
          dda_depth_bound _ maxDepth ca2 sa2 sinA cosA hnorm habssa habsca
            hr.1 hr.2.1 hr.2.2.1 hmd0 hmd, hr.2.2.2⟩
  · rename_i hcneg
    dsimp only
    split
    · rename_i hspos
      dsimp only
      rcases ddaLoop_spec wallCache maxDepth (-1) 1 (|1/ca2|) (|1/sa2|) ca2 sa2
        px py hcane hsane hddx1 hddy1 (Or.inr rfl) (Or.inl rfl)
        hpx0 (le_of_lt hpxW) hpy0 (le_of_lt hpyH) MAX_RAY_STEPS
        { map_x := pyInt px, map_y := pyInt py,
          side_dist_x := (px - ((pyInt px : Int) : ℚ)) * |1/ca2|,
          side_dist_y := (((pyInt py : Int) : ℚ) + 1 - py) * |1/sa2| }
        (pyInt_nonneg px hpx0) hmxW (pyInt_nonneg py hpy0) hmyH
        (mul_nonneg (by linarith [pyInt_cast_le px hpx0]) (abs_nonneg (1/ca2)))
        (mul_nonneg (by linarith [lt_pyInt_add_one py hpy0]) (abs_nonneg (1/sa2)))
        (by dsimp only; rw [if_neg (by decide), mul_assoc, hddx1, mul_one])
        (by dsimp only; rw [if_pos rfl, mul_assoc, hddy1, mul_one])
        with hl | hr
      · exact Or.inl hl
      · exact Or.inr ⟨hr.1,
          dda_depth_bound _ maxDepth ca2 sa2 sinA cosA hnorm habssa habsca
            hr.1 hr.2.1 hr.2.2.1 hmd0 hmd, hr.2.2.2⟩
    · rename_i hsneg
      dsimp only
      rcases ddaLoop_spec wallCache maxDepth (-1) (-1) (|1/ca2|) (|1/sa2|) ca2 sa2
        px py hcane hsane hddx1 hddy1 (Or.inr rfl) (Or.inr rfl)
        hpx0 (le_of_lt hpxW) hpy0 (le_of_lt hpyH) MAX_RAY_STEPS
        { map_x := pyInt px, map_y := pyInt py,
          side_dist_x := (px - ((pyInt px : Int) : ℚ)) * |1/ca2|,
          side_dist_y := (py - ((pyInt py : Int) : ℚ)) * |1/sa2| }
        (pyInt_nonneg px hpx0) hmxW (pyInt_nonneg py hpy0) hmyH
        (mul_nonneg (by linarith [pyInt_cast_le px hpx0]) (abs_nonneg (1/ca2)))
        (mul_nonneg (by linarith [pyInt_cast_le py hpy0]) (abs_nonneg (1/sa2)))
        (by dsimp only; rw [if_neg (by decide), mul_assoc, hddx1, mul_one])
        (by dsimp only; rw [if_neg (by decide), mul_assoc, hddy1, mul_one])
        with hl | hr
      · exact Or.inl hl
      · exact Or.inr ⟨hr.1,
          dda_depth_bound _ maxDepth ca2 sa2 sinA cosA hnorm habssa habsca
            hr.1 hr.2.1 hr.2.2.1 hmd0 hmd, hr.2.2.2⟩

theorem c5_facts :
    (0 : ℚ) * 0 + 1 * 1 = 1 ∧ (0 : ℚ) ≤ 1/2 ∧
    (1/2 : ℚ) < (MAP_WIDTH : ℚ) ∧ (0 : ℚ) ≤ 730 ∧
    (MAP_WIDTH : ℚ) * (MAP_WIDTH : ℚ) +
      (MAP_HEIGHT : ℚ) * (MAP_HEIGHT : ℚ) ≤ (730 : ℚ) * 730 := by
  norm_num [MAP_WIDTH, MAP_HEIGHT]

/-- Witness for C5 at the all-wall cache, center-cell position and the
angle 0 pair (sin, cos) = (0, 1), with max depth 730. -/
theorem claim_C5_witness :
    ((cast_single_ray (fun _ => true) 730 (1/2) (1/2) 0 1).distance = 730 ∧
     (cast_single_ray (fun _ => true) 730 (1/2) (1/2) 0 1).side = 0) ∨
    (0 ≤ (cast_single_ray (fun _ => true) 730 (1/2) (1/2) 0 1).distance ∧
     (cast_single_ray (fun _ => true) 730 (1/2) (1/2) 0 1).distance ≤ 730 ∧
     0 ≤ (cast_single_ray (fun _ => true) 730 (1/2) (1/2) 0 1).map_x ∧
     (cast_single_ray (fun _ => true) 730 (1/2) (1/2) 0 1).map_x <
       (MAP_WIDTH : Int) ∧
     0 ≤ (cast_single_ray (fun _ => true) 730 (1/2) (1/2) 0 1).map_y ∧
     (cast_single_ray (fun _ => true) 730 (1/2) (1/2) 0 1).map_y <
       (MAP_HEIGHT : Int) ∧
     (fun _ => true) ((cast_single_ray (fun _ => true) 730 (1/2) (1/2) 0
         1).map_x,
       (cast_single_ray (fun _ => true) 730 (1/2) (1/2) 0 1).map_y) =
         true) :=
  claim_C5 (fun _ => true) 730 (1/2) (1/2) 0 1 c5_facts.1 c5_facts.2.1
    c5_facts.2.2.1 c5_facts.2.1 c5_facts.2.2.1 c5_facts.2.2.2.1
    c5_facts.2.2.2.2
